import Mathlib

/-!
# easy_poll: a readiness multiplexer with three backends

Shallow embedding of `easy_event.h`, `poll_poller.c`, `epoll_poller.c` and
`select_poller.c`.

Conventions of the embedding.

* C `int` values that can be negative (`fd`, event masks, return codes,
  `maxFd`, `timeout`) are `Int`; array sizes and indices (`eventSize`,
  `eventCapacity`, loop counters), which the code never makes negative, are
  `Nat`.  No arithmetic in the modelled functions can leave the `int` range.
* `eventList` is the whole allocated array (a `List` of `eventCapacity`
  cells); the interest table proper is its prefix of length `eventSize`.
* A `for` loop that runs a counter up to a bound is a structural recursion
  on the number of iterations that remain.
* A function named as in the source models the path on which the handle and
  the pointers it is given are non-null; the function of the same name with
  `Ptr` appended adds the null checks (`none` is a null pointer).  The mutex
  is not part of the state.
* The operating system is an argument: each function that calls the OS
  takes the OS primitive as a function and returns the list of the calls it
  issued next to its result.
* `fd_set` is an array of `FD_SETSIZE` bits; where a call of the select backend
  accesses a bit outside such an array, what it leaves is `none`.
-/

namespace Poller

/-! ## easy_event.h -/

/-- The constant `EVENT_READ` of `EventType_e`. -/
def EVENT_READ : Int := 1

/-- The constant `EVENT_WRITE` of `EventType_e`. -/
def EVENT_WRITE : Int := 2

/-- The constant `EVENT_ERROR` of `EventType_e`. -/
def EVENT_ERROR : Int := 4

/-- The struct `EasyEvent_t`. -/
structure EasyEvent where
  fd : Int
  event : Int
  retEvent : Int
deriving DecidableEq, Repr, Inhabited

/-- The C test `x & flag` used as a condition: true when the result is non-zero. -/
def hasFlag (x flag : Int) : Bool := decide (Int.land x flag ≠ 0)

/-! ## Shared array primitives -/

/-- The scan `for (; idx < eventSize; idx++) if (eventList[idx].fd == fd) break;`
with `n` iterations left; the value is `idx` when the loop ends. -/
def scanFd (eventList : List EasyEvent) (fd : Int) : Nat → Nat → Nat
  | 0, idx => idx
  | n + 1, idx =>
    if (eventList.getD idx default).fd = fd then idx
    else scanFd eventList fd n (idx + 1)

/-- The call `memmove(&a[dst], &a[src], n * sizeof(EasyEvent_t))`: the `n` cells
from `src` on are copied over the `n` cells from `dst` on. -/
def memmove (a : List EasyEvent) (dst src n : Nat) : List EasyEvent :=
  a.take dst ++ (a.drop src).take n ++ a.drop (dst + n)

/-- The clamp `if (size <= 0) size = 1;` of the three `Create` functions. -/
def clampSize (size : Int) : Nat := if size ≤ 0 then 1 else size.toNat

/-- The result of `calloc(size, sizeof(EasyEvent_t))`: `size` zeroed cells. -/
def callocEvents (size : Nat) : List EasyEvent := List.replicate size ⟨0, 0, 0⟩

/-! ## poll_poller.c -/

/-- The struct `EasyPoll_t` (without its mutex). -/
structure EasyPoll where
  eventCapacity : Nat
  eventSize : Nat
  eventList : List EasyEvent
deriving DecidableEq, Repr

/-- The function `PollCreate`: `mallocOk` and `callocOk` say whether the two allocations succeed. -/
def PollCreate (mallocOk callocOk : Bool) (size : Int) : Option EasyPoll :=
  if !mallocOk then none
  else if !callocOk then none
  else some { eventCapacity := clampSize size, eventSize := 0,
              eventList := callocEvents (clampSize size) }

/-- The function `PollRemoveEvent`: the return code and the state after the call. -/
def PollRemoveEvent (ep : EasyPoll) (event : EasyEvent) : Int × EasyPoll :=
  if event.fd < 0 then (-1, ep)
  else
    let idx := scanFd ep.eventList event.fd ep.eventSize 0
    if idx < ep.eventSize then
      (0, { ep with
              eventList := memmove ep.eventList idx (idx + 1) (ep.eventSize - idx - 1),
              eventSize := ep.eventSize - 1 })
    else (0, ep)

/-- The function `PollUpdateEvent`: the return code and the state after the call. -/
def PollUpdateEvent (ep : EasyPoll) (event : EasyEvent) : Int × EasyPoll :=
  if event.fd < 0 then (-1, ep)
  else
    let idx := scanFd ep.eventList event.fd ep.eventSize 0
    if idx = ep.eventSize then
      if ep.eventSize ≥ ep.eventCapacity then (-1, ep)
      else (0, { ep with eventList := ep.eventList.set idx event,
                         eventSize := ep.eventSize + 1 })
    else (0, { ep with eventList := ep.eventList.set idx event })

/-- The function `PollAddEvent` forwards to `PollUpdateEvent`. -/
def PollAddEvent (ep : EasyPoll) (event : EasyEvent) : Int × EasyPoll :=
  PollUpdateEvent ep event

/-- The struct `pollfd` of `<poll.h>`. -/
structure pollfd where
  fd : Int
  events : Int
  revents : Int
deriving DecidableEq, Repr, Inhabited

/-- The flag `POLLIN` of `<poll.h>` (Linux value). -/
def POLLIN : Int := 0x001

/-- The flag `POLLPRI` of `<poll.h>` (Linux value). -/
def POLLPRI : Int := 0x002

/-- The flag `POLLOUT` of `<poll.h>` (Linux value). -/
def POLLOUT : Int := 0x004

/-- The flag `POLLERR` of `<poll.h>` (Linux value). -/
def POLLERR : Int := 0x008

/-- The flag `POLLHUP` of `<poll.h>` (Linux value). -/
def POLLHUP : Int := 0x010

/-- The flag `POLLNVAL` of `<poll.h>` (Linux value). -/
def POLLNVAL : Int := 0x020

/-- The flag `POLLRDHUP` of `<poll.h>` (Linux value). -/
def POLLRDHUP : Int := 0x2000

/-- The OS primitive `poll(evs, nfds, timeout)`: the array after the call and
the value returned. -/
abbrev PollOs := List pollfd → Nat → Int → List pollfd × Int

/-- One recorded call of `poll`. -/
structure PollCall where
  fds : List pollfd
  nfds : Nat
  timeout : Int
deriving DecidableEq, Repr

/-- What a `WaitEvent` function leaves behind: its return value, the caller's
`events` buffer after the call, and the OS calls it issued. -/
structure WaitResult (Call : Type) where
  ret : Int
  events : List EasyEvent
  osCalls : List Call

/-- The outbound translation of `PollWaitEvent`, lines 197-199: the `events`
word built from an interest mask, starting from `acc`. -/
def pollEvents (acc event : Int) : Int :=
  let e1 := if hasFlag event EVENT_READ then Int.lor acc POLLIN else acc
  let e2 := if hasFlag event EVENT_WRITE then Int.lor e1 POLLOUT else e1
  if hasFlag event EVENT_ERROR then Int.lor e2 POLLERR else e2

/-- The fill loop of `PollWaitEvent`, lines 194-200, with `n` iterations left. -/
def pollFill (eventList : List EasyEvent) : Nat → Nat → List pollfd → List pollfd
  | 0, _, evs => evs
  | n + 1, i, evs =>
    let e := eventList.getD i default
    let p := evs.getD i default
    pollFill eventList n (i + 1)
      (evs.set i { p with fd := e.fd, events := pollEvents p.events e.event })

/-- The inbound translation of `PollWaitEvent`, lines 216-224: `revent` for the
raw word `event`. -/
def pollRevent (event : Int) : Int :=
  let r0 : Int := 0
  let r1 := if hasFlag event POLLIN || hasFlag event POLLPRI
              || hasFlag event POLLRDHUP || hasFlag event POLLHUP
            then Int.lor r0 EVENT_READ else r0
  let r2 := if hasFlag event POLLOUT then Int.lor r1 EVENT_WRITE else r1
  if hasFlag event POLLERR then Int.lor r2 EVENT_ERROR else r2

/-- The collecting loop of `PollWaitEvent`, lines 208-230, with `n` iterations
left: the `events` buffer and `real_nums` when the loop ends. -/
def pollCollect (evs : List pollfd) : Nat → Nat → List EasyEvent → Nat → List EasyEvent × Nat
  | 0, _, events, real_nums => (events, real_nums)
  | n + 1, i, events, real_nums =>
    let fd := (evs.getD i default).fd
    let event := (evs.getD i default).revents
    if event > 0 then
      let slot := events.getD real_nums default
      pollCollect evs n (i + 1)
        (events.set real_nums { slot with fd := fd, retEvent := pollRevent event })
        (real_nums + 1)
    else pollCollect evs n (i + 1) events real_nums

/-- The function `PollWaitEvent`: `events` is the caller's buffer, `poll` the OS primitive. -/
def PollWaitEvent (poll : PollOs) (ep : EasyPoll) (events : List EasyEvent)
    (maxevents timeout : Int) : WaitResult PollCall :=
  if maxevents < 1 then ⟨-1, events, []⟩
  else
    let evs0 : List pollfd := List.replicate maxevents.toNat ⟨0, 0, 0⟩
    let ev_size : Nat := if maxevents > ep.eventSize then ep.eventSize else maxevents.toNat
    if ev_size = 0 then ⟨0, events, []⟩
    else
      let evs1 := pollFill ep.eventList ev_size 0 evs0
      let call : PollCall := ⟨evs1, ev_size, timeout⟩
      let evs := (poll evs1 ev_size timeout).1
      let nums := (poll evs1 ev_size timeout).2
      if nums < 0 then ⟨-1, events, [call]⟩
      else
        let out := pollCollect evs nums.toNat 0 events 0
        ⟨out.2, out.1, [call]⟩

/-! ## epoll_poller.c -/

/-- The flag `EPOLLIN` of `<sys/epoll.h>` (Linux value). -/
def EPOLLIN : Int := 0x001

/-- The flag `EPOLLPRI` of `<sys/epoll.h>` (Linux value). -/
def EPOLLPRI : Int := 0x002

/-- The flag `EPOLLOUT` of `<sys/epoll.h>` (Linux value). -/
def EPOLLOUT : Int := 0x004

/-- The flag `EPOLLERR` of `<sys/epoll.h>` (Linux value). -/
def EPOLLERR : Int := 0x008

/-- The flag `EPOLLHUP` of `<sys/epoll.h>` (Linux value). -/
def EPOLLHUP : Int := 0x010

/-- The flag `EPOLLRDHUP` of `<sys/epoll.h>` (Linux value). -/
def EPOLLRDHUP : Int := 0x2000

/-- The struct `epoll_event`, with `data.fd` as its data. -/
structure epoll_event where
  events : Int
  data_fd : Int
deriving DecidableEq, Repr, Inhabited

/-- The `op` argument of `epoll_ctl`. -/
inductive EpollCtlOp where
  | EPOLL_CTL_ADD
  | EPOLL_CTL_DEL
  | EPOLL_CTL_MOD
deriving DecidableEq, Repr

/-- One call `epoll_ctl(epfd, op, fd, ev)`; `ev` is `none` for a null pointer. -/
structure EpollCtlCall where
  epfd : Int
  op : EpollCtlOp
  fd : Int
  ev : Option epoll_event
deriving DecidableEq, Repr

/-- The OS primitive `epoll_ctl`: the value it returns for a call. -/
abbrev EpollCtlOs := EpollCtlCall → Int

/-- The struct `EasyEpoll_t` (without its mutex). -/
structure EasyEpoll where
  epollFd : Int
  eventCapacity : Nat
  eventSize : Nat
  eventList : List EasyEvent
deriving DecidableEq, Repr

/-- The function `EpollCreate`: `mallocOk` and `callocOk` say whether the two allocations
succeed, `epoll_create1` is the value of `epoll_create1(EPOLL_CLOEXEC)`. -/
def EpollCreate (mallocOk : Bool) (epoll_create1 : Int) (callocOk : Bool) (size : Int) :
    Option EasyEpoll :=
  if !mallocOk then none
  else if epoll_create1 < 0 then none
  else if !callocOk then none
  else some { epollFd := epoll_create1, eventCapacity := clampSize size, eventSize := 0,
              eventList := callocEvents (clampSize size) }

/-- The function `EpollRemoveEvent`: return code, state after the call, `epoll_ctl` calls issued. -/
def EpollRemoveEvent (epoll_ctl : EpollCtlOs) (ep : EasyEpoll) (event : EasyEvent) :
    Int × EasyEpoll × List EpollCtlCall :=
  if event.fd < 0 then (-1, ep, [])
  else
    let idx := scanFd ep.eventList event.fd ep.eventSize 0
    if idx < ep.eventSize then
      let call : EpollCtlCall := ⟨ep.epollFd, .EPOLL_CTL_DEL, event.fd, none⟩
      if epoll_ctl call < 0 then (-1, ep, [call])
      else
        (0, { ep with
                eventList := memmove ep.eventList idx (idx + 1) (ep.eventSize - idx - 1),
                eventSize := ep.eventSize - 1 }, [call])
    else (0, ep, [])

/-- The outbound translation of `EpollUpdateEvent`, lines 155-160: the
`epoll_event` built for the descriptor. -/
def epollEv (event : EasyEvent) : epoll_event :=
  let e0 : Int := 0
  let e1 := if hasFlag event.event EVENT_READ then Int.lor e0 EPOLLIN else e0
  let e2 := if hasFlag event.event EVENT_WRITE then Int.lor e1 EPOLLOUT else e1
  let e3 := if hasFlag event.event EVENT_ERROR then Int.lor e2 EPOLLERR else e2
  { events := e3, data_fd := event.fd }

/-- The function `EpollUpdateEvent`: return code, state after the call, `epoll_ctl` calls issued. -/
def EpollUpdateEvent (epoll_ctl : EpollCtlOs) (ep : EasyEpoll) (event : EasyEvent) :
    Int × EasyEpoll × List EpollCtlCall :=
  if event.fd < 0 then (-1, ep, [])
  else
    let ev := epollEv event
    let idx := scanFd ep.eventList event.fd ep.eventSize 0
    if idx = ep.eventSize then
      if ep.eventSize ≥ ep.eventCapacity then (-1, ep, [])
      else
        let call : EpollCtlCall := ⟨ep.epollFd, .EPOLL_CTL_ADD, event.fd, some ev⟩
        if epoll_ctl call < 0 then (-1, ep, [call])
        else (0, { ep with eventList := ep.eventList.set idx event,
                           eventSize := ep.eventSize + 1 }, [call])
    else
      let call : EpollCtlCall := ⟨ep.epollFd, .EPOLL_CTL_MOD, event.fd, some ev⟩
      if epoll_ctl call < 0 then (-1, ep, [call])
      else (0, { ep with eventList := ep.eventList.set idx event }, [call])

/-- The function `EpollAddEvent` forwards to `EpollUpdateEvent`. -/
def EpollAddEvent (epoll_ctl : EpollCtlOs) (ep : EasyEpoll) (event : EasyEvent) :
    Int × EasyEpoll × List EpollCtlCall :=
  EpollUpdateEvent epoll_ctl ep event

/-- The OS primitive `epoll_wait(epfd, evs, maxevents, timeout)`: the array it
fills and the value returned. -/
abbrev EpollWaitOs := Int → Int → Int → List epoll_event × Int

/-- One recorded call of `epoll_wait`. -/
structure EpollWaitCall where
  epfd : Int
  maxevents : Int
  timeout : Int
deriving DecidableEq, Repr

/-- The inbound translation of `EpollWaitEvent`, lines 232-240: `revent` for the
raw word `event`. -/
def epollRevent (event : Int) : Int :=
  let r0 : Int := 0
  let r1 := if hasFlag event EPOLLIN || hasFlag event EPOLLPRI
              || hasFlag event EPOLLRDHUP || hasFlag event EPOLLHUP
            then Int.lor r0 EVENT_READ else r0
  let r2 := if hasFlag event EPOLLOUT then Int.lor r1 EVENT_WRITE else r1
  if hasFlag event EPOLLERR then Int.lor r2 EVENT_ERROR else r2

/-- The translating loop of `EpollWaitEvent`, lines 226-244, with `n` iterations
left: the `events` buffer when the loop ends. -/
def epollCollect (evs : List epoll_event) : Nat → Nat → List EasyEvent → List EasyEvent
  | 0, _, events => events
  | n + 1, i, events =>
    let fd := (evs.getD i default).data_fd
    let event := (evs.getD i default).events
    let slot := events.getD i default
    epollCollect evs n (i + 1)
      (events.set i { slot with fd := fd, retEvent := epollRevent event })

/-- The function `EpollWaitEvent`: `events` is the caller's buffer, `epoll_wait` the OS primitive. -/
def EpollWaitEvent (epoll_wait : EpollWaitOs) (ep : EasyEpoll) (events : List EasyEvent)
    (maxevents timeout : Int) : WaitResult EpollWaitCall :=
  if maxevents < 1 then ⟨-1, events, []⟩
  else
    let ev_size := ep.eventSize
    if ev_size = 0 then ⟨0, events, []⟩
    else
      let call : EpollWaitCall := ⟨ep.epollFd, maxevents, timeout⟩
      let evs := (epoll_wait ep.epollFd maxevents timeout).1
      let nums := (epoll_wait ep.epollFd maxevents timeout).2
      if nums < 0 then ⟨-1, events, [call]⟩
      else ⟨nums, epollCollect evs nums.toNat 0 events, [call]⟩

/-! ## select_poller.c

An `fd_set` is an array of `FD_SETSIZE` bits.  The macros `FD_SET`, `FD_CLR` and
`FD_ISSET` are defined for a descriptor `fd` with `0 ≤ fd < FD_SETSIZE` only: for
any other descriptor the bit they address lies outside the array, and the
access has undefined behaviour (in `EasySelect_t` a write lands in the fields
that follow the set).  The source checks `fd < 0` and nothing else.  A mutating
function of the select backend therefore has an `Option` result: `some r` when
every access stays inside the sets and the call leaves `r`, `none` when the call
reaches an access outside an `fd_set`; about such a call nothing is stated. -/

/-- The constant `FD_SETSIZE` of `<sys/select.h>` (Linux value). -/
abbrev FD_SETSIZE : Nat := 1024

/-- The type `fd_set`: an array of `FD_SETSIZE` bits, given by the positions
whose bit is set. -/
abbrev fd_set := Finset (Fin FD_SETSIZE)

/-- The position of the bit of descriptor `fd` in an `fd_set`; `none` when `fd`
is negative or not below `FD_SETSIZE`, so that the bit is outside the array. -/
def fdIndex (fd : Int) : Option (Fin FD_SETSIZE) :=
  if h : 0 ≤ fd ∧ fd < FD_SETSIZE then
    some ⟨fd.toNat, (by have h2 : fd < 1024 := h.2; omega : fd.toNat < 1024)⟩
  else none

/-- The macro `FD_SET(fd, &set)`; `none` when it writes outside the set. -/
def FD_SET (fd : Int) (set : fd_set) : Option fd_set :=
  (fdIndex fd).map (fun i => insert i set)

/-- The macro `FD_CLR(fd, &set)`; `none` when it writes outside the set. -/
def FD_CLR (fd : Int) (set : fd_set) : Option fd_set :=
  (fdIndex fd).map (fun i => set.erase i)

/-- The macro `FD_ISSET(fd, &set)`; `none` when it reads outside the set. -/
def FD_ISSET (fd : Int) (set : fd_set) : Option Bool :=
  (fdIndex fd).map (fun i => decide (i ∈ set))

/-- The struct `EasySelect_t` (without its mutex). -/
structure EasySelect where
  maxFd : Int
  readSet : fd_set
  writeSet : fd_set
  exceptionSet : fd_set
  eventCapacity : Nat
  eventSize : Nat
  eventList : List EasyEvent
deriving DecidableEq

/-- The function `SelectCreate`: `callocOk1` and `callocOk2` say whether the two allocations
succeed; the struct itself is zeroed by `calloc`. -/
def SelectCreate (callocOk1 callocOk2 : Bool) (size : Int) : Option EasySelect :=
  if !callocOk1 then none
  else if !callocOk2 then none
  else some { maxFd := 0, readSet := ∅, writeSet := ∅, exceptionSet := ∅,
              eventCapacity := clampSize size, eventSize := 0,
              eventList := callocEvents (clampSize size) }

/-- The loop of `SelectRemoveEvent`, lines 124-128, with `n` iterations left:
`maxFd` when the loop ends. -/
def scanMaxFd (eventList : List EasyEvent) : Nat → Nat → Int → Int
  | 0, _, maxFd => maxFd
  | n + 1, i, maxFd =>
    scanMaxFd eventList n (i + 1)
      (if (eventList.getD i default).fd > maxFd then (eventList.getD i default).fd else maxFd)

/-- The function `SelectRemoveEvent`: the return code and the state after the call;
`none` when the three `FD_CLR` of lines 113-115 write outside the sets. -/
def SelectRemoveEvent (ep : EasySelect) (event : EasyEvent) : Option (Int × EasySelect) :=
  if event.fd < 0 then some (-1, ep)
  else
    let fd := event.fd
    let idx := scanFd ep.eventList fd ep.eventSize 0
    if idx < ep.eventSize then
      (FD_CLR fd ep.readSet).bind fun readSet =>
      (FD_CLR fd ep.writeSet).bind fun writeSet =>
      (FD_CLR fd ep.exceptionSet).map fun exceptionSet =>
        let eventList := memmove ep.eventList idx (idx + 1) (ep.eventSize - idx - 1)
        let eventSize := ep.eventSize - 1
        (0, { ep with
                readSet := readSet,
                writeSet := writeSet,
                exceptionSet := exceptionSet,
                eventList := eventList,
                eventSize := eventSize,
                maxFd := scanMaxFd eventList eventSize 0 (-1) })
    else some (0, ep)

/-- The tail of `SelectUpdateEvent`, lines 180-185: the bits of the descriptor's
mask are set in the three sets and `maxFd` is raised; `none` when an `FD_SET`
that is executed writes outside its set. -/
def selectMark (ep : EasySelect) (event : EasyEvent) : Option EasySelect :=
  let fd := event.fd
  (if hasFlag event.event EVENT_READ
   then (FD_SET fd ep.readSet).map (fun s => { ep with readSet := s })
   else some ep).bind fun ep1 =>
  (if hasFlag event.event EVENT_WRITE
   then (FD_SET fd ep1.writeSet).map (fun s => { ep1 with writeSet := s })
   else some ep1).bind fun ep2 =>
  (if hasFlag event.event EVENT_ERROR
   then (FD_SET fd ep2.exceptionSet).map (fun s => { ep2 with exceptionSet := s })
   else some ep2).map fun ep3 =>
  if fd > ep3.maxFd then { ep3 with maxFd := fd } else ep3

/-- The function `SelectUpdateEvent`: the return code and the state after the call;
`none` when an `FD_SET` of lines 180-182 writes outside its set. -/
def SelectUpdateEvent (ep : EasySelect) (event : EasyEvent) : Option (Int × EasySelect) :=
  if event.fd < 0 then some (-1, ep)
  else
    let idx := scanFd ep.eventList event.fd ep.eventSize 0
    if idx = ep.eventSize then
      if ep.eventSize ≥ ep.eventCapacity then some (-1, ep)
      else (selectMark { ep with eventList := ep.eventList.set idx event,
                                 eventSize := ep.eventSize + 1 } event).map
             (fun s => (0, s))
    else (selectMark { ep with eventList := ep.eventList.set idx event } event).map
           (fun s => (0, s))

/-- The function `SelectAddEvent` forwards to `SelectUpdateEvent`. -/
def SelectAddEvent (ep : EasySelect) (event : EasyEvent) : Option (Int × EasySelect) :=
  SelectUpdateEvent ep event

/-! ## Runs of the three backends -/

/-- One mutating call of the common interface. -/
inductive TableOp where
  | AddEvent (event : EasyEvent)
  | UpdateEvent (event : EasyEvent)
  | RemoveEvent (event : EasyEvent)
deriving DecidableEq, Repr

/-- The descriptor that a call is given. -/
def TableOp.event : TableOp → EasyEvent
  | .AddEvent e => e
  | .UpdateEvent e => e
  | .RemoveEvent e => e

/-- The state of the poll backend after one call. -/
def PollStep (ep : EasyPoll) : TableOp → EasyPoll
  | .AddEvent e => (PollAddEvent ep e).2
  | .UpdateEvent e => (PollUpdateEvent ep e).2
  | .RemoveEvent e => (PollRemoveEvent ep e).2

/-- The state of the poll backend after a sequence of calls. -/
def PollRun (ep : EasyPoll) (ops : List TableOp) : EasyPoll := ops.foldl PollStep ep

/-- The state of the select backend after one call; `none` when the call
accesses memory outside an `fd_set`. -/
def SelectStep (ep : EasySelect) : TableOp → Option EasySelect
  | .AddEvent e => (SelectAddEvent ep e).map (·.2)
  | .UpdateEvent e => (SelectUpdateEvent ep e).map (·.2)
  | .RemoveEvent e => (SelectRemoveEvent ep e).map (·.2)

/-- The state of the select backend after a sequence of calls; `none` when one
of them accesses memory outside an `fd_set`. -/
def SelectRun (ep : EasySelect) : List TableOp → Option EasySelect
  | [] => some ep
  | op :: ops => (SelectStep ep op).bind fun s => SelectRun s ops

/-- The state of the epoll backend after one call, made while the OS answers
`epoll_ctl` as the first component says. -/
def EpollStep (ep : EasyEpoll) : EpollCtlOs × TableOp → EasyEpoll
  | (os, .AddEvent e) => (EpollAddEvent os ep e).2.1
  | (os, .UpdateEvent e) => (EpollUpdateEvent os ep e).2.1
  | (os, .RemoveEvent e) => (EpollRemoveEvent os ep e).2.1

/-- The state of the epoll backend after a sequence of calls. -/
def EpollRun (ep : EasyEpoll) (ops : List (EpollCtlOs × TableOp)) : EasyEpoll :=
  ops.foldl EpollStep ep

/-! ## The interest table and its invariant -/

/-- The interest table of the poll backend: the live prefix of `eventList`. -/
def EasyPoll.table (ep : EasyPoll) : List EasyEvent := ep.eventList.take ep.eventSize

/-- The table part of an epoll backend state. -/
def EasyEpoll.toPoll (ep : EasyEpoll) : EasyPoll :=
  { eventCapacity := ep.eventCapacity, eventSize := ep.eventSize, eventList := ep.eventList }

/-- The table part of a select backend state. -/
def EasySelect.toPoll (ep : EasySelect) : EasyPoll :=
  { eventCapacity := ep.eventCapacity, eventSize := ep.eventSize, eventList := ep.eventList }

/-- The interest table of the epoll backend. -/
def EasyEpoll.table (ep : EasyEpoll) : List EasyEvent := ep.eventList.take ep.eventSize

/-- The interest table of the select backend. -/
def EasySelect.table (ep : EasySelect) : List EasyEvent := ep.eventList.take ep.eventSize

/-- The array is as long as the capacity says and the table fits in it. -/
def WellFormed (ep : EasyPoll) : Prop :=
  ep.eventList.length = ep.eventCapacity ∧ ep.eventSize ≤ ep.eventCapacity

/-- The table invariant: well-formed, no descriptor twice, no negative descriptor. -/
def TableInv (ep : EasyPoll) : Prop :=
  WellFormed ep ∧ (ep.table.map (·.fd)).Nodup ∧ ∀ e ∈ ep.table, 0 ≤ e.fd

/-- The invariant of the interest table as the cells of the array show it:
distinct descriptors at distinct live indices, no negative descriptor, and
`eventSize ≤ eventCapacity = max 1 h`. -/
def CellInv (h : Int) (ep : EasyPoll) : Prop :=
  (∀ i j, i < ep.eventSize → j < ep.eventSize → i ≠ j →
      (ep.eventList.getD i default).fd ≠ (ep.eventList.getD j default).fd) ∧
  (∀ i, i < ep.eventSize → 0 ≤ (ep.eventList.getD i default).fd) ∧
  ep.eventSize ≤ ep.eventCapacity ∧ (ep.eventCapacity : Int) = max 1 h


/-! ## Concrete states and OS outcomes used in the evaluations -/

/-- The poll backend with capacity 2 after registering descriptors 3 and 4 for READ. -/
def pollTwoReaders : EasyPoll :=
  PollRun ⟨2, 0, callocEvents 2⟩
    [.AddEvent ⟨3, EVENT_READ, 0⟩, .AddEvent ⟨4, EVENT_READ, 0⟩]

/-- An outcome of `poll`: the second submitted entry alone becomes readable, so
the call returns 1. -/
def pollSecondReady : PollOs :=
  fun evs _ _ => (evs.set 1 { evs.getD 1 default with revents := POLLIN }, 1)

/-- The descriptors `poll` reported ready: those of the `nfds` submitted
entries whose `revents` is non-zero, in submitted order. -/
def readyFds (evs : List pollfd) (nfds : Nat) : List Int :=
  ((evs.take nfds).filter (fun p => p.revents ≠ 0)).map (·.fd)

/-- The batch a `WaitEvent` call hands to its caller: the first `ret` entries
of the buffer. -/
def WaitResult.batch {Call : Type} (r : WaitResult Call) : List EasyEvent :=
  r.events.take r.ret.toNat

/-- A poll backend of capacity 2 with an empty table. -/
def pollFresh : EasyPoll := ⟨2, 0, callocEvents 2⟩

/-- A select backend of capacity 2 with an empty table. -/
def selectFresh : EasySelect := ⟨0, ∅, ∅, ∅, 2, 0, callocEvents 2⟩

/-- An epoll backend of capacity 2 with an empty table, on the epoll descriptor 7. -/
def epollFresh : EasyEpoll := ⟨7, 2, 0, callocEvents 2⟩

/-- A poll backend of capacity 2 watching descriptors 3 and 4. -/
def pollBusy : EasyPoll := ⟨2, 2, [⟨3, 1, 0⟩, ⟨4, 2, 0⟩]⟩

/-- A select backend of capacity 2 watching descriptors 3 and 4. -/
def selectBusy : EasySelect := ⟨4, {3}, {4}, ∅, 2, 2, [⟨3, 1, 0⟩, ⟨4, 2, 0⟩]⟩

/-- An epoll backend of capacity 2 watching descriptors 3 and 4. -/
def epollBusy : EasyEpoll := ⟨7, 2, 2, [⟨3, 1, 0⟩, ⟨4, 2, 0⟩]⟩

/-- The poll backend with capacity 1 after registering descriptor 7 for READ. -/
def pollOneReader : EasyPoll :=
  PollRun ⟨1, 0, callocEvents 1⟩ [.AddEvent ⟨7, EVENT_READ, 0⟩]

/-- An outcome of `poll`: the first submitted entry is not an open descriptor,
so its `revents` is `POLLNVAL` and the call returns 1. -/
def pollFirstInvalid : PollOs :=
  fun evs _ _ => (evs.set 0 { evs.getD 0 default with revents := POLLNVAL }, 1)

/-! ## select_poller.c: SelectWaitEvent -/

/-- The struct `timeval` of `<sys/time.h>`. -/
structure timeval where
  tv_sec : Int
  tv_usec : Int
deriving DecidableEq, Repr

/-- One call `select(nfds, &readfds, &writefds, &exceptfds, timeout)` with the
sets as they are on entry; `timeout` is `none` for a null pointer. -/
structure SelectCall where
  nfds : Int
  readfds : fd_set
  writefds : fd_set
  exceptfds : fd_set
  timeout : Option timeval
deriving DecidableEq

/-- The OS primitive `select`: the value it returns and the three sets as it
leaves them. -/
abbrev SelectOs := SelectCall → Int × fd_set × fd_set × fd_set

/-- The inbound translation of `SelectWaitEvent`, lines 233-236: `revents` for a
descriptor and the three sets that `select` gave back; `none` when the
`FD_ISSET` tests read outside the sets. -/
def selectRevents (fd : Int) (readSet writeSet exceptionSet : fd_set) : Option Int :=
  (FD_ISSET fd readSet).bind fun r =>
  (FD_ISSET fd writeSet).bind fun w =>
  (FD_ISSET fd exceptionSet).map fun e =>
    let r0 : Int := 0
    let r1 := if r then Int.lor r0 EVENT_READ else r0
    let r2 := if w then Int.lor r1 EVENT_WRITE else r1
    if e then Int.lor r2 EVENT_ERROR else r2

/-- The collecting loop of `SelectWaitEvent`, lines 231-247, with `n` iterations
left: the `events` buffer and `real_nums` when the loop ends or breaks; `none`
when an iteration that is executed reads outside the sets. -/
def selectCollect (eventList : List EasyEvent) (readSet writeSet exceptionSet : fd_set)
    (maxevents : Int) : Nat → Nat → List EasyEvent → Nat → Option (List EasyEvent × Nat)
  | 0, _, events, real_nums => some (events, real_nums)
  | n + 1, i, events, real_nums =>
    let fd := (eventList.getD i default).fd
    match selectRevents fd readSet writeSet exceptionSet with
    | none => none
    | some revents =>
      if revents ≠ 0 then
        let slot := events.getD real_nums default
        let events1 := events.set real_nums { slot with fd := fd, retEvent := revents }
        if ((real_nums + 1 : Nat) : Int) ≥ maxevents then some (events1, real_nums + 1)
        else selectCollect eventList readSet writeSet exceptionSet maxevents n (i + 1)
               events1 (real_nums + 1)
      else selectCollect eventList readSet writeSet exceptionSet maxevents n (i + 1)
             events real_nums

/-- The `timeval` built by `SelectWaitEvent`, lines 222-223; `/` and `%` of C
round toward zero. -/
def selectTimeval (timeout : Int) : timeval :=
  { tv_sec := Int.tdiv timeout 1000, tv_usec := Int.tmod timeout 1000 * 1000 }

/-- What `SelectWaitEvent` leaves behind: the OS calls it issued and its outcome, that
is its return value and the caller's `events` buffer after the call.  The
outcome is `none` when the call accesses memory outside its copies of the sets:
the value returned and what the buffer holds are then not determined. -/
structure SelectWaitResult where
  outcome : Option (Int × List EasyEvent)
  osCalls : List SelectCall

/-- The return value, when it is determined. -/
def SelectWaitResult.ret (r : SelectWaitResult) : Option Int := r.outcome.map (·.1)

/-- The batch handed to the caller, when it is determined: the first `ret`
entries of the buffer. -/
def SelectWaitResult.batch (r : SelectWaitResult) : Option (List EasyEvent) :=
  r.outcome.map (fun o => o.2.take o.1.toNat)

/-- The function `SelectWaitEvent`: `events` is the caller's buffer, `select` the OS
primitive, which is given copies of the three sets.  A call of `select` that
fails leaves the copies as they were.  A call that succeeds has stored
`max_fd + 1` bits in each copy: the outcome is `none` when that is more than the
`FD_SETSIZE` bits of a copy, and when the loop reads outside the copies. -/
def SelectWaitEvent (select : SelectOs) (ep : EasySelect) (events : List EasyEvent)
    (maxevents timeout : Int) : SelectWaitResult :=
  if maxevents < 1 then ⟨some (-1, events), []⟩
  else
    let ev_size := ep.eventSize
    let eventList := ep.eventList
    let max_fd := ep.maxFd
    if ev_size = 0 ∨ max_fd < 0 then ⟨some (0, events), []⟩
    else
      let tv := selectTimeval timeout
      let call : SelectCall :=
        ⟨max_fd + 1, ep.readSet, ep.writeSet, ep.exceptionSet, some tv⟩
      let ret := (select call).1
      let readSet := (select call).2.1
      let writeSet := (select call).2.2.1
      let exceptionSet := (select call).2.2.2
      if ret < 0 then ⟨some (-1, events), [call]⟩
      else if max_fd + 1 > FD_SETSIZE then ⟨none, [call]⟩
      else
        ⟨(selectCollect eventList readSet writeSet exceptionSet maxevents
            ev_size 0 events 0).map (fun out => ((out.2 : Int), out.1)), [call]⟩

/-! ## The functions on handles and pointers that may be null

A handle is `none` when it is null and `some ep` when it points to the backend
object `ep`; likewise for the `event` and `events` pointers.  The state that a
call leaves is the object behind the handle after the call.  For the mutating
calls of the select backend the result as a whole is again `none` when the call
writes outside an `fd_set` of the object; for `SelectWaitEvent`, which assigns to
no field of the object and works on copies of the sets, the outcome alone is. -/

/-- What a `WaitEvent` call on a handle leaves behind: return value, the object
behind the handle, the caller's buffer, and the OS calls issued. -/
structure WaitOutcome (S Call : Type) where
  ret : Int
  state : Option S
  events : Option (List EasyEvent)
  osCalls : List Call

/-- What a mutating call on a handle leaves behind: return value, the object
behind the handle, and the OS calls issued. -/
structure CallOutcome (S Call : Type) where
  ret : Int
  state : Option S
  osCalls : List Call

/-- The function `PollUpdateEvent` with its null checks (line 127). -/
def PollUpdateEventPtr (handle : Option EasyPoll) (event : Option EasyEvent) :
    Int × Option EasyPoll :=
  match handle, event with
  | some ep, some e => ((PollUpdateEvent ep e).1, some (PollUpdateEvent ep e).2)
  | _, _ => (-1, handle)

/-- The function `PollAddEvent` on a handle: forwards to `PollUpdateEvent`. -/
def PollAddEventPtr (handle : Option EasyPoll) (event : Option EasyEvent) :
    Int × Option EasyPoll :=
  PollUpdateEventPtr handle event

/-- The function `PollRemoveEvent` with its null checks (line 93). -/
def PollRemoveEventPtr (handle : Option EasyPoll) (event : Option EasyEvent) :
    Int × Option EasyPoll :=
  match handle, event with
  | some ep, some e => ((PollRemoveEvent ep e).1, some (PollRemoveEvent ep e).2)
  | _, _ => (-1, handle)

/-- The function `PollWaitEvent` with its null checks (line 176); it never assigns
to a field of the object behind the handle. -/
def PollWaitEventPtr (poll : PollOs) (handle : Option EasyPoll)
    (events : Option (List EasyEvent)) (maxevents timeout : Int) :
    WaitOutcome EasyPoll PollCall :=
  match handle, events with
  | some ep, some buf =>
    let r := PollWaitEvent poll ep buf maxevents timeout
    ⟨r.ret, some ep, some r.events, r.osCalls⟩
  | _, _ => ⟨-1, handle, events, []⟩

/-- The function `SelectUpdateEvent` with its null checks (line 146). -/
def SelectUpdateEventPtr (handle : Option EasySelect) (event : Option EasyEvent) :
    Option (Int × Option EasySelect) :=
  match handle, event with
  | some ep, some e => (SelectUpdateEvent ep e).map fun r => (r.1, some r.2)
  | _, _ => some (-1, handle)

/-- The function `SelectAddEvent` on a handle: forwards to `SelectUpdateEvent`. -/
def SelectAddEventPtr (handle : Option EasySelect) (event : Option EasyEvent) :
    Option (Int × Option EasySelect) :=
  SelectUpdateEventPtr handle event

/-- The function `SelectRemoveEvent` with its null checks (line 98). -/
def SelectRemoveEventPtr (handle : Option EasySelect) (event : Option EasyEvent) :
    Option (Int × Option EasySelect) :=
  match handle, event with
  | some ep, some e => (SelectRemoveEvent ep e).map fun r => (r.1, some r.2)
  | _, _ => some (-1, handle)

/-- What `SelectWaitEvent` on a handle leaves behind: the outcome (return value and
the caller's buffer; `none` when not determined), the object behind the handle,
and the OS calls issued. -/
structure SelectWaitOutcome where
  outcome : Option (Int × Option (List EasyEvent))
  state : Option EasySelect
  osCalls : List SelectCall

/-- The return value, when it is determined. -/
def SelectWaitOutcome.ret (r : SelectWaitOutcome) : Option Int := r.outcome.map (·.1)

/-- The function `SelectWaitEvent` with its null checks (line 202); the three sets
and `maxFd` are copied into locals and no field of the object is assigned. -/
def SelectWaitEventPtr (select : SelectOs) (handle : Option EasySelect)
    (events : Option (List EasyEvent)) (maxevents timeout : Int) : SelectWaitOutcome :=
  match handle, events with
  | some ep, some buf =>
    let r := SelectWaitEvent select ep buf maxevents timeout
    ⟨r.outcome.map (fun o => (o.1, some o.2)), some ep, r.osCalls⟩
  | _, _ => ⟨some (-1, events), handle, []⟩

/-- The function `EpollUpdateEvent` with its null checks (line 145). -/
def EpollUpdateEventPtr (epoll_ctl : EpollCtlOs) (handle : Option EasyEpoll)
    (event : Option EasyEvent) : CallOutcome EasyEpoll EpollCtlCall :=
  match handle, event with
  | some ep, some e =>
    let r := EpollUpdateEvent epoll_ctl ep e
    ⟨r.1, some r.2.1, r.2.2⟩
  | _, _ => ⟨-1, handle, []⟩

/-- The function `EpollAddEvent` on a handle: forwards to `EpollUpdateEvent`. -/
def EpollAddEventPtr (epoll_ctl : EpollCtlOs) (handle : Option EasyEpoll)
    (event : Option EasyEvent) : CallOutcome EasyEpoll EpollCtlCall :=
  EpollUpdateEventPtr epoll_ctl handle event

/-- The function `EpollRemoveEvent` with its null checks (line 105). -/
def EpollRemoveEventPtr (epoll_ctl : EpollCtlOs) (handle : Option EasyEpoll)
    (event : Option EasyEvent) : CallOutcome EasyEpoll EpollCtlCall :=
  match handle, event with
  | some ep, some e =>
    let r := EpollRemoveEvent epoll_ctl ep e
    ⟨r.1, some r.2.1, r.2.2⟩
  | _, _ => ⟨-1, handle, []⟩

/-- The function `EpollWaitEvent` with its null checks (line 209); it never assigns
to a field of the object behind the handle. -/
def EpollWaitEventPtr (epoll_wait : EpollWaitOs) (handle : Option EasyEpoll)
    (events : Option (List EasyEvent)) (maxevents timeout : Int) :
    WaitOutcome EasyEpoll EpollWaitCall :=
  match handle, events with
  | some ep, some buf =>
    let r := EpollWaitEvent epoll_wait ep buf maxevents timeout
    ⟨r.ret, some ep, some r.events, r.osCalls⟩
  | _, _ => ⟨-1, handle, events, []⟩

/-! ## easy_poller.c: the dispatcher -/

/-- The enum `PollerType_e`. -/
inductive PollerType_e where
  | PT_EPOLLER
  | PT_POLLER
  | PT_SELECTOR
deriving DecidableEq, Repr

/-- The type of the object that `Poller_t.poller` points to, as the tag says. -/
abbrev BackendState : PollerType_e → Type
  | .PT_EPOLLER => EasyEpoll
  | .PT_POLLER => EasyPoll
  | .PT_SELECTOR => EasySelect

/-- The struct `Poller_t`: the tag and the backend handle (`none` when null). -/
structure Poller_t where
  type : PollerType_e
  poller : Option (BackendState type)

/-- The OS primitives that the backends call. -/
structure Os where
  epoll_ctl : EpollCtlOs
  epoll_wait : EpollWaitOs
  poll : PollOs
  select : SelectOs

/-- One OS call issued by some backend. -/
inductive OsCall where
  | epoll_ctl (c : EpollCtlCall)
  | epoll_wait (c : EpollWaitCall)
  | poll (c : PollCall)
  | select (c : SelectCall)

/-- The function `PollerCreate`: `mallocOk` is the allocation of the `Poller_t`;
`allocOk1`, `allocOk2` and `epoll_create1` are the outcomes of the allocations
and of `epoll_create1` inside the backend's `Create`. -/
def PollerCreate (mallocOk allocOk1 allocOk2 : Bool) (epoll_create1 : Int)
    (type : PollerType_e) (size : Int) : Option Poller_t :=
  if !mallocOk then none
  else
    let ep : Poller_t :=
      match type with
      | .PT_EPOLLER => ⟨.PT_EPOLLER, EpollCreate allocOk1 epoll_create1 allocOk2 size⟩
      | .PT_POLLER => ⟨.PT_POLLER, PollCreate allocOk1 allocOk2 size⟩
      | .PT_SELECTOR => ⟨.PT_SELECTOR, SelectCreate allocOk1 allocOk2 size⟩
    if ep.poller.isNone then none else some ep

/-- The function `PollerWaitEvent`; `none` when the outcome of `SelectWaitEvent` is
not determined. -/
def PollerWaitEvent (os : Os) (handle : Option Poller_t) (events : Option (List EasyEvent))
    (maxevents timeout : Int) : Option (WaitOutcome Poller_t OsCall) :=
  match handle with
  | none => some ⟨-1, none, events, []⟩
  | some ⟨.PT_EPOLLER, poller⟩ =>
    let r := EpollWaitEventPtr os.epoll_wait poller events maxevents timeout
    some ⟨r.ret, some ⟨.PT_EPOLLER, r.state⟩, r.events, r.osCalls.map .epoll_wait⟩
  | some ⟨.PT_POLLER, poller⟩ =>
    let r := PollWaitEventPtr os.poll poller events maxevents timeout
    some ⟨r.ret, some ⟨.PT_POLLER, r.state⟩, r.events, r.osCalls.map .poll⟩
  | some ⟨.PT_SELECTOR, poller⟩ =>
    let r := SelectWaitEventPtr os.select poller events maxevents timeout
    r.outcome.map fun o => ⟨o.1, some ⟨.PT_SELECTOR, r.state⟩, o.2, r.osCalls.map .select⟩

/-- The function `PollerAddEvent`; `none` when the select backend accesses
memory outside an `fd_set`. -/
def PollerAddEvent (os : Os) (handle : Option Poller_t) (event : Option EasyEvent) :
    Option (CallOutcome Poller_t OsCall) :=
  match handle with
  | none => some ⟨-1, none, []⟩
  | some ⟨.PT_EPOLLER, poller⟩ =>
    let r := EpollAddEventPtr os.epoll_ctl poller event
    some ⟨r.ret, some ⟨.PT_EPOLLER, r.state⟩, r.osCalls.map .epoll_ctl⟩
  | some ⟨.PT_POLLER, poller⟩ =>
    let r := PollAddEventPtr poller event
    some ⟨r.1, some ⟨.PT_POLLER, r.2⟩, []⟩
  | some ⟨.PT_SELECTOR, poller⟩ =>
    (SelectAddEventPtr poller event).map fun r => ⟨r.1, some ⟨.PT_SELECTOR, r.2⟩, []⟩

/-- The function `PollerUpdateEvent`; `none` when the select backend accesses
memory outside an `fd_set`. -/
def PollerUpdateEvent (os : Os) (handle : Option Poller_t) (event : Option EasyEvent) :
    Option (CallOutcome Poller_t OsCall) :=
  match handle with
  | none => some ⟨-1, none, []⟩
  | some ⟨.PT_EPOLLER, poller⟩ =>
    let r := EpollUpdateEventPtr os.epoll_ctl poller event
    some ⟨r.ret, some ⟨.PT_EPOLLER, r.state⟩, r.osCalls.map .epoll_ctl⟩
  | some ⟨.PT_POLLER, poller⟩ =>
    let r := PollUpdateEventPtr poller event
    some ⟨r.1, some ⟨.PT_POLLER, r.2⟩, []⟩
  | some ⟨.PT_SELECTOR, poller⟩ =>
    (SelectUpdateEventPtr poller event).map fun r => ⟨r.1, some ⟨.PT_SELECTOR, r.2⟩, []⟩

/-- The function `PollerRemoveEvent`; `none` when the select backend accesses
memory outside an `fd_set`. -/
def PollerRemoveEvent (os : Os) (handle : Option Poller_t) (event : Option EasyEvent) :
    Option (CallOutcome Poller_t OsCall) :=
  match handle with
  | none => some ⟨-1, none, []⟩
  | some ⟨.PT_EPOLLER, poller⟩ =>
    let r := EpollRemoveEventPtr os.epoll_ctl poller event
    some ⟨r.ret, some ⟨.PT_EPOLLER, r.state⟩, r.osCalls.map .epoll_ctl⟩
  | some ⟨.PT_POLLER, poller⟩ =>
    let r := PollRemoveEventPtr poller event
    some ⟨r.1, some ⟨.PT_POLLER, r.2⟩, []⟩
  | some ⟨.PT_SELECTOR, poller⟩ =>
    (SelectRemoveEventPtr poller event).map fun r => ⟨r.1, some ⟨.PT_SELECTOR, r.2⟩, []⟩

/-! ## Runs with their status codes -/

/-- One call on the poll backend: status code and state after it. -/
def PollApply (ep : EasyPoll) : TableOp → Int × EasyPoll
  | .AddEvent e => PollAddEvent ep e
  | .UpdateEvent e => PollUpdateEvent ep e
  | .RemoveEvent e => PollRemoveEvent ep e

/-- The status code and the state after each call of a sequence on the poll backend. -/
def PollTrace (ep : EasyPoll) : List TableOp → List (Int × EasyPoll)
  | [] => []
  | op :: ops => PollApply ep op :: PollTrace (PollApply ep op).2 ops

/-- One call on the select backend: status code and state after it; `none`
when the call accesses memory outside an `fd_set`. -/
def SelectApply (ep : EasySelect) : TableOp → Option (Int × EasySelect)
  | .AddEvent e => SelectAddEvent ep e
  | .UpdateEvent e => SelectUpdateEvent ep e
  | .RemoveEvent e => SelectRemoveEvent ep e

/-- The status code and the state after each call of a sequence on the select
backend; `none` when one of the calls accesses memory outside an `fd_set`. -/
def SelectTrace (ep : EasySelect) : List TableOp → Option (List (Int × EasySelect))
  | [] => some []
  | op :: ops =>
    (SelectApply ep op).bind fun r => (SelectTrace r.2 ops).map fun t => r :: t

/-- One call on the epoll backend, made while the OS answers `epoll_ctl` as the
first component says: status code, state after it, `epoll_ctl` calls issued. -/
def EpollApply (ep : EasyEpoll) : EpollCtlOs × TableOp → Int × EasyEpoll × List EpollCtlCall
  | (os, .AddEvent e) => EpollAddEvent os ep e
  | (os, .UpdateEvent e) => EpollUpdateEvent os ep e
  | (os, .RemoveEvent e) => EpollRemoveEvent os ep e

/-- The status code and the state after each call of a sequence on the epoll backend. -/
def EpollTrace (ep : EasyEpoll) : List (EpollCtlOs × TableOp) → List (Int × EasyEpoll)
  | [] => []
  | x :: xs => ((EpollApply ep x).1, (EpollApply ep x).2.1) :: EpollTrace (EpollApply ep x).2.1 xs

/-- Every `epoll_ctl` call issued during the run succeeded. -/
def EpollCallsSucceed (ep : EasyEpoll) : List (EpollCtlOs × TableOp) → Prop
  | [] => True
  | x :: xs => (∀ c ∈ (EpollApply ep x).2.2, 0 ≤ x.1 c) ∧
      EpollCallsSucceed (EpollApply ep x).2.1 xs

/-- What a trace shows of the interest table: status code, table, `eventSize`. -/
def tableView (x : Int × EasyPoll) : Int × List EasyEvent × Nat := (x.1, x.2.table, x.2.eventSize)

/-! ## The kernel side of an epoll instance -/

/-- The interest list that the kernel keeps for an epoll instance: the requested
flags of each registered descriptor. -/
abbrev EpollKernel := Int → Option Int

/-- The kernel's answer to one `epoll_ctl` call and its interest list after the
call.  `fails` makes the call fail for an outside reason.  Otherwise ADD succeeds
only for an unregistered descriptor, MOD and DEL only for a registered one; a
failed call leaves the list as it was. -/
def kernelCtl (K : EpollKernel) (fails : Bool) (c : EpollCtlCall) : Int × EpollKernel :=
  if fails then (-1, K)
  else
    match c.op, K c.fd, c.ev with
    | .EPOLL_CTL_ADD, none, some ev =>
      (0, fun fd => if fd = c.fd then some ev.events else K fd)
    | .EPOLL_CTL_MOD, some _, some ev =>
      (0, fun fd => if fd = c.fd then some ev.events else K fd)
    | .EPOLL_CTL_DEL, some _, _ => (0, fun fd => if fd = c.fd then none else K fd)
    | _, _, _ => (-1, K)

/-- One backend call together with the kernel: `x.1` says which `epoll_ctl` calls
fail for an outside reason; the kernel answers the calls and keeps their effect. -/
def EpollKernelStep (s : EasyEpoll × EpollKernel) (x : (EpollCtlCall → Bool) × TableOp) :
    EasyEpoll × EpollKernel :=
  let r := EpollApply s.1 (fun c => (kernelCtl s.2 (x.1 c) c).1, x.2)
  (r.2.1, r.2.2.foldl (fun K c => (kernelCtl K (x.1 c) c).2) s.2)

/-- The backend and the kernel after a sequence of calls. -/
def EpollKernelRun (s : EasyEpoll × EpollKernel)
    (ops : List ((EpollCtlCall → Bool) × TableOp)) : EasyEpoll × EpollKernel :=
  ops.foldl EpollKernelStep s

/-- The kernel's interest list of a new epoll instance: nothing registered. -/
def kernelEmpty : EpollKernel := fun _ => none

/-! ## More concrete states and OS outcomes -/

/-- The select backend with capacity 10 after registering descriptor 0 for READ. -/
def selectOneReader : EasySelect :=
  ⟨0, {0}, ∅, ∅, 10, 1, (callocEvents 10).set 0 ⟨0, EVENT_READ, 0⟩⟩

/-- An outcome of `select`: the call is rejected (as for an invalid `timeval`),
the sets are left as they were. -/
def selectRejects : SelectOs := fun c => (-1, c.readfds, c.writefds, c.exceptfds)

/-- An operating system on which nothing is ever ready and every call succeeds. -/
def osQuiet : Os :=
  { epoll_ctl := fun _ => 0,
    epoll_wait := fun _ _ _ => ([], 0),
    poll := fun evs _ _ => (evs, 0),
    select := fun _ => (0, ∅, ∅, ∅) }

/-- An outcome of `poll`: the first submitted entry has hung up, so its `revents`
is `POLLHUP` and the call returns 1. -/
def pollFirstHup : PollOs :=
  fun evs _ _ => (evs.set 0 { evs.getD 0 default with revents := POLLHUP }, 1)

/-- An outcome of `epoll_wait`: descriptor 4 is writable, one entry is returned. -/
def epollWaitOut : EpollWaitOs := fun _ _ _ => ([⟨EPOLLOUT, 4⟩], 1)

/-- An outcome of `poll`: the call fails. -/
def pollFails : PollOs := fun evs _ _ => (evs, -1)

/-- An outcome of `epoll_wait`: the call fails. -/
def epollWaitFails : EpollWaitOs := fun _ _ _ => ([], -1)

/-! ## The batch of SelectWaitEvent as the specification words it -/

/-- Descriptor `fd` is in the set: its bit is one of the `FD_SETSIZE` bits of
the set and it is set. -/
def fdMem (fd : Int) (set : fd_set) : Bool :=
  match fdIndex fd with
  | some i => decide (i ∈ set)
  | none => false

/-- The mask of a descriptor: READ iff it is in the returned read set, WRITE iff
in the write set, ERROR iff in the exception set. -/
def specSelectMask (fd : Int) (readSet writeSet exceptionSet : fd_set) : Int :=
  (if fdMem fd readSet then EVENT_READ else 0) + (if fdMem fd writeSet then EVENT_WRITE else 0)
    + (if fdMem fd exceptionSet then EVENT_ERROR else 0)

/-- The table walked in index order, keeping each entry whose fd is in at least
one returned set, as pairs of fd and mask. -/
def specSelectReady (table : List EasyEvent) (readSet writeSet exceptionSet : fd_set) :
    List (Int × Int) :=
  (table.filter (fun e =>
      fdMem e.fd readSet || fdMem e.fd writeSet || fdMem e.fd exceptionSet)).map
    (fun e => (e.fd, specSelectMask e.fd readSet writeSet exceptionSet))

/-- The first `maxevents` elements of that list. -/
def specSelectBatch (table : List EasyEvent) (readSet writeSet exceptionSet : fd_set)
    (maxevents : Int) : List (Int × Int) :=
  (specSelectReady table readSet writeSet exceptionSet).take maxevents.toNat

/-- An outcome of `select`: descriptors 3 and 4 are both ready as requested. -/
def selectAllReady : SelectOs := fun c => (2, c.readfds, c.writefds, c.exceptfds)

/-- The kernel's interest list agrees with a table: the registered descriptors
are those of the table, each with the outbound translation of its stored mask. -/
def KernelSync (K : EpollKernel) (table : List EasyEvent) : Prop :=
  (∀ fd, (K fd).isSome = true ↔ ∃ e ∈ table, e.fd = fd) ∧
  ∀ e ∈ table, K e.fd = some (epollEv e).events

/-- A run against the kernel: descriptor 3 is added (the first attempt fails in
the kernel), then updated; descriptor 4 is added and removed. -/
def kernelDemoOps : List ((EpollCtlCall → Bool) × TableOp) :=
  [(fun _ => true, .AddEvent ⟨3, 1, 0⟩), (fun _ => false, .AddEvent ⟨3, 1, 0⟩),
   (fun _ => false, .UpdateEvent ⟨3, 6, 0⟩), (fun _ => false, .AddEvent ⟨4, 1, 0⟩),
   (fun _ => false, .RemoveEvent ⟨4, 0, 0⟩)]

/-! ## The range of `int` -/

/-- The value fits a 32-bit signed `int`, so computing it does not overflow. -/
def inInt32 (x : Int) : Prop := -2147483648 ≤ x ∧ x ≤ 2147483647

/-! ## The tracked maximum of the select backend -/

/-- The tracked maximum agrees with the table: for a non-empty table `maxFd` is
the largest fd of the table (an upper bound that is attained); for an empty table
it is 0 or -1. -/
def MaxFdInv (ep : EasySelect) : Prop :=
  (ep.table ≠ [] → (∀ x ∈ ep.table, x.fd ≤ ep.maxFd) ∧ ∃ x ∈ ep.table, x.fd = ep.maxFd) ∧
  (ep.table = [] → ep.maxFd = 0 ∨ ep.maxFd = -1)

/-- The select backend as `SelectCreate(10)` leaves it. -/
def selectNew : EasySelect := ⟨0, ∅, ∅, ∅, 10, 0, callocEvents 10⟩

/-! ## The operations as traces of lock, unlock and OS-call actions

Each function below gives, for the same arguments as the operation it is named
after, the sequence of `pthread_mutex_lock`, `pthread_mutex_unlock` and OS calls
that the operation performs on the path those arguments select. -/

/-- One action of a trace. -/
inductive Action where
  | lock
  | unlock
  | os (c : OsCall)

/-- The OS primitives that may block: `epoll_wait`, `poll` and `select`. -/
def OsCall.blocking : OsCall → Bool
  | .epoll_ctl _ => false
  | .epoll_wait _ => true
  | .poll _ => true
  | .select _ => true

/-- The OS calls of a trace, in order. -/
def osCallsOf : List Action → List OsCall
  | [] => []
  | .os c :: rest => c :: osCallsOf rest
  | _ :: rest => osCallsOf rest

/-- Every lock is taken while the mutex is free and is followed by exactly one
unlock, and the mutex is free at the end; `held` says whether the mutex is held
at the start. -/
def lockPaired : Bool → List Action → Bool
  | held, [] => !held
  | held, .lock :: rest => !held && lockPaired true rest
  | held, .unlock :: rest => held && lockPaired false rest
  | held, .os _ :: rest => lockPaired held rest

/-- No blocking OS call is made while the mutex is held. -/
def waitUnlocked : Bool → List Action → Bool
  | _, [] => true
  | _, .lock :: rest => waitUnlocked true rest
  | _, .unlock :: rest => waitUnlocked false rest
  | held, .os c :: rest => !(held && c.blocking) && waitUnlocked held rest

/-- The actions of `PollRemoveEvent` (lines 93-115). -/
def PollRemoveEventActions (handle : Option EasyPoll) (event : Option EasyEvent) :
    List Action :=
  match handle, event with
  | some _, some e => if e.fd < 0 then [] else [.lock, .unlock]
  | _, _ => []

/-- The actions of `PollUpdateEvent` (lines 127-162). -/
def PollUpdateEventActions (handle : Option EasyPoll) (event : Option EasyEvent) :
    List Action :=
  match handle, event with
  | some ep, some e =>
    if e.fd < 0 then []
    else
      let idx := scanFd ep.eventList e.fd ep.eventSize 0
      if idx = ep.eventSize then
        if ep.eventSize ≥ ep.eventCapacity then [.lock, .unlock]
        else [.lock, .unlock]
      else [.lock, .unlock]
  | _, _ => []

/-- The actions of `PollAddEvent`: those of `PollUpdateEvent`. -/
def PollAddEventActions (handle : Option EasyPoll) (event : Option EasyEvent) :
    List Action :=
  PollUpdateEventActions handle event

/-- The actions of `PollWaitEvent` (lines 176-206). -/
def PollWaitEventActions (handle : Option EasyPoll) (events : Option (List EasyEvent))
    (maxevents timeout : Int) : List Action :=
  match handle, events with
  | some ep, some _ =>
    if maxevents < 1 then []
    else
      let evs0 : List pollfd := List.replicate maxevents.toNat ⟨0, 0, 0⟩
      let ev_size : Nat := if maxevents > ep.eventSize then ep.eventSize else maxevents.toNat
      if ev_size = 0 then [.lock, .unlock]
      else
        [.lock, .unlock,
         .os (.poll ⟨pollFill ep.eventList ev_size 0 evs0, ev_size, timeout⟩)]
  | _, _ => []

/-- The actions of `SelectRemoveEvent` (lines 98-134). -/
def SelectRemoveEventActions (handle : Option EasySelect) (event : Option EasyEvent) :
    List Action :=
  match handle, event with
  | some _, some e => if e.fd < 0 then [] else [.lock, .unlock]
  | _, _ => []

/-- The actions of `SelectUpdateEvent` (lines 146-188). -/
def SelectUpdateEventActions (handle : Option EasySelect) (event : Option EasyEvent) :
    List Action :=
  match handle, event with
  | some ep, some e =>
    if e.fd < 0 then []
    else
      let idx := scanFd ep.eventList e.fd ep.eventSize 0
      if idx = ep.eventSize then
        if ep.eventSize ≥ ep.eventCapacity then [.lock, .unlock]
        else [.lock, .unlock]
      else [.lock, .unlock]
  | _, _ => []

/-- The actions of `SelectAddEvent`: those of `SelectUpdateEvent`. -/
def SelectAddEventActions (handle : Option EasySelect) (event : Option EasyEvent) :
    List Action :=
  SelectUpdateEventActions handle event

/-- The actions of `SelectWaitEvent` (lines 202-228). -/
def SelectWaitEventActions (handle : Option EasySelect) (events : Option (List EasyEvent))
    (maxevents timeout : Int) : List Action :=
  match handle, events with
  | some ep, some _ =>
    if maxevents < 1 then []
    else if ep.eventSize = 0 ∨ ep.maxFd < 0 then [.lock, .unlock]
    else
      [.lock, .unlock,
       .os (.select ⟨ep.maxFd + 1, ep.readSet, ep.writeSet, ep.exceptionSet,
         some (selectTimeval timeout)⟩)]
  | _, _ => []

/-- The actions of `EpollRemoveEvent` (lines 105-133). -/
def EpollRemoveEventActions (epoll_ctl : EpollCtlOs) (handle : Option EasyEpoll)
    (event : Option EasyEvent) : List Action :=
  match handle, event with
  | some ep, some e =>
    if e.fd < 0 then []
    else
      let idx := scanFd ep.eventList e.fd ep.eventSize 0
      if idx < ep.eventSize then
        let call : EpollCtlCall := ⟨ep.epollFd, .EPOLL_CTL_DEL, e.fd, none⟩
        if epoll_ctl call < 0 then [.lock, .os (.epoll_ctl call), .unlock]
        else [.lock, .os (.epoll_ctl call), .unlock]
      else [.lock, .unlock]
  | _, _ => []

/-- The actions of `EpollUpdateEvent` (lines 145-195). -/
def EpollUpdateEventActions (epoll_ctl : EpollCtlOs) (handle : Option EasyEpoll)
    (event : Option EasyEvent) : List Action :=
  match handle, event with
  | some ep, some e =>
    if e.fd < 0 then []
    else
      let ev := epollEv e
      let idx := scanFd ep.eventList e.fd ep.eventSize 0
      if idx = ep.eventSize then
        if ep.eventSize ≥ ep.eventCapacity then [.lock, .unlock]
        else
          let call : EpollCtlCall := ⟨ep.epollFd, .EPOLL_CTL_ADD, e.fd, some ev⟩
          if epoll_ctl call < 0 then [.lock, .os (.epoll_ctl call), .unlock]
          else [.lock, .os (.epoll_ctl call), .unlock]
      else
        let call : EpollCtlCall := ⟨ep.epollFd, .EPOLL_CTL_MOD, e.fd, some ev⟩
        if epoll_ctl call < 0 then [.lock, .os (.epoll_ctl call), .unlock]
        else [.lock, .os (.epoll_ctl call), .unlock]
  | _, _ => []

/-- The actions of `EpollAddEvent`: those of `EpollUpdateEvent`. -/
def EpollAddEventActions (epoll_ctl : EpollCtlOs) (handle : Option EasyEpoll)
    (event : Option EasyEvent) : List Action :=
  EpollUpdateEventActions epoll_ctl handle event

/-- The actions of `EpollWaitEvent` (lines 209-224). -/
def EpollWaitEventActions (handle : Option EasyEpoll) (events : Option (List EasyEvent))
    (maxevents timeout : Int) : List Action :=
  match handle, events with
  | some ep, some _ =>
    if maxevents < 1 then []
    else if ep.eventSize = 0 then [.lock, .unlock]
    else [.lock, .unlock, .os (.epoll_wait ⟨ep.epollFd, maxevents, timeout⟩)]
  | _, _ => []

/-! ## Lemmas on the array primitives -/

theorem scanFd_eq_findIdx (l : List EasyEvent) (fd : Int) (n idx : Nat)
    (h : idx + n ≤ l.length) :
    scanFd l fd n idx = idx + ((l.drop idx).take n).findIdx (fun e => e.fd == fd) := by
  induction n generalizing idx with
  | zero => simp [scanFd]
  | succ n ih =>
    have hlt : idx < l.length := by omega
    rw [List.drop_eq_getElem_cons hlt, List.take_succ_cons, List.findIdx_cons]
    simp only [scanFd, List.getD_eq_getElem l default hlt]
    by_cases hfd : l[idx].fd = fd
    · simp [hfd]
    · have hb : (l[idx].fd == fd) = false := by simpa using hfd
      rw [if_neg hfd, ih (idx + 1) (by omega), hb]
      simp only [cond_false]
      omega

theorem scanFd_table (ep : EasyPoll) (fd : Int) (h : ep.eventSize ≤ ep.eventList.length) :
    scanFd ep.eventList fd ep.eventSize 0 = ep.table.findIdx (fun e => e.fd == fd) := by
  rw [scanFd_eq_findIdx _ _ _ _ (by omega)]
  simp [EasyPoll.table]

theorem table_length (ep : EasyPoll) (h : ep.eventSize ≤ ep.eventList.length) :
    ep.table.length = ep.eventSize := by
  simp [EasyPoll.table, h]

theorem scanFd_le (ep : EasyPoll) (fd : Int) (h : ep.eventSize ≤ ep.eventList.length) :
    scanFd ep.eventList fd ep.eventSize 0 ≤ ep.eventSize := by
  rw [scanFd_table ep fd h]
  have : ep.table.findIdx (fun e : EasyEvent => e.fd == fd) ≤ ep.table.length :=
    List.findIdx_le_length _
  rw [table_length ep h] at this
  exact this

theorem scanFd_eq_size_iff (ep : EasyPoll) (fd : Int) (h : ep.eventSize ≤ ep.eventList.length) :
    scanFd ep.eventList fd ep.eventSize 0 = ep.eventSize ↔ ∀ e ∈ ep.table, e.fd ≠ fd := by
  rw [scanFd_table ep fd h]
  conv_lhs => rw [← table_length ep h]
  rw [List.findIdx_eq_length]
  simp

theorem take_set_append (l : List EasyEvent) (n : Nat) (e : EasyEvent) (h : n < l.length) :
    (l.set n e).take (n + 1) = l.take n ++ [e] := by
  rw [List.take_succ, List.set_take, List.set_eq_of_length_le (by simp)]
  simp [List.getElem?_set, h]

theorem take_memmove (l : List EasyEvent) (j size : Nat) (hj : j < size)
    (hs : size ≤ l.length) :
    (memmove l j (j + 1) (size - j - 1)).take (size - 1) = (l.take size).eraseIdx j := by
  have hlen : (l.take j ++ (l.drop (j + 1)).take (size - j - 1)).length = size - 1 := by
    simp
    omega
  unfold memmove
  rw [List.take_append_of_le_length (by omega), List.take_of_length_le (by omega)]
  rw [List.eraseIdx_eq_take_drop_succ, List.take_take, List.drop_take]
  congr 2
  omega

theorem length_memmove (l : List EasyEvent) (j size : Nat) (hj : j < size)
    (hs : size ≤ l.length) :
    (memmove l j (j + 1) (size - j - 1)).length = l.length := by
  simp [memmove]
  omega


/-! ## The poll backend on its interest table -/

theorem PollUpdateEvent_neg (ep : EasyPoll) (e : EasyEvent) (h : e.fd < 0) :
    PollUpdateEvent ep e = (-1, ep) := by
  simp [PollUpdateEvent, h]

theorem PollUpdateEvent_full (ep : EasyPoll) (e : EasyEvent)
    (hwf : ep.eventSize ≤ ep.eventList.length) (h0 : 0 ≤ e.fd)
    (habs : ∀ x ∈ ep.table, x.fd ≠ e.fd) (hfull : ep.eventCapacity ≤ ep.eventSize) :
    PollUpdateEvent ep e = (-1, ep) := by
  have hs := (scanFd_eq_size_iff ep e.fd hwf).2 habs
  simp [PollUpdateEvent, not_lt.2 h0, hs, hfull]

theorem PollUpdateEvent_append (ep : EasyPoll) (e : EasyEvent)
    (hwf : ep.eventSize ≤ ep.eventList.length) (h0 : 0 ≤ e.fd)
    (habs : ∀ x ∈ ep.table, x.fd ≠ e.fd) (hroom : ep.eventSize < ep.eventCapacity) :
    PollUpdateEvent ep e =
      (0, { ep with eventList := ep.eventList.set ep.eventSize e,
                    eventSize := ep.eventSize + 1 }) := by
  have hs := (scanFd_eq_size_iff ep e.fd hwf).2 habs
  simp [PollUpdateEvent, not_lt.2 h0, hs, not_le.2 hroom]

theorem PollUpdateEvent_overwrite (ep : EasyPoll) (e : EasyEvent)
    (hwf : ep.eventSize ≤ ep.eventList.length) (h0 : 0 ≤ e.fd)
    (hpres : ∃ x ∈ ep.table, x.fd = e.fd) :
    PollUpdateEvent ep e =
      (0, { ep with
              eventList := ep.eventList.set (ep.table.findIdx (fun x => x.fd == e.fd)) e }) := by
  have hne : scanFd ep.eventList e.fd ep.eventSize 0 ≠ ep.eventSize := by
    intro hs
    obtain ⟨x, hx, hxe⟩ := hpres
    exact (scanFd_eq_size_iff ep e.fd hwf).1 hs x hx hxe
  have hne2 := hne
  rw [scanFd_table ep e.fd hwf] at hne2
  simp [PollUpdateEvent, not_lt.2 h0, scanFd_table ep e.fd hwf, hne2]

theorem findIdx_lt_of_present (ep : EasyPoll) (fd : Int)
    (hwf : ep.eventSize ≤ ep.eventList.length) (hpres : ∃ x ∈ ep.table, x.fd = fd) :
    ep.table.findIdx (fun x => x.fd == fd) < ep.eventSize := by
  obtain ⟨x, hx, hxe⟩ := hpres
  have : ep.table.findIdx (fun x : EasyEvent => x.fd == fd) < ep.table.length :=
    List.findIdx_lt_length_of_exists ⟨x, hx, by simpa using hxe⟩
  rwa [table_length ep hwf] at this

theorem findIdx_fd (ep : EasyPoll) (fd : Int)
    (h : ep.table.findIdx (fun x => x.fd == fd) < ep.table.length) :
    (ep.table[ep.table.findIdx (fun x => x.fd == fd)]).fd = fd := by
  have := @List.findIdx_getElem _ (fun x : EasyEvent => x.fd == fd) ep.table h
  simpa using this

theorem table_append (ep : EasyPoll) (e : EasyEvent) (h : ep.eventSize < ep.eventList.length) :
    EasyPoll.table { ep with eventList := ep.eventList.set ep.eventSize e,
                             eventSize := ep.eventSize + 1 } = ep.table ++ [e] := by
  simp [EasyPoll.table, take_set_append _ _ _ h]

theorem table_overwrite (ep : EasyPoll) (e : EasyEvent) (j : Nat) :
    EasyPoll.table { ep with eventList := ep.eventList.set j e } = ep.table.set j e := by
  simp [EasyPoll.table, List.set_take]

theorem PollRemoveEvent_neg (ep : EasyPoll) (e : EasyEvent) (h : e.fd < 0) :
    PollRemoveEvent ep e = (-1, ep) := by
  simp [PollRemoveEvent, h]

theorem PollRemoveEvent_absent (ep : EasyPoll) (e : EasyEvent)
    (hwf : ep.eventSize ≤ ep.eventList.length) (h0 : 0 ≤ e.fd)
    (habs : ∀ x ∈ ep.table, x.fd ≠ e.fd) :
    PollRemoveEvent ep e = (0, ep) := by
  have hs := (scanFd_eq_size_iff ep e.fd hwf).2 habs
  simp [PollRemoveEvent, not_lt.2 h0, hs]

theorem PollRemoveEvent_present (ep : EasyPoll) (e : EasyEvent)
    (hwf : ep.eventSize ≤ ep.eventList.length) (h0 : 0 ≤ e.fd)
    (hpres : ∃ x ∈ ep.table, x.fd = e.fd) :
    PollRemoveEvent ep e =
      (0, { ep with
              eventList := memmove ep.eventList (ep.table.findIdx (fun x => x.fd == e.fd))
                (ep.table.findIdx (fun x => x.fd == e.fd) + 1)
                (ep.eventSize - ep.table.findIdx (fun x => x.fd == e.fd) - 1),
              eventSize := ep.eventSize - 1 }) := by
  have hlt := findIdx_lt_of_present ep e.fd hwf hpres
  simp [PollRemoveEvent, not_lt.2 h0, scanFd_table ep e.fd hwf, hlt]

theorem table_remove (ep : EasyPoll) (j : Nat) (hj : j < ep.eventSize)
    (hwf : ep.eventSize ≤ ep.eventList.length) :
    EasyPoll.table { ep with
        eventList := memmove ep.eventList j (j + 1) (ep.eventSize - j - 1),
        eventSize := ep.eventSize - 1 } = ep.table.eraseIdx j := by
  simp only [EasyPoll.table]
  exact take_memmove _ _ _ hj hwf


/-! ## Preservation of the table invariant -/

theorem map_fd_set (t : List EasyEvent) (j : Nat) (e : EasyEvent) (hj : j < t.length)
    (hfd : t[j].fd = e.fd) : (t.set j e).map (·.fd) = t.map (·.fd) := by
  apply List.ext_getElem
  · simp
  · intro n h1 h2
    simp only [List.getElem_map, List.getElem_set]
    split
    · next h => subst h; exact hfd.symm
    · rfl

theorem PollUpdateEvent_capacity (ep : EasyPoll) (e : EasyEvent) :
    (PollUpdateEvent ep e).2.eventCapacity = ep.eventCapacity := by
  unfold PollUpdateEvent
  simp only
  split_ifs <;> rfl

theorem PollRemoveEvent_capacity (ep : EasyPoll) (e : EasyEvent) :
    (PollRemoveEvent ep e).2.eventCapacity = ep.eventCapacity := by
  unfold PollRemoveEvent
  simp only
  split_ifs <;> rfl

theorem TableInv_update (ep : EasyPoll) (e : EasyEvent) (h : TableInv ep) :
    TableInv (PollUpdateEvent ep e).2 := by
  obtain ⟨⟨hlen, hsz⟩, hnd, hpos⟩ := h
  have hwf : ep.eventSize ≤ ep.eventList.length := by omega
  by_cases hneg : e.fd < 0
  · rw [PollUpdateEvent_neg ep e hneg]
    exact ⟨⟨hlen, hsz⟩, hnd, hpos⟩
  have h0 : 0 ≤ e.fd := not_lt.1 hneg
  by_cases hpres : ∃ x ∈ ep.table, x.fd = e.fd
  · rw [PollUpdateEvent_overwrite ep e hwf h0 hpres]
    have hj := findIdx_lt_of_present ep e.fd hwf hpres
    have hjt : ep.table.findIdx (fun x => x.fd == e.fd) < ep.table.length := by
      rwa [table_length ep hwf]
    have hfd := findIdx_fd ep e.fd hjt
    refine ⟨⟨by simpa using hlen, hsz⟩, ?_, ?_⟩
    · rw [table_overwrite, map_fd_set _ _ _ hjt hfd]
      exact hnd
    · rw [table_overwrite]
      intro x hx
      rcases List.mem_or_eq_of_mem_set hx with hx | hx
      · exact hpos x hx
      · rw [hx]; exact h0
  · have habs : ∀ x ∈ ep.table, x.fd ≠ e.fd := by
      intro x hx hxe
      exact hpres ⟨x, hx, hxe⟩
    by_cases hfull : ep.eventCapacity ≤ ep.eventSize
    · rw [PollUpdateEvent_full ep e hwf h0 habs hfull]
      exact ⟨⟨hlen, hsz⟩, hnd, hpos⟩
    · have hroom : ep.eventSize < ep.eventCapacity := not_le.1 hfull
      rw [PollUpdateEvent_append ep e hwf h0 habs hroom]
      refine ⟨⟨by simpa using hlen, hroom⟩, ?_, ?_⟩
      · rw [table_append ep e (by omega), List.map_append, List.nodup_append]
        refine ⟨hnd, by simp, ?_⟩
        intro a ha hb
        simp only [List.map_cons, List.map_nil, List.mem_singleton] at hb
        obtain ⟨x, hx, hxa⟩ := List.mem_map.1 ha
        exact habs x hx (hxa.trans hb)
      · rw [table_append ep e (by omega)]
        intro x hx
        rcases List.mem_append.1 hx with hx | hx
        · exact hpos x hx
        · rw [List.mem_singleton.1 hx]; exact h0

theorem TableInv_remove (ep : EasyPoll) (e : EasyEvent) (h : TableInv ep) :
    TableInv (PollRemoveEvent ep e).2 := by
  obtain ⟨⟨hlen, hsz⟩, hnd, hpos⟩ := h
  have hwf : ep.eventSize ≤ ep.eventList.length := by omega
  by_cases hneg : e.fd < 0
  · rw [PollRemoveEvent_neg ep e hneg]
    exact ⟨⟨hlen, hsz⟩, hnd, hpos⟩
  have h0 : 0 ≤ e.fd := not_lt.1 hneg
  by_cases hpres : ∃ x ∈ ep.table, x.fd = e.fd
  · rw [PollRemoveEvent_present ep e hwf h0 hpres]
    have hj := findIdx_lt_of_present ep e.fd hwf hpres
    refine ⟨⟨?_, ?_⟩, ?_, ?_⟩
    · simp only
      rw [length_memmove _ _ _ hj hwf]
      exact hlen
    · simp only
      omega
    · rw [table_remove ep _ hj hwf]
      exact hnd.sublist ((List.eraseIdx_sublist _ _).map _)
    · rw [table_remove ep _ hj hwf]
      intro x hx
      exact hpos x (List.mem_of_mem_eraseIdx hx)
  · have habs : ∀ x ∈ ep.table, x.fd ≠ e.fd := by
      intro x hx hxe
      exact hpres ⟨x, hx, hxe⟩
    rw [PollRemoveEvent_absent ep e hwf h0 habs]
    exact ⟨⟨hlen, hsz⟩, hnd, hpos⟩

theorem TableInv_step (ep : EasyPoll) (op : TableOp) (h : TableInv ep) :
    TableInv (PollStep ep op) := by
  cases op with
  | AddEvent e => exact TableInv_update ep e h
  | UpdateEvent e => exact TableInv_update ep e h
  | RemoveEvent e => exact TableInv_remove ep e h

theorem PollStep_capacity (ep : EasyPoll) (op : TableOp) :
    (PollStep ep op).eventCapacity = ep.eventCapacity := by
  cases op with
  | AddEvent e => exact PollUpdateEvent_capacity ep e
  | UpdateEvent e => exact PollUpdateEvent_capacity ep e
  | RemoveEvent e => exact PollRemoveEvent_capacity ep e

theorem TableInv_run (ops : List TableOp) (ep : EasyPoll) (h : TableInv ep) :
    TableInv (PollRun ep ops) ∧ (PollRun ep ops).eventCapacity = ep.eventCapacity := by
  induction ops generalizing ep with
  | nil => exact ⟨h, rfl⟩
  | cons op ops ih =>
    have := ih (PollStep ep op) (TableInv_step ep op h)
    exact ⟨this.1, this.2.trans (PollStep_capacity ep op)⟩

theorem clampSize_eq (h : Int) : ((clampSize h : Nat) : Int) = max 1 h := by
  unfold clampSize
  split_ifs with hh
  · simp; omega
  · rw [Int.toNat_of_nonneg (by omega)]
    omega

theorem TableInv_create (h : Int) :
    TableInv { eventCapacity := clampSize h, eventSize := 0,
               eventList := callocEvents (clampSize h) } := by
  refine ⟨⟨by simp [callocEvents], Nat.zero_le _⟩, ?_, ?_⟩ <;> simp [EasyPoll.table]

theorem CellInv_of_TableInv (h : Int) (ep : EasyPoll) (hinv : TableInv ep)
    (hcap : (ep.eventCapacity : Int) = max 1 h) : CellInv h ep := by
  obtain ⟨⟨hlen, hsz⟩, hnd, hpos⟩ := hinv
  have hwf : ep.eventSize ≤ ep.eventList.length := by omega
  have htl := table_length ep hwf
  have hget : ∀ i, i < ep.eventSize → ∃ hi : i < ep.table.length,
      ep.eventList.getD i default = ep.table[i] := by
    intro i hi
    have hi2 : i < ep.table.length := by omega
    refine ⟨hi2, ?_⟩
    rw [List.getD_eq_getElem _ _ (by omega)]
    simp [EasyPoll.table]
  refine ⟨?_, ?_, hsz, hcap⟩
  · intro i j hi hj hij heq
    obtain ⟨hi2, hgi⟩ := hget i hi
    obtain ⟨hj2, hgj⟩ := hget j hj
    rw [hgi, hgj] at heq
    have hmi : i < (ep.table.map (·.fd)).length := by simpa using hi2
    have hmj : j < (ep.table.map (·.fd)).length := by simpa using hj2
    have : (ep.table.map (·.fd))[i] = (ep.table.map (·.fd))[j] := by
      simpa using heq
    exact hij ((List.Nodup.getElem_inj_iff hnd).1 this)
  · intro i hi
    obtain ⟨hi2, hgi⟩ := hget i hi
    rw [hgi]
    exact hpos _ (List.getElem_mem _)


/-! ## The select backend where its calls stay inside the sets -/

theorem fdIndex_eq_some (fd : Int) (h0 : 0 ≤ fd) (h1 : fd < FD_SETSIZE) :
    ∃ i, fdIndex fd = some i := by
  exact ⟨_, dif_pos ⟨h0, h1⟩⟩

theorem fdIndex_val (fd : Int) (i : Fin FD_SETSIZE) (h : fdIndex fd = some i) :
    ((i : Nat) : Int) = fd ∧ 0 ≤ fd ∧ fd < FD_SETSIZE := by
  unfold fdIndex at h
  split_ifs at h with hc
  cases h
  refine ⟨?_, hc.1, hc.2⟩
  show ((fd.toNat : Nat) : Int) = fd
  have := hc.1
  omega

theorem selectMark_in (ep : EasySelect) (d : EasyEvent) (i : Fin FD_SETSIZE)
    (hi : fdIndex d.fd = some i) :
    selectMark ep d = some
      { ep with
          readSet := if hasFlag d.event EVENT_READ then insert i ep.readSet else ep.readSet,
          writeSet := if hasFlag d.event EVENT_WRITE then insert i ep.writeSet
                      else ep.writeSet,
          exceptionSet := if hasFlag d.event EVENT_ERROR then insert i ep.exceptionSet
                          else ep.exceptionSet,
          maxFd := if d.fd > ep.maxFd then d.fd else ep.maxFd } := by
  unfold selectMark FD_SET
  simp only [hi, Option.map_some']
  cases hasFlag d.event EVENT_READ <;> cases hasFlag d.event EVENT_WRITE <;>
    cases hasFlag d.event EVENT_ERROR <;>
    simp only [Bool.false_eq_true, if_true, if_false, Option.some_bind, Option.map_some'] <;>
    split_ifs <;> rfl

theorem selectMark_out (ep : EasySelect) (d : EasyEvent) (hi : fdIndex d.fd = none) :
    selectMark ep d =
      if hasFlag d.event EVENT_READ || hasFlag d.event EVENT_WRITE
          || hasFlag d.event EVENT_ERROR then none
      else some { ep with maxFd := if d.fd > ep.maxFd then d.fd else ep.maxFd } := by
  unfold selectMark FD_SET
  simp only [hi, Option.map_none']
  cases hasFlag d.event EVENT_READ <;> cases hasFlag d.event EVENT_WRITE <;>
    cases hasFlag d.event EVENT_ERROR <;>
    simp only [Bool.false_eq_true, if_true, if_false, Option.some_bind, Option.none_bind,
      Option.map_some', Option.map_none', Bool.or_false, Bool.or_true, Bool.true_or,
      Bool.or_self]
  split_ifs <;> rfl

theorem selectMark_toPoll (ep : EasySelect) (d : EasyEvent) (s : EasySelect)
    (h : selectMark ep d = some s) :
    s.toPoll = ep.toPoll ∧ s.maxFd = (if d.fd > ep.maxFd then d.fd else ep.maxFd) := by
  cases hi : fdIndex d.fd with
  | some i =>
    rw [selectMark_in ep d i hi] at h
    cases h
    exact ⟨rfl, rfl⟩
  | none =>
    rw [selectMark_out ep d hi] at h
    by_cases hf : (hasFlag d.event EVENT_READ || hasFlag d.event EVENT_WRITE
        || hasFlag d.event EVENT_ERROR) = true
    · rw [if_pos hf] at h
      cases h
    · rw [if_neg hf] at h
      cases h
      exact ⟨rfl, rfl⟩

theorem selectMark_defined (ep : EasySelect) (d : EasyEvent) (h0 : 0 ≤ d.fd)
    (h1 : d.fd < FD_SETSIZE) : ∃ s, selectMark ep d = some s := by
  obtain ⟨i, hi⟩ := fdIndex_eq_some d.fd h0 h1
  exact ⟨_, selectMark_in ep d i hi⟩

theorem SelectUpdateEvent_toPoll (ep : EasySelect) (e : EasyEvent) (r : Int × EasySelect)
    (h : SelectUpdateEvent ep e = some r) :
    (r.1, r.2.toPoll) = PollUpdateEvent ep.toPoll e := by
  unfold SelectUpdateEvent at h
  unfold PollUpdateEvent
  simp only [EasySelect.toPoll] at h ⊢
  by_cases h1 : e.fd < 0
  · rw [if_pos h1] at h ⊢
    cases h
    rfl
  rw [if_neg h1] at h ⊢
  by_cases h2 : scanFd ep.eventList e.fd ep.eventSize 0 = ep.eventSize
  · rw [if_pos h2] at h ⊢
    by_cases h3 : ep.eventSize ≥ ep.eventCapacity
    · rw [if_pos h3] at h ⊢
      cases h
      rfl
    · rw [if_neg h3] at h ⊢
      obtain ⟨s, hs, rfl⟩ := Option.map_eq_some'.1 h
      have := (selectMark_toPoll _ e s hs).1
      simp only [EasySelect.toPoll, EasyPoll.mk.injEq] at this
      simp [this.1, this.2.1, this.2.2]
  · rw [if_neg h2] at h ⊢
    obtain ⟨s, hs, rfl⟩ := Option.map_eq_some'.1 h
    have := (selectMark_toPoll _ e s hs).1
    simp only [EasySelect.toPoll, EasyPoll.mk.injEq] at this
    simp [this.1, this.2.1, this.2.2]

theorem SelectUpdateEvent_defined (ep : EasySelect) (e : EasyEvent)
    (h1 : e.fd < FD_SETSIZE) : ∃ r, SelectUpdateEvent ep e = some r := by
  unfold SelectUpdateEvent
  simp only
  by_cases h0 : e.fd < 0
  · rw [if_pos h0]
    exact ⟨_, rfl⟩
  rw [if_neg h0]
  split_ifs
  · exact ⟨_, rfl⟩
  · obtain ⟨s, hs⟩ := selectMark_defined
      { ep with eventList := ep.eventList.set (scanFd ep.eventList e.fd ep.eventSize 0) e,
                eventSize := ep.eventSize + 1 } e (not_lt.1 h0) h1
    exact ⟨(0, s), by rw [hs]; rfl⟩
  · obtain ⟨s, hs⟩ := selectMark_defined
      { ep with eventList := ep.eventList.set (scanFd ep.eventList e.fd ep.eventSize 0) e }
      e (not_lt.1 h0) h1
    exact ⟨(0, s), by rw [hs]; rfl⟩

theorem SelectRemoveEvent_in (ep : EasySelect) (d : EasyEvent) (i : Fin FD_SETSIZE)
    (hi : fdIndex d.fd = some i) :
    SelectRemoveEvent ep d = some
      (if scanFd ep.eventList d.fd ep.eventSize 0 < ep.eventSize then
        (0, { ep with
                readSet := ep.readSet.erase i,
                writeSet := ep.writeSet.erase i,
                exceptionSet := ep.exceptionSet.erase i,
                eventList := memmove ep.eventList (scanFd ep.eventList d.fd ep.eventSize 0)
                  (scanFd ep.eventList d.fd ep.eventSize 0 + 1)
                  (ep.eventSize - scanFd ep.eventList d.fd ep.eventSize 0 - 1),
                eventSize := ep.eventSize - 1,
                maxFd := scanMaxFd
                  (memmove ep.eventList (scanFd ep.eventList d.fd ep.eventSize 0)
                    (scanFd ep.eventList d.fd ep.eventSize 0 + 1)
                    (ep.eventSize - scanFd ep.eventList d.fd ep.eventSize 0 - 1))
                  (ep.eventSize - 1) 0 (-1) })
       else (0, ep)) := by
  have h0 : ¬ d.fd < 0 := not_lt.2 (fdIndex_val d.fd i hi).2.1
  unfold SelectRemoveEvent FD_CLR
  simp only [h0, if_false, hi, Option.map_some', Option.some_bind]
  split_ifs <;> rfl

theorem SelectRemoveEvent_toPoll (ep : EasySelect) (e : EasyEvent) (r : Int × EasySelect)
    (h : SelectRemoveEvent ep e = some r) :
    (r.1, r.2.toPoll) = PollRemoveEvent ep.toPoll e := by
  cases hi : fdIndex e.fd with
  | some i =>
    rw [SelectRemoveEvent_in ep e i hi] at h
    cases h
    have h0 : ¬ e.fd < 0 := not_lt.2 (fdIndex_val e.fd i hi).2.1
    unfold PollRemoveEvent
    simp only [EasySelect.toPoll, h0, if_false]
    split_ifs <;> rfl
  | none =>
    unfold SelectRemoveEvent FD_CLR at h
    unfold PollRemoveEvent
    simp only [hi, Option.map_none', Option.none_bind, EasySelect.toPoll] at h ⊢
    split_ifs at h ⊢
    all_goals
      cases h
      rfl

theorem SelectRemoveEvent_defined (ep : EasySelect) (e : EasyEvent)
    (h1 : e.fd < FD_SETSIZE) : ∃ r, SelectRemoveEvent ep e = some r := by
  by_cases h0 : e.fd < 0
  · exact ⟨(-1, ep), by simp [SelectRemoveEvent, h0]⟩
  · obtain ⟨i, hi⟩ := fdIndex_eq_some e.fd (not_lt.1 h0) h1
    exact ⟨_, SelectRemoveEvent_in ep e i hi⟩

theorem SelectStep_toPoll (ep : EasySelect) (op : TableOp) (s : EasySelect)
    (h : SelectStep ep op = some s) : s.toPoll = PollStep ep.toPoll op := by
  cases op with
  | AddEvent e =>
    obtain ⟨r, hr, rfl⟩ := Option.map_eq_some'.1 h
    exact congrArg Prod.snd (SelectUpdateEvent_toPoll ep e r hr)
  | UpdateEvent e =>
    obtain ⟨r, hr, rfl⟩ := Option.map_eq_some'.1 h
    exact congrArg Prod.snd (SelectUpdateEvent_toPoll ep e r hr)
  | RemoveEvent e =>
    obtain ⟨r, hr, rfl⟩ := Option.map_eq_some'.1 h
    exact congrArg Prod.snd (SelectRemoveEvent_toPoll ep e r hr)

theorem SelectRun_toPoll (ops : List TableOp) (ep s : EasySelect)
    (h : SelectRun ep ops = some s) : s.toPoll = PollRun ep.toPoll ops := by
  induction ops generalizing ep with
  | nil =>
    cases h
    rfl
  | cons op ops ih =>
    obtain ⟨s1, hs1, hrun⟩ := Option.bind_eq_some.1 h
    show s.toPoll = PollRun (PollStep ep.toPoll op) ops
    rw [← SelectStep_toPoll ep op s1 hs1]
    exact ih s1 hrun

theorem SelectStep_defined (ep : EasySelect) (op : TableOp)
    (h1 : op.event.fd < FD_SETSIZE) : ∃ s, SelectStep ep op = some s := by
  cases op with
  | AddEvent e =>
    obtain ⟨r, hr⟩ := SelectUpdateEvent_defined ep e h1
    exact ⟨r.2, by simp [SelectStep, SelectAddEvent, hr]⟩
  | UpdateEvent e =>
    obtain ⟨r, hr⟩ := SelectUpdateEvent_defined ep e h1
    exact ⟨r.2, by simp [SelectStep, hr]⟩
  | RemoveEvent e =>
    obtain ⟨r, hr⟩ := SelectRemoveEvent_defined ep e h1
    exact ⟨r.2, by simp [SelectStep, hr]⟩

theorem SelectRun_defined (ops : List TableOp) (ep : EasySelect)
    (h1 : ∀ op ∈ ops, op.event.fd < FD_SETSIZE) : ∃ s, SelectRun ep ops = some s := by
  induction ops generalizing ep with
  | nil => exact ⟨ep, rfl⟩
  | cons op ops ih =>
    obtain ⟨s1, hs1⟩ := SelectStep_defined ep op (h1 op (List.mem_cons_self _ _))
    obtain ⟨s, hs⟩ := ih s1 (fun o ho => h1 o (List.mem_cons_of_mem _ ho))
    exact ⟨s, by simp [SelectRun, hs1, hs]⟩


/-! ## The epoll backend acts on the table as the poll backend does, or not at all -/

theorem EpollUpdateEvent_toPoll (os : EpollCtlOs) (ep : EasyEpoll) (e : EasyEvent) :
    ((EpollUpdateEvent os ep e).1 = -1 ∧ (EpollUpdateEvent os ep e).2.1 = ep) ∨
    ((EpollUpdateEvent os ep e).1, (EpollUpdateEvent os ep e).2.1.toPoll) =
      PollUpdateEvent ep.toPoll e := by
  unfold EpollUpdateEvent PollUpdateEvent
  simp only [EasyEpoll.toPoll]
  split_ifs <;> simp

theorem EpollRemoveEvent_toPoll (os : EpollCtlOs) (ep : EasyEpoll) (e : EasyEvent) :
    ((EpollRemoveEvent os ep e).1 = -1 ∧ (EpollRemoveEvent os ep e).2.1 = ep) ∨
    ((EpollRemoveEvent os ep e).1, (EpollRemoveEvent os ep e).2.1.toPoll) =
      PollRemoveEvent ep.toPoll e := by
  unfold EpollRemoveEvent PollRemoveEvent
  simp only [EasyEpoll.toPoll]
  split_ifs <;> simp

theorem EpollStep_toPoll (ep : EasyEpoll) (op : EpollCtlOs × TableOp) :
    EpollStep ep op = ep ∨ (EpollStep ep op).toPoll = PollStep ep.toPoll op.2 := by
  obtain ⟨os, op⟩ := op
  cases op with
  | AddEvent e =>
    rcases EpollUpdateEvent_toPoll os ep e with h | h
    · exact Or.inl h.2
    · exact Or.inr (congrArg Prod.snd h)
  | UpdateEvent e =>
    rcases EpollUpdateEvent_toPoll os ep e with h | h
    · exact Or.inl h.2
    · exact Or.inr (congrArg Prod.snd h)
  | RemoveEvent e =>
    rcases EpollRemoveEvent_toPoll os ep e with h | h
    · exact Or.inl h.2
    · exact Or.inr (congrArg Prod.snd h)

theorem TableInv_epollRun (ops : List (EpollCtlOs × TableOp)) (ep : EasyEpoll)
    (h : TableInv ep.toPoll) :
    TableInv (EpollRun ep ops).toPoll ∧
      (EpollRun ep ops).eventCapacity = ep.eventCapacity := by
  induction ops generalizing ep with
  | nil => exact ⟨h, rfl⟩
  | cons op ops ih =>
    show TableInv (EpollRun (EpollStep ep op) ops).toPoll ∧
      (EpollRun (EpollStep ep op) ops).eventCapacity = ep.eventCapacity
    rcases EpollStep_toPoll ep op with hs | hs
    · rw [hs]; exact ih ep h
    · have hinv : TableInv (EpollStep ep op).toPoll := by
        rw [hs]; exact TableInv_step _ _ h
      have hcap : (EpollStep ep op).eventCapacity = ep.eventCapacity := by
        have := congrArg EasyPoll.eventCapacity hs
        rw [PollStep_capacity] at this
        exact this
      have := ih _ hinv
      exact ⟨this.1, this.2.trans hcap⟩


/-! ## Tables without a repeated descriptor -/

theorem filter_fd_singleton (t : List EasyEvent) (d : EasyEvent)
    (hnd : (t.map (·.fd)).Nodup) (hd : d ∈ t) :
    t.filter (fun x => x.fd == d.fd) = [d] := by
  induction t with
  | nil => cases hd
  | cons a t ih =>
    rw [List.map_cons, List.nodup_cons] at hnd
    have hrest : ∀ x ∈ t, x.fd ≠ a.fd := by
      intro x hx hxa
      exact hnd.1 (List.mem_map.2 ⟨x, hx, hxa⟩)
    rcases List.mem_cons.1 hd with hda | hdt
    · subst hda
      have hnil : t.filter (fun x => x.fd == d.fd) = [] := by
        rw [List.filter_eq_nil_iff]
        intro x hx
        simpa using hrest x hx
      simp [List.filter_cons, hnil]
    · have hne : a.fd ≠ d.fd := fun h => hrest d hdt h.symm
      have hb : (a.fd == d.fd) = false := by simpa using hne
      rw [List.filter_cons, hb]
      exact ih hnd.2 hdt

theorem eq_of_fd_eq (t : List EasyEvent) (x y : EasyEvent) (hnd : (t.map (·.fd)).Nodup)
    (hx : x ∈ t) (hy : y ∈ t) (hfd : x.fd = y.fd) : x = y :=
  List.inj_on_of_nodup_map hnd hx hy hfd

theorem eraseIdx_findIdx_eq_filter (t : List EasyEvent) (fd : Int)
    (hnd : (t.map (·.fd)).Nodup) :
    t.eraseIdx (t.findIdx (fun x => x.fd == fd)) = t.filter (fun x => x.fd != fd) := by
  induction t with
  | nil => rfl
  | cons a t ih =>
    rw [List.map_cons, List.nodup_cons] at hnd
    rw [List.findIdx_cons, List.filter_cons]
    by_cases ha : a.fd = fd
    · have hall : ∀ x ∈ t, (x.fd != fd) = true := by
        intro x hx
        have : x.fd ≠ a.fd := fun h => hnd.1 (List.mem_map.2 ⟨x, hx, h⟩)
        simpa [← ha] using this
      simp [ha, List.filter_eq_self.2 hall]
    · have hb : (a.fd == fd) = false := by simpa using ha
      have hb2 : (a.fd != fd) = true := by simpa using ha
      rw [hb, hb2]
      simp only [cond_false, List.eraseIdx_cons_succ, if_true]
      rw [ih hnd.2]

theorem set_cell_self (l : List EasyEvent) (j : Nat) (d : EasyEvent) (hj : j < l.length)
    (h : l[j] = d) : l.set j d = l := by
  apply List.ext_getElem
  · simp
  · intro n h1 h2
    rw [List.getElem_set]
    split
    · next hn => subst hn; exact h.symm
    · rfl

theorem PollUpdateEvent_ok_mem (ep : EasyPoll) (d : EasyEvent)
    (hw : WellFormed ep) (hok : (PollUpdateEvent ep d).1 = 0) :
    d ∈ (PollUpdateEvent ep d).2.table := by
  have hlen := hw.1
  have hwf : ep.eventSize ≤ ep.eventList.length := by
    rw [hw.1]; exact hw.2
  by_cases hneg : d.fd < 0
  · rw [PollUpdateEvent_neg ep d hneg] at hok
    simp at hok
  have h0 : 0 ≤ d.fd := not_lt.1 hneg
  by_cases hpres : ∃ x ∈ ep.table, x.fd = d.fd
  · rw [PollUpdateEvent_overwrite ep d hwf h0 hpres, table_overwrite]
    have hj := findIdx_lt_of_present ep d.fd hwf hpres
    exact List.mem_set _ _ (by rwa [table_length ep hwf]) _
  · have habs : ∀ x ∈ ep.table, x.fd ≠ d.fd := fun x hx hxe => hpres ⟨x, hx, hxe⟩
    by_cases hfull : ep.eventCapacity ≤ ep.eventSize
    · rw [PollUpdateEvent_full ep d hwf h0 habs hfull] at hok
      simp at hok
    · rw [PollUpdateEvent_append ep d hwf h0 habs (not_le.1 hfull),
        table_append ep d (by omega)]
      simp

theorem PollUpdateEvent_ok_filter (ep : EasyPoll) (d : EasyEvent) (h : TableInv ep)
    (hok : (PollUpdateEvent ep d).1 = 0) :
    (PollUpdateEvent ep d).2.table.filter (fun x => x.fd == d.fd) = [d] := by
  exact filter_fd_singleton _ d (TableInv_update ep d h).2.1 (PollUpdateEvent_ok_mem ep d h.1 hok)

theorem PollUpdateEvent_present_ok (ep : EasyPoll) (d : EasyEvent)
    (hwf : ep.eventSize ≤ ep.eventList.length) (h0 : 0 ≤ d.fd)
    (hpres : ∃ x ∈ ep.table, x.fd = d.fd) : (PollUpdateEvent ep d).1 = 0 := by
  rw [PollUpdateEvent_overwrite ep d hwf h0 hpres]

theorem set_findIdx_self (ep : EasyPoll) (d : EasyEvent) (h : TableInv ep) (hd : d ∈ ep.table) :
    ep.eventList.set (ep.table.findIdx (fun x => x.fd == d.fd)) d = ep.eventList := by
  have hwf : ep.eventSize ≤ ep.eventList.length := by
    rw [h.1.1]; exact h.1.2
  have hj := findIdx_lt_of_present ep d.fd hwf ⟨d, hd, rfl⟩
  have hjt : ep.table.findIdx (fun x => x.fd == d.fd) < ep.table.length := by
    rwa [table_length ep hwf]
  have hfd := findIdx_fd ep d.fd hjt
  have heq : ep.table[ep.table.findIdx (fun x => x.fd == d.fd)] = d :=
    eq_of_fd_eq ep.table _ d h.2.1 (List.getElem_mem _) hd hfd
  have hcell : ep.eventList[ep.table.findIdx (fun x => x.fd == d.fd)] =
      ep.table[ep.table.findIdx (fun x => x.fd == d.fd)] := by
    simp [EasyPoll.table]
  rw [heq] at hcell
  exact set_cell_self _ _ d (by omega) hcell

theorem PollUpdateEvent_idem (ep : EasyPoll) (d : EasyEvent) (h : TableInv ep)
    (hd : d ∈ ep.table) : PollUpdateEvent ep d = (0, ep) := by
  have hwf : ep.eventSize ≤ ep.eventList.length := by
    rw [h.1.1]; exact h.1.2
  rw [PollUpdateEvent_overwrite ep d hwf (h.2.2 d hd) ⟨d, hd, rfl⟩, set_findIdx_self ep d h hd]


/-! ## Repeated updates in the select and epoll backends -/

theorem selectMark_idem (ep s : EasySelect) (d : EasyEvent) (h : selectMark ep d = some s) :
    selectMark s d = some s := by
  cases hi : fdIndex d.fd with
  | some i =>
    rw [selectMark_in ep d i hi] at h
    cases h
    rw [selectMark_in _ d i hi]
    simp only [Option.some.injEq, EasySelect.mk.injEq, and_true, true_and]
    refine ⟨?_, ?_, ?_, ?_⟩
    · split_ifs <;> omega
    · split_ifs <;> simp
    · split_ifs <;> simp
    · split_ifs <;> simp
  | none =>
    rw [selectMark_out ep d hi] at h
    by_cases hf : (hasFlag d.event EVENT_READ || hasFlag d.event EVENT_WRITE
        || hasFlag d.event EVENT_ERROR) = true
    · rw [if_pos hf] at h
      cases h
    · rw [if_neg hf] at h
      cases h
      rw [selectMark_out _ d hi, if_neg hf]
      simp only [Option.some.injEq, EasySelect.mk.injEq, and_true]
      split_ifs <;> omega

theorem SelectUpdateEvent_ok_marked (ep : EasySelect) (d : EasyEvent) (r : Int × EasySelect)
    (h : SelectUpdateEvent ep d = some r) (hok : r.1 = 0) :
    selectMark r.2 d = some r.2 := by
  unfold SelectUpdateEvent at h
  simp only at h
  by_cases h1 : d.fd < 0
  · rw [if_pos h1] at h
    cases h
    simp at hok
  rw [if_neg h1] at h
  by_cases h2 : scanFd ep.eventList d.fd ep.eventSize 0 = ep.eventSize
  · rw [if_pos h2] at h
    by_cases h3 : ep.eventSize ≥ ep.eventCapacity
    · rw [if_pos h3] at h
      cases h
      simp at hok
    · rw [if_neg h3] at h
      obtain ⟨s, hs, rfl⟩ := Option.map_eq_some'.1 h
      exact selectMark_idem _ s d hs
  · rw [if_neg h2] at h
    obtain ⟨s, hs, rfl⟩ := Option.map_eq_some'.1 h
    exact selectMark_idem _ s d hs

theorem SelectUpdateEvent_idem (ep : EasySelect) (d : EasyEvent) (h : TableInv ep.toPoll)
    (hd : d ∈ ep.table) (hm : selectMark ep d = some ep) :
    SelectUpdateEvent ep d = some (0, ep) := by
  have hwf : ep.toPoll.eventSize ≤ ep.toPoll.eventList.length := by
    rw [h.1.1]; exact h.1.2
  have h0 : 0 ≤ d.fd := h.2.2 d hd
  have hne : scanFd ep.eventList d.fd ep.eventSize 0 ≠ ep.eventSize := by
    intro hs
    exact (scanFd_eq_size_iff ep.toPoll d.fd hwf).1 hs d hd rfl
  have hset : ep.eventList.set (scanFd ep.eventList d.fd ep.eventSize 0) d = ep.eventList := by
    have := set_findIdx_self ep.toPoll d h hd
    rw [← scanFd_table ep.toPoll d.fd hwf] at this
    exact this
  simp only [SelectUpdateEvent, not_lt.2 h0, hne, if_false, hset]
  rw [hm]
  rfl

theorem EpollUpdateEvent_present (os : EpollCtlOs) (ep : EasyEpoll) (d : EasyEvent)
    (hwf : ep.eventSize ≤ ep.eventList.length) (h0 : 0 ≤ d.fd)
    (hpres : ∃ x ∈ ep.table, x.fd = d.fd)
    (hos : 0 ≤ os ⟨ep.epollFd, .EPOLL_CTL_MOD, d.fd, some (epollEv d)⟩) :
    EpollUpdateEvent os ep d =
      (0, { ep with
              eventList := ep.eventList.set (ep.table.findIdx (fun x => x.fd == d.fd)) d },
        [⟨ep.epollFd, .EPOLL_CTL_MOD, d.fd, some (epollEv d)⟩]) := by
  have hne : scanFd ep.eventList d.fd ep.eventSize 0 ≠ ep.eventSize := by
    intro hs
    obtain ⟨x, hx, hxe⟩ := hpres
    exact (scanFd_eq_size_iff ep.toPoll d.fd hwf).1 hs x hx hxe
  have hsc : scanFd ep.eventList d.fd ep.eventSize 0 =
      ep.table.findIdx (fun x => x.fd == d.fd) := scanFd_table ep.toPoll d.fd hwf
  simp only [EpollUpdateEvent, not_lt.2 h0, hne, if_false, not_lt.2 hos]
  rw [hsc]

theorem EpollUpdateEvent_ok (os : EpollCtlOs) (ep : EasyEpoll) (d : EasyEvent)
    (hok : (EpollUpdateEvent os ep d).1 = 0) :
    (PollUpdateEvent ep.toPoll d).1 = 0 ∧
    (EpollUpdateEvent os ep d).2.1.toPoll = (PollUpdateEvent ep.toPoll d).2 ∧
    (EpollUpdateEvent os ep d).2.1.epollFd = ep.epollFd := by
  have hfd : (EpollUpdateEvent os ep d).2.1.epollFd = ep.epollFd := by
    unfold EpollUpdateEvent
    simp only
    split_ifs <;> rfl
  rcases EpollUpdateEvent_toPoll os ep d with h | h
  · rw [h.1] at hok
    simp at hok
  · exact ⟨(congrArg Prod.fst h).symm.trans hok, congrArg Prod.snd h, hfd⟩


theorem PollUpdateEvent_twice (ep : EasyPoll) (d d2 : EasyEvent) (h : TableInv ep)
    (hok : (PollUpdateEvent ep d).1 = 0) (hfd : d2.fd = d.fd) :
    (PollUpdateEvent ep d).2.table.filter (fun x => x.fd == d.fd) = [d] ∧
    PollUpdateEvent (PollUpdateEvent ep d).2 d = (0, (PollUpdateEvent ep d).2) ∧
    (PollUpdateEvent (PollUpdateEvent ep d).2 d2).1 = 0 ∧
    (PollUpdateEvent (PollUpdateEvent ep d).2 d2).2.table.filter (fun x => x.fd == d.fd)
      = [d2] := by
  have hinv := TableInv_update ep d h
  have hmem := PollUpdateEvent_ok_mem ep d h.1 hok
  have hwf : (PollUpdateEvent ep d).2.eventSize ≤ (PollUpdateEvent ep d).2.eventList.length := by
    rw [hinv.1.1]; exact hinv.1.2
  have h0 : 0 ≤ d2.fd := by rw [hfd]; exact hinv.2.2 d hmem
  have hok2 := PollUpdateEvent_present_ok _ d2 hwf h0 ⟨d, hmem, hfd.symm⟩
  refine ⟨PollUpdateEvent_ok_filter ep d h hok, PollUpdateEvent_idem _ d hinv hmem, hok2, ?_⟩
  have := PollUpdateEvent_ok_filter _ d2 hinv hok2
  rwa [hfd] at this


/-! ## Removal -/

theorem PollRemoveEvent_present_spec (ep : EasyPoll) (d : EasyEvent) (h : TableInv ep)
    (hpres : ∃ x ∈ ep.table, x.fd = d.fd) :
    (PollRemoveEvent ep d).1 = 0 ∧
    (PollRemoveEvent ep d).2.table = ep.table.filter (fun x => x.fd != d.fd) ∧
    (PollRemoveEvent ep d).2.eventSize + 1 = ep.eventSize ∧
    (∀ x ∈ (PollRemoveEvent ep d).2.table, x.fd ≠ d.fd) ∧
    (PollRemoveEvent ep d).2.eventCapacity = ep.eventCapacity := by
  have hwf : ep.eventSize ≤ ep.eventList.length := by
    rw [h.1.1]; exact h.1.2
  have h0 : 0 ≤ d.fd := by
    obtain ⟨x, hx, hxe⟩ := hpres
    rw [← hxe]; exact h.2.2 x hx
  have hj := findIdx_lt_of_present ep d.fd hwf hpres
  have htab : (PollRemoveEvent ep d).2.table = ep.table.filter (fun x => x.fd != d.fd) := by
    rw [PollRemoveEvent_present ep d hwf h0 hpres, table_remove ep _ hj hwf]
    exact eraseIdx_findIdx_eq_filter _ _ h.2.1
  refine ⟨?_, htab, ?_, ?_, PollRemoveEvent_capacity ep d⟩
  · rw [PollRemoveEvent_present ep d hwf h0 hpres]
  · rw [PollRemoveEvent_present ep d hwf h0 hpres]
    simp only
    omega
  · rw [htab]
    intro x hx
    simpa using (List.mem_filter.1 hx).2

theorem EpollRemoveEvent_ok_toPoll (os : EpollCtlOs) (ep : EasyEpoll) (d : EasyEvent)
    (hos : 0 ≤ os ⟨ep.epollFd, .EPOLL_CTL_DEL, d.fd, none⟩) :
    (EpollRemoveEvent os ep d).1 = (PollRemoveEvent ep.toPoll d).1 ∧
    (EpollRemoveEvent os ep d).2.1.toPoll = (PollRemoveEvent ep.toPoll d).2 := by
  unfold EpollRemoveEvent PollRemoveEvent
  simp only [EasyEpoll.toPoll, not_lt.2 hos, if_false]
  split_ifs <;> exact ⟨rfl, rfl⟩

theorem SelectRemoveEvent_present_in (ep : EasySelect) (d : EasyEvent) (r : Int × EasySelect)
    (h : TableInv ep.toPoll) (hpres : ∃ x ∈ ep.table, x.fd = d.fd)
    (hr : SelectRemoveEvent ep d = some r) : ∃ i, fdIndex d.fd = some i := by
  have hwf : ep.toPoll.eventSize ≤ ep.toPoll.eventList.length := by
    rw [h.1.1]; exact h.1.2
  have h0 : 0 ≤ d.fd := by
    obtain ⟨x, hx, hxe⟩ := hpres
    rw [← hxe]; exact h.2.2 x hx
  have hj : scanFd ep.eventList d.fd ep.eventSize 0 < ep.eventSize := by
    have := findIdx_lt_of_present ep.toPoll d.fd hwf hpres
    rwa [← scanFd_table ep.toPoll d.fd hwf] at this
  cases hi : fdIndex d.fd with
  | some i => exact ⟨i, rfl⟩
  | none =>
    unfold SelectRemoveEvent FD_CLR at hr
    simp only [not_lt.2 h0, if_false, hj, if_true, hi, Option.map_none',
      Option.none_bind] at hr
    cases hr

theorem SelectRemoveEvent_present_spec (ep : EasySelect) (d : EasyEvent)
    (r : Int × EasySelect) (h : TableInv ep.toPoll) (hpres : ∃ x ∈ ep.table, x.fd = d.fd)
    (hr : SelectRemoveEvent ep d = some r) :
    r.1 = 0 ∧
    r.2.table = ep.table.filter (fun x => x.fd != d.fd) ∧
    r.2.eventSize + 1 = ep.eventSize ∧
    (∀ x ∈ r.2.table, x.fd ≠ d.fd) ∧
    r.2.eventCapacity = ep.eventCapacity := by
  obtain ⟨ha, hb, hc, hd, he⟩ := PollRemoveEvent_present_spec ep.toPoll d h hpres
  have ht := SelectRemoveEvent_toPoll ep d r hr
  have h1 : r.1 = (PollRemoveEvent ep.toPoll d).1 := congrArg Prod.fst ht
  have h2 : r.2.toPoll = (PollRemoveEvent ep.toPoll d).2 := congrArg Prod.snd ht
  rw [← h1] at ha
  rw [← h2] at hb hc hd he
  exact ⟨ha, hb, hc, hd, he⟩


/-! ## The recomputed maximum of the select backend -/

theorem scanMaxFd_eq_foldl (l : List EasyEvent) (n i : Nat) (m : Int)
    (h : i + n ≤ l.length) :
    scanMaxFd l n i m =
      ((l.drop i).take n).foldl (fun acc x => if x.fd > acc then x.fd else acc) m := by
  induction n generalizing i m with
  | zero => simp [scanMaxFd]
  | succ n ih =>
    have hlt : i < l.length := by omega
    rw [List.drop_eq_getElem_cons hlt, List.take_succ_cons, List.foldl_cons]
    simp only [scanMaxFd, List.getD_eq_getElem l default hlt]
    exact ih (i + 1) _ (by omega)

theorem foldl_max_spec (t : List EasyEvent) (m : Int) :
    m ≤ t.foldl (fun acc x => if x.fd > acc then x.fd else acc) m ∧
    (∀ x ∈ t, x.fd ≤ t.foldl (fun acc x => if x.fd > acc then x.fd else acc) m) ∧
    (t.foldl (fun acc x => if x.fd > acc then x.fd else acc) m = m ∨
      ∃ x ∈ t, x.fd = t.foldl (fun acc x => if x.fd > acc then x.fd else acc) m) := by
  induction t generalizing m with
  | nil => simp
  | cons a t ih =>
    rw [List.foldl_cons]
    obtain ⟨h1, h2, h3⟩ := ih (if a.fd > m then a.fd else m)
    have hm : m ≤ (if a.fd > m then a.fd else m) := by
      split_ifs <;> omega
    have ha : a.fd ≤ (if a.fd > m then a.fd else m) := by
      split_ifs <;> omega
    refine ⟨le_trans hm h1, ?_, ?_⟩
    · intro x hx
      rcases List.mem_cons.1 hx with hxa | hxt
      · rw [hxa]
        exact le_trans ha h1
      · exact h2 x hxt
    · rcases h3 with h3 | ⟨x, hx, hxe⟩
      · by_cases ham : a.fd > m
        · right
          refine ⟨a, List.mem_cons_self _ _, ?_⟩
          rw [h3, if_pos ham]
        · left
          rw [h3, if_neg ham]
      · exact Or.inr ⟨x, List.mem_cons_of_mem _ hx, hxe⟩

theorem SelectRemoveEvent_present_maxFd (ep : EasySelect) (d : EasyEvent)
    (r : Int × EasySelect) (h : TableInv ep.toPoll) (hpres : ∃ x ∈ ep.table, x.fd = d.fd)
    (hr : SelectRemoveEvent ep d = some r) :
    r.2.maxFd = r.2.table.foldl (fun acc x => if x.fd > acc then x.fd else acc) (-1) := by
  have hwf : ep.toPoll.eventSize ≤ ep.toPoll.eventList.length := by
    rw [h.1.1]; exact h.1.2
  have hj : scanFd ep.eventList d.fd ep.eventSize 0 < ep.eventSize := by
    have := findIdx_lt_of_present ep.toPoll d.fd hwf hpres
    rwa [← scanFd_table ep.toPoll d.fd hwf] at this
  have hlen := length_memmove ep.eventList _ _ hj hwf
  obtain ⟨i, hi⟩ := SelectRemoveEvent_present_in ep d r h hpres hr
  rw [SelectRemoveEvent_in ep d i hi, if_pos hj] at hr
  cases hr
  simp only [EasySelect.table]
  rw [scanMaxFd_eq_foldl _ _ _ _ (by
    rw [hlen]; have := hwf; simp only [EasySelect.toPoll] at this; omega)]
  simp


/-! ## The collecting loops of EpollWaitEvent and PollWaitEvent -/

theorem take_set_proj (buf : List EasyEvent) (k : Nat) (fd r : Int) (hk : k < buf.length) :
    ((buf.set k { buf.getD k default with fd := fd, retEvent := r }).take (k + 1)).map
        (fun e => (e.fd, e.retEvent))
      = (buf.take k).map (fun e => (e.fd, e.retEvent)) ++ [(fd, r)] := by
  rw [take_set_append _ _ _ hk]
  simp

theorem epollCollect_spec (evs : List epoll_event) (n : Nat) :
    ∀ (i : Nat) (buf : List EasyEvent), i + n ≤ buf.length → i + n ≤ evs.length →
      (epollCollect evs n i buf).length = buf.length ∧
      ((epollCollect evs n i buf).take (i + n)).map (fun e => (e.fd, e.retEvent))
        = (buf.take i).map (fun e => (e.fd, e.retEvent))
            ++ ((evs.drop i).take n).map (fun x => (x.data_fd, epollRevent x.events)) := by
  induction n with
  | zero =>
    intro i buf _ _
    simp [epollCollect]
  | succ n ih =>
    intro i buf hb he
    have hlt : i < evs.length := by omega
    obtain ⟨h1, h2⟩ := ih (i + 1)
      (buf.set i { buf.getD i default with
        fd := evs[i].data_fd, retEvent := epollRevent evs[i].events })
      (by simpa using (by omega : i + 1 + n ≤ buf.length)) (by omega)
    simp only [epollCollect, List.getD_eq_getElem evs default hlt]
    refine ⟨by simpa using h1, ?_⟩
    have hidx : i + (n + 1) = i + 1 + n := by omega
    rw [hidx, h2, take_set_proj buf i _ _ (by omega), List.drop_eq_getElem_cons hlt,
      List.take_succ_cons]
    simp

theorem pollCollect_spec (evs : List pollfd) (n : Nat) :
    ∀ (i : Nat) (buf : List EasyEvent) (k : Nat), k + n ≤ buf.length → i + n ≤ evs.length →
      (pollCollect evs n i buf k).2
          = k + (((evs.drop i).take n).filter (fun p => decide (p.revents > 0))).length ∧
      (pollCollect evs n i buf k).1.length = buf.length ∧
      ((pollCollect evs n i buf k).1.take (pollCollect evs n i buf k).2).map
          (fun e => (e.fd, e.retEvent))
        = (buf.take k).map (fun e => (e.fd, e.retEvent))
            ++ (((evs.drop i).take n).filter (fun p => decide (p.revents > 0))).map
                (fun p => (p.fd, pollRevent p.revents)) := by
  induction n with
  | zero =>
    intro i buf k _ _
    simp [pollCollect]
  | succ n ih =>
    intro i buf k hb he
    have hlt : i < evs.length := by omega
    rw [List.drop_eq_getElem_cons hlt, List.take_succ_cons, List.filter_cons]
    simp only [pollCollect, List.getD_eq_getElem evs default hlt]
    by_cases hr : evs[i].revents > 0
    · rw [if_pos hr, if_pos (by simpa using hr)]
      obtain ⟨h1, h2, h3⟩ := ih (i + 1)
        (buf.set k { buf.getD k default with
          fd := evs[i].fd, retEvent := pollRevent evs[i].revents })
        (k + 1) (by simpa using (by omega : k + 1 + n ≤ buf.length)) (by omega)
      refine ⟨?_, by simpa using h2, ?_⟩
      · rw [h1]
        simp only [List.length_cons]
        omega
      · rw [h3, take_set_proj buf k _ _ (by omega)]
        simp
    · rw [if_neg hr, if_neg (by simpa using hr)]
      exact ih (i + 1) buf k (by omega) (by omega)


/-! ## Results -/

/-- Runs keep the invariant of the interest table: in the poll and epoll
backends every state reached from a freshly created backend with capacity hint
`h` (with arbitrary descriptors and, for epoll, arbitrary outcomes of
`epoll_ctl`) has distinct descriptors at distinct live indices, no negative
stored descriptor, and `eventSize ≤ eventCapacity = max 1 h`; in the select
backend so has every state reached by a run whose calls stay inside the fd
sets, and a run whose descriptors are all below `FD_SETSIZE` is such a run. -/
theorem runs_keep_table_invariant (h : Int) :
    (∀ (m c : Bool) (ep : EasyPoll) (ops : List TableOp),
        PollCreate m c h = some ep → CellInv h (PollRun ep ops)) ∧
    (∀ (m : Bool) (efd : Int) (c : Bool) (ep : EasyEpoll) (ops : List (EpollCtlOs × TableOp)),
        EpollCreate m efd c h = some ep → CellInv h (EpollRun ep ops).toPoll) ∧
    (∀ (c1 c2 : Bool) (ep s : EasySelect) (ops : List TableOp),
        SelectCreate c1 c2 h = some ep → SelectRun ep ops = some s → CellInv h s.toPoll) ∧
    (∀ (c1 c2 : Bool) (ep : EasySelect) (ops : List TableOp),
        SelectCreate c1 c2 h = some ep → (∀ op ∈ ops, op.event.fd < FD_SETSIZE) →
        ∃ s, SelectRun ep ops = some s) := by
  refine ⟨?_, ?_, ?_, ?_⟩
  · intro m c ep ops hc
    unfold PollCreate at hc
    split_ifs at hc
    cases hc
    have := TableInv_run ops _ (TableInv_create h)
    exact CellInv_of_TableInv h _ this.1 (by rw [this.2]; exact clampSize_eq h)
  · intro m efd c ep ops hc
    unfold EpollCreate at hc
    split_ifs at hc
    cases hc
    have := TableInv_epollRun ops
      { epollFd := efd, eventCapacity := clampSize h, eventSize := 0,
        eventList := callocEvents (clampSize h) } (TableInv_create h)
    exact CellInv_of_TableInv h _ this.1 (by
      show (((EpollRun _ ops).eventCapacity : Nat) : Int) = _
      rw [this.2]; exact clampSize_eq h)
  · intro c1 c2 ep s ops hc hrun
    unfold SelectCreate at hc
    split_ifs at hc
    cases hc
    rw [SelectRun_toPoll ops _ s hrun]
    show CellInv h (PollRun ⟨clampSize h, 0, callocEvents (clampSize h)⟩ ops)
    have := TableInv_run ops _ (TableInv_create h)
    exact CellInv_of_TableInv h _ this.1 (by
      rw [this.2]; exact clampSize_eq h)
  · intro c1 c2 ep ops _ hin
    exact SelectRun_defined ops ep hin

/-- C1 at a failing input: a select backend is created with capacity hint 2 and
AddEvent is called for descriptor 3072 with mask READ.  The call passes the
`fd < 0` check, stores the entry and executes `FD_SET(3072, &ep->readSet)`
(line 180); bit 3072 is not one of the `FD_SETSIZE = 1024` bits of `readSet`, so
the write lands in the fields of `EasySelect_t` that follow the set and the
call has no defined result, hence no state for which the invariant could hold.
The poll backend, given the same call, stores the entry and keeps capacity 2. -/
theorem C1_select_add_leaves_fd_set :
    (0 : Int) ≤ 3072 ∧ ¬ (3072 : Int) < FD_SETSIZE ∧
    FD_SET 3072 (∅ : fd_set) = none ∧
    (SelectCreate true true 2).map (fun ep => SelectAddEvent ep ⟨3072, EVENT_READ, 0⟩)
      = some none ∧
    (SelectCreate true true 2).map (fun ep => SelectRun ep [.AddEvent ⟨3072, EVENT_READ, 0⟩])
      = some none ∧
    (PollCreate true true 2).map (fun ep => PollRun ep [.AddEvent ⟨3072, EVENT_READ, 0⟩])
      = some ⟨2, 1, [⟨3072, EVENT_READ, 0⟩, ⟨0, 0, 0⟩]⟩ := by
  decide

/-- C2 at a failing input: descriptors 3 and 4 are watched, `poll` marks only
the second submitted entry (fd 4) ready and returns 1; `PollWaitEvent` then
inspects the first entry only and returns 0 with an empty batch, so the ready
descriptor 4 is lost. -/
theorem C2_poll_wait_loses_ready_descriptor :
    pollTwoReaders.table = [⟨3, EVENT_READ, 0⟩, ⟨4, EVENT_READ, 0⟩] ∧
    (PollWaitEvent pollSecondReady pollTwoReaders [⟨0, 0, 0⟩, ⟨0, 0, 0⟩] 2 0).osCalls
      = [⟨[⟨3, POLLIN, 0⟩, ⟨4, POLLIN, 0⟩], 2, 0⟩] ∧
    pollSecondReady [⟨3, POLLIN, 0⟩, ⟨4, POLLIN, 0⟩] 2 0
      = ([⟨3, POLLIN, 0⟩, ⟨4, POLLIN, POLLIN⟩], 1) ∧
    readyFds (pollSecondReady [⟨3, POLLIN, 0⟩, ⟨4, POLLIN, 0⟩] 2 0).1 2 = [4] ∧
    (PollWaitEvent pollSecondReady pollTwoReaders [⟨0, 0, 0⟩, ⟨0, 0, 0⟩] 2 0).ret = 0 ∧
    (PollWaitEvent pollSecondReady pollTwoReaders [⟨0, 0, 0⟩, ⟨0, 0, 0⟩] 2 0).batch = [] := by
  decide


/-- C3: the `retEvent` that the epoll backend and the poll backend produce is the
inbound translation of the raw word the OS returned for the descriptor.  When
`epoll_wait` returns `nums ≥ 0` entries, EpollWaitEvent returns `nums` and its
batch holds, entry by entry, the fd of each of the first `nums` returned entries
and `epollRevent` of its raw word.  When `poll` returns `nums ≥ 0`, the batch of
PollWaitEvent holds, in order, the fd and `pollRevent` of the raw word of each of
the first `nums` entries whose `revents` is positive, and the return value is
the length of that batch.  For every raw word `w` the translation has READ set
iff `w` contains IN, PRI, RDHUP or HUP, WRITE set iff `w` contains OUT, ERROR
set iff `w` contains ERR, and no bit outside READ|WRITE|ERROR; a word that is
just OUT gives exactly EVENT_WRITE, and a word that is just HUP gives READ set
and ERROR clear. -/
theorem C3_inbound_translation (w : Int) :
    (∀ (epoll_wait : EpollWaitOs) (ep : EasyEpoll) (buf : List EasyEvent)
        (maxevents timeout : Int) (c : EpollWaitCall),
        c ∈ (EpollWaitEvent epoll_wait ep buf maxevents timeout).osCalls →
        0 ≤ (epoll_wait c.epfd c.maxevents c.timeout).2 →
        (epoll_wait c.epfd c.maxevents c.timeout).2.toNat ≤ buf.length →
        (epoll_wait c.epfd c.maxevents c.timeout).2.toNat
          ≤ (epoll_wait c.epfd c.maxevents c.timeout).1.length →
        (EpollWaitEvent epoll_wait ep buf maxevents timeout).ret
          = (epoll_wait c.epfd c.maxevents c.timeout).2 ∧
        (EpollWaitEvent epoll_wait ep buf maxevents timeout).batch.map
            (fun e => (e.fd, e.retEvent))
          = ((epoll_wait c.epfd c.maxevents c.timeout).1.take
              (epoll_wait c.epfd c.maxevents c.timeout).2.toNat).map
              (fun x => (x.data_fd, epollRevent x.events))) ∧
    (∀ (poll : PollOs) (ep : EasyPoll) (buf : List EasyEvent) (maxevents timeout : Int)
        (c : PollCall), c ∈ (PollWaitEvent poll ep buf maxevents timeout).osCalls →
        0 ≤ (poll c.fds c.nfds c.timeout).2 →
        (poll c.fds c.nfds c.timeout).2.toNat ≤ buf.length →
        (poll c.fds c.nfds c.timeout).2.toNat ≤ (poll c.fds c.nfds c.timeout).1.length →
        (PollWaitEvent poll ep buf maxevents timeout).batch.map (fun e => (e.fd, e.retEvent))
          = (((poll c.fds c.nfds c.timeout).1.take
                (poll c.fds c.nfds c.timeout).2.toNat).filter
              (fun p => decide (p.revents > 0))).map
              (fun p => (p.fd, pollRevent p.revents)) ∧
        (PollWaitEvent poll ep buf maxevents timeout).ret
          = ((((poll c.fds c.nfds c.timeout).1.take
                (poll c.fds c.nfds c.timeout).2.toNat).filter
              (fun p => decide (p.revents > 0))).length : Nat)) ∧
    ((hasFlag (epollRevent w) EVENT_READ = true ↔
        (hasFlag w EPOLLIN = true ∨ hasFlag w EPOLLPRI = true ∨
          hasFlag w EPOLLRDHUP = true ∨ hasFlag w EPOLLHUP = true)) ∧
      (hasFlag (epollRevent w) EVENT_WRITE = true ↔ hasFlag w EPOLLOUT = true) ∧
      (hasFlag (epollRevent w) EVENT_ERROR = true ↔ hasFlag w EPOLLERR = true) ∧
      Int.land (epollRevent w) (Int.lor (Int.lor EVENT_READ EVENT_WRITE) EVENT_ERROR)
        = epollRevent w) ∧
    ((hasFlag (pollRevent w) EVENT_READ = true ↔
        (hasFlag w POLLIN = true ∨ hasFlag w POLLPRI = true ∨
          hasFlag w POLLRDHUP = true ∨ hasFlag w POLLHUP = true)) ∧
      (hasFlag (pollRevent w) EVENT_WRITE = true ↔ hasFlag w POLLOUT = true) ∧
      (hasFlag (pollRevent w) EVENT_ERROR = true ↔ hasFlag w POLLERR = true) ∧
      Int.land (pollRevent w) (Int.lor (Int.lor EVENT_READ EVENT_WRITE) EVENT_ERROR)
        = pollRevent w) ∧
    (epollRevent EPOLLOUT = EVENT_WRITE ∧ pollRevent POLLOUT = EVENT_WRITE) ∧
    (hasFlag (epollRevent EPOLLHUP) EVENT_READ = true ∧
      hasFlag (epollRevent EPOLLHUP) EVENT_ERROR = false ∧
      hasFlag (pollRevent POLLHUP) EVENT_READ = true ∧
      hasFlag (pollRevent POLLHUP) EVENT_ERROR = false) := by
  refine ⟨?_, ?_, ?_, ?_, by decide, by decide⟩
  · intro epoll_wait ep buf maxevents timeout c hc h0 hb he
    simp only [EpollWaitEvent] at hc ⊢
    by_cases h1 : maxevents < 1
    · rw [if_pos h1] at hc
      cases hc
    rw [if_neg h1] at hc ⊢
    by_cases h2 : ep.eventSize = 0
    · rw [if_pos h2] at hc
      cases hc
    rw [if_neg h2] at hc ⊢
    by_cases h3 : (epoll_wait ep.epollFd maxevents timeout).2 < 0
    · rw [if_pos h3] at hc
      simp only [List.mem_singleton] at hc
      subst hc
      exact absurd h0 (not_le.2 h3)
    rw [if_neg h3] at hc ⊢
    simp only [List.mem_singleton] at hc
    subst hc
    obtain ⟨_, s2⟩ := epollCollect_spec (epoll_wait ep.epollFd maxevents timeout).1
      (epoll_wait ep.epollFd maxevents timeout).2.toNat 0 buf (by simpa using hb)
      (by simpa using he)
    simp only [Nat.zero_add, List.take_zero, List.map_nil, List.nil_append,
      List.drop_zero] at s2
    exact ⟨rfl, s2⟩
  · intro poll ep buf maxevents timeout c hc h0 hb he
    simp only [PollWaitEvent] at hc ⊢
    by_cases h1 : maxevents < 1
    · rw [if_pos h1] at hc
      cases hc
    rw [if_neg h1] at hc ⊢
    generalize hsz : (if maxevents > (ep.eventSize : Int) then ep.eventSize
      else maxevents.toNat) = ev_size at hc ⊢
    by_cases h2 : ev_size = 0
    · rw [if_pos h2] at hc
      cases hc
    rw [if_neg h2] at hc ⊢
    generalize hfill : pollFill ep.eventList ev_size 0
      (List.replicate maxevents.toNat ⟨0, 0, 0⟩) = evs1 at hc ⊢
    by_cases h3 : (poll evs1 ev_size timeout).2 < 0
    · rw [if_pos h3] at hc
      simp only [List.mem_singleton] at hc
      subst hc
      exact absurd h0 (not_le.2 h3)
    rw [if_neg h3] at hc ⊢
    simp only [List.mem_singleton] at hc
    subst hc
    obtain ⟨s1, _, s3⟩ := pollCollect_spec (poll evs1 ev_size timeout).1
      (poll evs1 ev_size timeout).2.toNat 0 buf 0 (by simpa using hb) (by simpa using he)
    simp only [Nat.zero_add, List.take_zero, List.map_nil, List.nil_append,
      List.drop_zero] at s1 s3
    simp only [WaitResult.batch, Int.toNat_ofNat]
    exact ⟨s3, by rw [s1]⟩
  · simp only [epollRevent]
    generalize hasFlag w EPOLLIN = a
    generalize hasFlag w EPOLLPRI = b
    generalize hasFlag w EPOLLRDHUP = c
    generalize hasFlag w EPOLLHUP = d
    generalize hasFlag w EPOLLOUT = e
    generalize hasFlag w EPOLLERR = f
    revert a b c d e f
    decide
  · simp only [pollRevent]
    generalize hasFlag w POLLIN = a
    generalize hasFlag w POLLPRI = b
    generalize hasFlag w POLLRDHUP = c
    generalize hasFlag w POLLHUP = d
    generalize hasFlag w POLLOUT = e
    generalize hasFlag w POLLERR = f
    revert a b c d e f
    decide

/-- Witness of C3: `epoll_wait` reports descriptor 4 writable on the busy epoll
backend, and `poll` reports a hang-up on descriptor 3 of the busy poll backend. -/
theorem C3_inbound_translation_witness :
    ((EpollWaitEvent epollWaitOut epollBusy [⟨0, 0, 0⟩] 1 0).ret = 1 ∧
      (EpollWaitEvent epollWaitOut epollBusy [⟨0, 0, 0⟩] 1 0).batch.map
          (fun e => (e.fd, e.retEvent))
        = [(4, EVENT_WRITE)]) ∧
    ((PollWaitEvent pollFirstHup pollBusy [⟨0, 0, 0⟩] 1 0).batch.map
          (fun e => (e.fd, e.retEvent))
        = [(3, EVENT_READ)] ∧
      (PollWaitEvent pollFirstHup pollBusy [⟨0, 0, 0⟩] 1 0).ret = 1) :=
  ⟨(C3_inbound_translation 0).1 epollWaitOut epollBusy [⟨0, 0, 0⟩] 1 0 ⟨7, 1, 0⟩
      (by decide) (by decide) (by decide) (by decide),
   (C3_inbound_translation 0).2.1 pollFirstHup pollBusy [⟨0, 0, 0⟩] 1 0
      ⟨[⟨3, POLLIN, 0⟩], 1, 0⟩ (by decide) (by decide) (by decide) (by decide)⟩


/-- C4: in every backend, when `eventSize = eventCapacity`, UpdateEvent and
AddEvent with a descriptor whose fd is non-negative and absent from the table
return -1 and leave the whole state unchanged (in select also the three fd sets
and `maxFd`); in epoll no `epoll_ctl` call is issued. -/
theorem C4_full_table_rejects_new_fd :
    (∀ (ep : EasyPoll) (d : EasyEvent), WellFormed ep → ep.eventSize = ep.eventCapacity →
        0 ≤ d.fd → (∀ x ∈ ep.table, x.fd ≠ d.fd) →
        PollUpdateEvent ep d = (-1, ep) ∧ PollAddEvent ep d = (-1, ep)) ∧
    (∀ (ep : EasySelect) (d : EasyEvent), WellFormed ep.toPoll →
        ep.eventSize = ep.eventCapacity → 0 ≤ d.fd → (∀ x ∈ ep.table, x.fd ≠ d.fd) →
        SelectUpdateEvent ep d = some (-1, ep) ∧ SelectAddEvent ep d = some (-1, ep)) ∧
    (∀ (os : EpollCtlOs) (ep : EasyEpoll) (d : EasyEvent), WellFormed ep.toPoll →
        ep.eventSize = ep.eventCapacity → 0 ≤ d.fd → (∀ x ∈ ep.table, x.fd ≠ d.fd) →
        EpollUpdateEvent os ep d = (-1, ep, []) ∧ EpollAddEvent os ep d = (-1, ep, [])) := by
  refine ⟨?_, ?_, ?_⟩
  · intro ep d hwf hfull h0 habs
    have hlen : ep.eventSize ≤ ep.eventList.length := by
      rw [hwf.1]; exact hwf.2
    have := PollUpdateEvent_full ep d hlen h0 habs (by omega)
    exact ⟨this, this⟩
  · intro ep d hwf hfull h0 habs
    have hlen : ep.toPoll.eventSize ≤ ep.toPoll.eventList.length := by
      rw [hwf.1]; exact hwf.2
    have hs : scanFd ep.eventList d.fd ep.eventSize 0 = ep.eventSize :=
      (scanFd_eq_size_iff ep.toPoll d.fd hlen).2 habs
    have : SelectUpdateEvent ep d = some (-1, ep) := by
      simp [SelectUpdateEvent, not_lt.2 h0, hs, hfull.ge]
    exact ⟨this, this⟩
  · intro os ep d hwf hfull h0 habs
    have hlen : ep.toPoll.eventSize ≤ ep.toPoll.eventList.length := by
      rw [hwf.1]; exact hwf.2
    have hs : scanFd ep.eventList d.fd ep.eventSize 0 = ep.eventSize :=
      (scanFd_eq_size_iff ep.toPoll d.fd hlen).2 habs
    have : EpollUpdateEvent os ep d = (-1, ep, []) := by
      simp [EpollUpdateEvent, not_lt.2 h0, hs, hfull.ge]
    exact ⟨this, this⟩

/-- Witness of C4: a full table of capacity 1 holding fd 3, and a request for fd 4. -/
theorem C4_full_table_rejects_new_fd_witness :
    (PollUpdateEvent ⟨1, 1, [⟨3, 1, 0⟩]⟩ ⟨4, 1, 0⟩ = (-1, ⟨1, 1, [⟨3, 1, 0⟩]⟩) ∧
      PollAddEvent ⟨1, 1, [⟨3, 1, 0⟩]⟩ ⟨4, 1, 0⟩ = (-1, ⟨1, 1, [⟨3, 1, 0⟩]⟩)) ∧
    (SelectUpdateEvent ⟨3, {3}, ∅, ∅, 1, 1, [⟨3, 1, 0⟩]⟩ ⟨4, 1, 0⟩
        = some (-1, ⟨3, {3}, ∅, ∅, 1, 1, [⟨3, 1, 0⟩]⟩) ∧
      SelectAddEvent ⟨3, {3}, ∅, ∅, 1, 1, [⟨3, 1, 0⟩]⟩ ⟨4, 1, 0⟩
        = some (-1, ⟨3, {3}, ∅, ∅, 1, 1, [⟨3, 1, 0⟩]⟩)) ∧
    (EpollUpdateEvent (fun _ => 0) ⟨7, 1, 1, [⟨3, 1, 0⟩]⟩ ⟨4, 1, 0⟩
        = (-1, ⟨7, 1, 1, [⟨3, 1, 0⟩]⟩, []) ∧
      EpollAddEvent (fun _ => 0) ⟨7, 1, 1, [⟨3, 1, 0⟩]⟩ ⟨4, 1, 0⟩
        = (-1, ⟨7, 1, 1, [⟨3, 1, 0⟩]⟩, [])) :=
  ⟨C4_full_table_rejects_new_fd.1 ⟨1, 1, [⟨3, 1, 0⟩]⟩ ⟨4, 1, 0⟩
      ⟨rfl, Nat.le_refl _⟩ rfl (by decide) (by decide),
   C4_full_table_rejects_new_fd.2.1 ⟨3, {3}, ∅, ∅, 1, 1, [⟨3, 1, 0⟩]⟩ ⟨4, 1, 0⟩
      ⟨rfl, Nat.le_refl _⟩ rfl (by decide) (by decide),
   C4_full_table_rejects_new_fd.2.2 (fun _ => 0) ⟨7, 1, 1, [⟨3, 1, 0⟩]⟩ ⟨4, 1, 0⟩
      ⟨rfl, Nat.le_refl _⟩ rfl (by decide) (by decide)⟩


/-- Repeated updates: in every backend, for a state satisfying the table
invariant and a descriptor `d`, if UpdateEvent(d) returns 0 then the table holds
exactly one entry with that fd, namely `d`; a second UpdateEvent(d) returns 0 and
leaves the state as it was after the first (epoll: when the OS modify call
succeeds); and a following UpdateEvent(d2) with the same fd returns 0 and leaves
`d2` as the one entry for that fd.  In the select backend this is stated of the
calls that stay inside the fd sets, as all calls for a descriptor below
`FD_SETSIZE` do. -/
theorem update_twice :
    (∀ (ep : EasyPoll) (d d2 : EasyEvent), TableInv ep → 0 ≤ d.fd →
        (PollUpdateEvent ep d).1 = 0 → d2.fd = d.fd →
        (PollUpdateEvent ep d).2.table.filter (fun x => x.fd == d.fd) = [d] ∧
        PollUpdateEvent (PollUpdateEvent ep d).2 d = (0, (PollUpdateEvent ep d).2) ∧
        (PollUpdateEvent (PollUpdateEvent ep d).2 d2).1 = 0 ∧
        (PollUpdateEvent (PollUpdateEvent ep d).2 d2).2.table.filter
          (fun x => x.fd == d.fd) = [d2]) ∧
    (∀ (ep : EasySelect) (d d2 : EasyEvent) (r : Int × EasySelect), TableInv ep.toPoll →
        SelectUpdateEvent ep d = some r → r.1 = 0 → d2.fd = d.fd →
        r.2.table.filter (fun x => x.fd == d.fd) = [d] ∧
        SelectUpdateEvent r.2 d = some (0, r.2) ∧
        (∀ r2, SelectUpdateEvent r.2 d2 = some r2 →
          r2.1 = 0 ∧ r2.2.table.filter (fun x => x.fd == d.fd) = [d2]) ∧
        (d.fd < FD_SETSIZE → ∃ r2, SelectUpdateEvent r.2 d2 = some r2)) ∧
    (∀ (ep : EasySelect) (d : EasyEvent), d.fd < FD_SETSIZE →
        ∃ r, SelectUpdateEvent ep d = some r) ∧
    (∀ (os os2 : EpollCtlOs) (ep : EasyEpoll) (d d2 : EasyEvent), TableInv ep.toPoll →
        0 ≤ d.fd → (EpollUpdateEvent os ep d).1 = 0 → d2.fd = d.fd →
        (∀ c : EpollCtlCall, c.op = .EPOLL_CTL_MOD → 0 ≤ os2 c) →
        (EpollUpdateEvent os ep d).2.1.table.filter (fun x => x.fd == d.fd) = [d] ∧
        (EpollUpdateEvent os2 (EpollUpdateEvent os ep d).2.1 d).1 = 0 ∧
        (EpollUpdateEvent os2 (EpollUpdateEvent os ep d).2.1 d).2.1
          = (EpollUpdateEvent os ep d).2.1 ∧
        (EpollUpdateEvent os2 (EpollUpdateEvent os ep d).2.1 d2).1 = 0 ∧
        (EpollUpdateEvent os2 (EpollUpdateEvent os ep d).2.1 d2).2.1.table.filter
          (fun x => x.fd == d.fd) = [d2]) ∧
    (EpollCreate true 3 true 10).map (fun ep => (EpollRun ep
        [(fun _ => 0, .AddEvent ⟨0, EVENT_ERROR, 0⟩),
         (fun _ => 0, .UpdateEvent ⟨0, EVENT_READ, 0⟩)]).table)
      = some [⟨0, EVENT_READ, 0⟩] := by
  refine ⟨?_, ?_, fun ep d h1 => SelectUpdateEvent_defined ep d h1, ?_, by decide⟩
  · intro ep d d2 h _ hok hfd
    exact PollUpdateEvent_twice ep d d2 h hok hfd
  · intro ep d d2 r h hr hok hfd
    have ht := SelectUpdateEvent_toPoll ep d r hr
    have h1 : r.1 = (PollUpdateEvent ep.toPoll d).1 := congrArg Prod.fst ht
    have h2 : r.2.toPoll = (PollUpdateEvent ep.toPoll d).2 := congrArg Prod.snd ht
    have hokp : (PollUpdateEvent ep.toPoll d).1 = 0 := h1.symm.trans hok
    obtain ⟨ha, _, hc, hd⟩ := PollUpdateEvent_twice ep.toPoll d d2 h hokp hfd
    rw [← h2] at ha hc hd
    have hinv : TableInv r.2.toPoll := by
      rw [h2]; exact TableInv_update _ d h
    have hmem : d ∈ r.2.table := by
      have := PollUpdateEvent_ok_mem ep.toPoll d h.1 hokp
      rw [← h2] at this
      exact this
    refine ⟨ha, SelectUpdateEvent_idem _ d hinv hmem (SelectUpdateEvent_ok_marked ep d r hr hok),
      ?_, fun hlt => SelectUpdateEvent_defined r.2 d2 (by rw [hfd]; exact hlt)⟩
    intro r2 hr2
    have ht2 := SelectUpdateEvent_toPoll r.2 d2 r2 hr2
    have h3 : r2.1 = (PollUpdateEvent r.2.toPoll d2).1 := congrArg Prod.fst ht2
    have h4 : r2.2.toPoll = (PollUpdateEvent r.2.toPoll d2).2 := congrArg Prod.snd ht2
    rw [← h3] at hc
    rw [← h4] at hd
    exact ⟨hc, hd⟩
  · intro os os2 ep d d2 h _ hok hfd hmod
    obtain ⟨hokp, hst, _⟩ := EpollUpdateEvent_ok os ep d hok
    obtain ⟨ha, _, hc, hd⟩ := PollUpdateEvent_twice ep.toPoll d d2 h hokp hfd
    rw [← hst] at ha hc hd
    have hinv : TableInv (EpollUpdateEvent os ep d).2.1.toPoll := by
      rw [hst]; exact TableInv_update _ d h
    have hwf : (EpollUpdateEvent os ep d).2.1.toPoll.eventSize ≤
        (EpollUpdateEvent os ep d).2.1.toPoll.eventList.length := by
      rw [hinv.1.1]; exact hinv.1.2
    have hmem : d ∈ (EpollUpdateEvent os ep d).2.1.table := by
      have := PollUpdateEvent_ok_mem ep.toPoll d h.1 hokp
      rw [← hst] at this
      exact this
    have h0 : 0 ≤ d.fd := hinv.2.2 d hmem
    have hp1 := EpollUpdateEvent_present os2 _ d hwf h0 ⟨d, hmem, rfl⟩ (hmod _ rfl)
    have hp2 := EpollUpdateEvent_present os2 _ d2 hwf (by rw [hfd]; exact h0)
      ⟨d, hmem, hfd.symm⟩ (hmod _ rfl)
    have hset := set_findIdx_self _ d hinv hmem
    have hok2 : (EpollUpdateEvent os2 (EpollUpdateEvent os ep d).2.1 d2).1 = 0 := by
      rw [hp2]
    refine ⟨ha, by rw [hp1], ?_, hok2, ?_⟩
    · rw [hp1]
      show ({ (EpollUpdateEvent os ep d).2.1 with
              eventList := (EpollUpdateEvent os ep d).2.1.toPoll.eventList.set
                ((EpollUpdateEvent os ep d).2.1.toPoll.table.findIdx
                  (fun x => x.fd == d.fd)) d } : EasyEpoll) = _
      rw [hset]
      rfl
    · obtain ⟨_, hst2, _⟩ := EpollUpdateEvent_ok os2 _ d2 hok2
      show (EpollUpdateEvent os2 (EpollUpdateEvent os ep d).2.1 d2).2.1.toPoll.table.filter
        (fun x => x.fd == d.fd) = [d2]
      rw [hst2]
      exact hd

/-- C5 at a failing input: on the select backend as `SelectCreate(10)` leaves it,
UpdateEvent for descriptor 3136 with mask READ executes
`FD_SET(3136, &ep->readSet)`, a write outside `readSet`, and has no defined
result; and after UpdateEvent for descriptor 3136 with mask 0, which returns 0
and stores the entry, UpdateEvent for the same descriptor with mask READ has no
defined result either, so no stored mask READ is guaranteed.  The poll backend
returns 0 for the same two calls and ends with the one entry (3136, READ). -/
theorem C5_select_update_leaves_fd_set :
    ¬ (3136 : Int) < FD_SETSIZE ∧
    SelectUpdateEvent selectNew ⟨3136, EVENT_READ, 0⟩ = none ∧
    (SelectUpdateEvent selectNew ⟨3136, 0, 0⟩).map
        (fun r => (r.1, r.2.table, SelectUpdateEvent r.2 ⟨3136, EVENT_READ, 0⟩))
      = some (0, [⟨3136, 0, 0⟩], none) ∧
    (PollUpdateEvent ⟨10, 0, callocEvents 10⟩ ⟨3136, 0, 0⟩).1 = 0 ∧
    (PollUpdateEvent (PollUpdateEvent ⟨10, 0, callocEvents 10⟩ ⟨3136, 0, 0⟩).2
        ⟨3136, EVENT_READ, 0⟩).1 = 0 ∧
    (PollUpdateEvent (PollUpdateEvent ⟨10, 0, callocEvents 10⟩ ⟨3136, 0, 0⟩).2
        ⟨3136, EVENT_READ, 0⟩).2.table = [⟨3136, EVENT_READ, 0⟩] := by
  decide

/-- Removal of a present descriptor: in every backend, for a state satisfying
the table invariant (so no fd occurs twice) and a descriptor whose fd is in the
table, RemoveEvent (epoll: when the OS deregister call succeeds) returns 0, and
the new table is the old one with the entry of that fd taken out and every other
entry kept, in the same order: `eventSize` drops by exactly 1 and the fd is no
longer present.  In the select backend this is stated of the calls that stay
inside the fd sets, as every call for a descriptor below `FD_SETSIZE` does. -/
theorem remove_present :
    (∀ (ep : EasyPoll) (d : EasyEvent), TableInv ep → (∃ x ∈ ep.table, x.fd = d.fd) →
        (PollRemoveEvent ep d).1 = 0 ∧
        (PollRemoveEvent ep d).2.table = ep.table.filter (fun x => x.fd != d.fd) ∧
        (PollRemoveEvent ep d).2.eventSize + 1 = ep.eventSize ∧
        (∀ x ∈ (PollRemoveEvent ep d).2.table, x.fd ≠ d.fd)) ∧
    (∀ (ep : EasySelect) (d : EasyEvent) (r : Int × EasySelect), TableInv ep.toPoll →
        (∃ x ∈ ep.table, x.fd = d.fd) → SelectRemoveEvent ep d = some r →
        r.1 = 0 ∧
        r.2.table = ep.table.filter (fun x => x.fd != d.fd) ∧
        r.2.eventSize + 1 = ep.eventSize ∧
        (∀ x ∈ r.2.table, x.fd ≠ d.fd)) ∧
    (∀ (ep : EasySelect) (d : EasyEvent), d.fd < FD_SETSIZE →
        ∃ r, SelectRemoveEvent ep d = some r) ∧
    (∀ (os : EpollCtlOs) (ep : EasyEpoll) (d : EasyEvent), TableInv ep.toPoll →
        (∃ x ∈ ep.table, x.fd = d.fd) →
        0 ≤ os ⟨ep.epollFd, .EPOLL_CTL_DEL, d.fd, none⟩ →
        (EpollRemoveEvent os ep d).1 = 0 ∧
        (EpollRemoveEvent os ep d).2.1.table = ep.table.filter (fun x => x.fd != d.fd) ∧
        (EpollRemoveEvent os ep d).2.1.eventSize + 1 = ep.eventSize ∧
        (∀ x ∈ (EpollRemoveEvent os ep d).2.1.table, x.fd ≠ d.fd)) := by
  refine ⟨?_, ?_, fun ep d h1 => SelectRemoveEvent_defined ep d h1, ?_⟩
  · intro ep d h hpres
    obtain ⟨ha, hb, hc, hd, _⟩ := PollRemoveEvent_present_spec ep d h hpres
    exact ⟨ha, hb, hc, hd⟩
  · intro ep d r h hpres hr
    obtain ⟨ha, hb, hc, hd, _⟩ := SelectRemoveEvent_present_spec ep d r h hpres hr
    exact ⟨ha, hb, hc, hd⟩
  · intro os ep d h hpres hos
    obtain ⟨ha, hb, hc, hd, _⟩ := PollRemoveEvent_present_spec ep.toPoll d h hpres
    have ht := EpollRemoveEvent_ok_toPoll os ep d hos
    rw [← ht.1] at ha
    rw [← ht.2] at hb hc hd
    exact ⟨ha, hb, hc, hd⟩

/-- C6 at a failing input: on a select backend created with capacity 10,
descriptors 1 and 3105 are added with mask 0 (no `FD_SET` is executed, both
calls return 0) and the table holds the two entries, each fd once.
RemoveEvent for descriptor 3105 finds the entry and executes
`FD_CLR(3105, &ep->readSet)` (line 113), a write outside `readSet` that is made
before the `memmove` and the decrement of `eventSize`: the call has no defined
result.  The poll backend returns 0 for the same calls and is left with the
one entry of descriptor 1. -/
theorem C6_select_remove_leaves_fd_set :
    ¬ (3105 : Int) < FD_SETSIZE ∧
    (SelectRun selectNew [.AddEvent ⟨1, 0, 0⟩, .AddEvent ⟨3105, 0, 0⟩]).map
        (fun st => (st.table, st.eventSize, SelectRemoveEvent st ⟨3105, 0, 0⟩))
      = some ([⟨1, 0, 0⟩, ⟨3105, 0, 0⟩], 2, none) ∧
    FD_CLR 3105 (∅ : fd_set) = none ∧
    (PollRemoveEvent
        (PollRun ⟨10, 0, callocEvents 10⟩ [.AddEvent ⟨1, 0, 0⟩, .AddEvent ⟨3105, 0, 0⟩])
        ⟨3105, 0, 0⟩).1 = 0 ∧
    (PollRemoveEvent
        (PollRun ⟨10, 0, callocEvents 10⟩ [.AddEvent ⟨1, 0, 0⟩, .AddEvent ⟨3105, 0, 0⟩])
        ⟨3105, 0, 0⟩).2.table = [⟨1, 0, 0⟩] := by
  decide

/-- C7: in every backend, RemoveEvent with a descriptor whose fd is non-negative
and absent from the table returns 0 and leaves the whole state unchanged (in
select also the three fd sets and `maxFd`); in epoll no `epoll_ctl` call is
issued. -/
theorem C7_remove_absent :
    (∀ (ep : EasyPoll) (d : EasyEvent), WellFormed ep → 0 ≤ d.fd →
        (∀ x ∈ ep.table, x.fd ≠ d.fd) → PollRemoveEvent ep d = (0, ep)) ∧
    (∀ (ep : EasySelect) (d : EasyEvent), WellFormed ep.toPoll → 0 ≤ d.fd →
        (∀ x ∈ ep.table, x.fd ≠ d.fd) → SelectRemoveEvent ep d = some (0, ep)) ∧
    (∀ (os : EpollCtlOs) (ep : EasyEpoll) (d : EasyEvent), WellFormed ep.toPoll → 0 ≤ d.fd →
        (∀ x ∈ ep.table, x.fd ≠ d.fd) → EpollRemoveEvent os ep d = (0, ep, [])) := by
  refine ⟨?_, ?_, ?_⟩
  · intro ep d hwf h0 habs
    exact PollRemoveEvent_absent ep d (by rw [hwf.1]; exact hwf.2) h0 habs
  · intro ep d hwf h0 habs
    have hlen : ep.toPoll.eventSize ≤ ep.toPoll.eventList.length := by
      rw [hwf.1]; exact hwf.2
    have hs : scanFd ep.eventList d.fd ep.eventSize 0 = ep.eventSize :=
      (scanFd_eq_size_iff ep.toPoll d.fd hlen).2 habs
    simp [SelectRemoveEvent, not_lt.2 h0, hs]
  · intro os ep d hwf h0 habs
    have hlen : ep.toPoll.eventSize ≤ ep.toPoll.eventList.length := by
      rw [hwf.1]; exact hwf.2
    have hs : scanFd ep.eventList d.fd ep.eventSize 0 = ep.eventSize :=
      (scanFd_eq_size_iff ep.toPoll d.fd hlen).2 habs
    simp [EpollRemoveEvent, not_lt.2 h0, hs]

/-- Witness of C7: descriptor 9 removed from a table holding 3 and 4. -/
theorem C7_remove_absent_witness :
    PollRemoveEvent pollBusy ⟨9, 0, 0⟩ = (0, pollBusy) ∧
    SelectRemoveEvent selectBusy ⟨9, 0, 0⟩ = some (0, selectBusy) ∧
    EpollRemoveEvent (fun _ => -1) epollBusy ⟨9, 0, 0⟩ = (0, epollBusy, []) :=
  ⟨C7_remove_absent.1 pollBusy ⟨9, 0, 0⟩ ⟨rfl, Nat.le_refl _⟩ (by decide) (by decide),
   C7_remove_absent.2.1 selectBusy ⟨9, 0, 0⟩ ⟨rfl, Nat.le_refl _⟩ (by decide) (by decide),
   C7_remove_absent.2.2 (fun _ => -1) epollBusy ⟨9, 0, 0⟩ ⟨rfl, Nat.le_refl _⟩ (by decide)
     (by decide)⟩


/-- C8 at a failing input: on a select backend created with capacity 10,
descriptor 0 is added with mask READ and then updated to mask WRITE; both calls
return 0, the table holds the single entry (0, WRITE), and descriptor 0 is
still in `readSet`, so `readSet` is not what the table says. -/
theorem C8_select_update_keeps_stale_read_bit :
    (SelectCreate true true 10).bind (fun ep =>
      (SelectAddEvent ep ⟨0, EVENT_READ, 0⟩).bind (fun r1 =>
        (SelectUpdateEvent r1.2 ⟨0, EVENT_WRITE, 0⟩).bind (fun r2 =>
          (SelectRun ep
              [.AddEvent ⟨0, EVENT_READ, 0⟩, .UpdateEvent ⟨0, EVENT_WRITE, 0⟩]).bind (fun s =>
            (FD_ISSET 0 s.readSet).map (fun isset => (r1.1, r2.1, s.table, isset))))))
      = some (0, 0, [⟨0, EVENT_WRITE, 0⟩], true) := by
  decide


/-- The recomputed maximum: in the select backend, for a state satisfying the
table invariant and a descriptor whose fd is in the table, when RemoveEvent
stays inside the fd sets `maxFd` is afterwards the largest fd of the remaining
table (an upper bound that is attained), and is -1 when the table has become
empty; registering 5 and 9 and removing 9 leaves `maxFd = 5`. -/
theorem select_remove_recomputes_maxFd :
    (∀ (ep : EasySelect) (d : EasyEvent) (r : Int × EasySelect), TableInv ep.toPoll →
        (∃ x ∈ ep.table, x.fd = d.fd) → SelectRemoveEvent ep d = some r →
        (∀ x ∈ r.2.table, x.fd ≤ r.2.maxFd) ∧
        (r.2.table ≠ [] → ∃ x ∈ r.2.table, x.fd = r.2.maxFd) ∧
        (r.2.table = [] → r.2.maxFd = -1)) ∧
    (SelectCreate true true 10).bind (fun ep =>
        (SelectRun ep [.AddEvent ⟨5, EVENT_READ, 0⟩, .AddEvent ⟨9, EVENT_READ, 0⟩,
          .RemoveEvent ⟨9, EVENT_READ, 0⟩]).map (·.maxFd)) = some 5 := by
  refine ⟨?_, by decide⟩
  intro ep d r h hpres hr
  have hmax := SelectRemoveEvent_present_maxFd ep d r h hpres hr
  have hinv : TableInv r.2.toPoll := by
    have h2 : r.2.toPoll = (PollRemoveEvent ep.toPoll d).2 :=
      congrArg Prod.snd (SelectRemoveEvent_toPoll ep d r hr)
    rw [h2]
    exact TableInv_remove _ d h
  obtain ⟨h1, h2, h3⟩ := foldl_max_spec r.2.table (-1)
  rw [← hmax] at h1 h2 h3
  refine ⟨h2, ?_, ?_⟩
  · intro hne
    rcases h3 with h3 | h3
    · obtain ⟨x, hx⟩ := List.exists_mem_of_ne_nil _ hne
      have hx0 : 0 ≤ x.fd := hinv.2.2 x hx
      have := h2 x hx
      omega
    · exact h3
  · intro hnil
    rw [hmax, hnil]
    rfl

/-- C9 at a failing input: on a select backend created with capacity 10,
descriptor 5 is registered for READ and descriptor 3105 with mask 0; both calls
return 0, the table holds both and `maxFd = 3105`.  RemoveEvent for descriptor
3105 finds the entry and executes `FD_CLR(3105, &ep->readSet)` before it moves
the entries and rescans `maxFd`; the write is outside `readSet` (in
`EasySelect_t` it falls into `eventSize`), so the call has no defined result and
`maxFd = 5` is not guaranteed. -/
theorem C9_select_remove_maxFd_leaves_fd_set :
    ¬ (3105 : Int) < FD_SETSIZE ∧
    (SelectRun selectNew [.AddEvent ⟨5, EVENT_READ, 0⟩, .AddEvent ⟨3105, 0, 0⟩]).map
        (fun st => (st.table, st.maxFd, SelectRemoveEvent st ⟨3105, 0, 0⟩))
      = some ([⟨5, EVENT_READ, 0⟩, ⟨3105, 0, 0⟩], 3105, none) ∧
    SelectRun selectNew
        [.AddEvent ⟨5, EVENT_READ, 0⟩, .AddEvent ⟨3105, 0, 0⟩, .RemoveEvent ⟨3105, 0, 0⟩]
      = none := by
  decide

/-- C10 at a failing input: descriptor 7 is watched for READ by the poll
backend, `poll` reports `POLLNVAL` for it and returns 1; `PollWaitEvent`
returns 1 and the one entry of its batch has `retEvent = 0`. -/
theorem C10_poll_wait_reports_empty_mask :
    pollOneReader.table = [⟨7, EVENT_READ, 0⟩] ∧
    pollFirstInvalid [⟨7, POLLIN, 0⟩] 1 0 = ([⟨7, POLLIN, POLLNVAL⟩], 1) ∧
    (PollWaitEvent pollFirstInvalid pollOneReader [⟨0, 0, 0⟩] 1 0).osCalls
      = [⟨[⟨7, POLLIN, 0⟩], 1, 0⟩] ∧
    (PollWaitEvent pollFirstInvalid pollOneReader [⟨0, 0, 0⟩] 1 0).ret = 1 ∧
    (PollWaitEvent pollFirstInvalid pollOneReader [⟨0, 0, 0⟩] 1 0).batch = [⟨7, 0, 0⟩] := by
  decide


/-- C11: in every backend, WaitEvent with a non-null handle whose table is empty
(`eventSize = 0`), a non-null buffer and `maxevents ≥ 1` returns 0 for every
timeout, issues no OS call and leaves the buffer (and the state) as they were. -/
theorem C11_wait_on_empty_table :
    (∀ (poll : PollOs) (ep : EasyPoll) (buf : List EasyEvent) (maxevents timeout : Int),
        ep.eventSize = 0 → 1 ≤ maxevents →
        PollWaitEventPtr poll (some ep) (some buf) maxevents timeout
          = ⟨0, some ep, some buf, []⟩) ∧
    (∀ (epoll_wait : EpollWaitOs) (ep : EasyEpoll) (buf : List EasyEvent)
        (maxevents timeout : Int), ep.eventSize = 0 → 1 ≤ maxevents →
        EpollWaitEventPtr epoll_wait (some ep) (some buf) maxevents timeout
          = ⟨0, some ep, some buf, []⟩) ∧
    (∀ (select : SelectOs) (ep : EasySelect) (buf : List EasyEvent)
        (maxevents timeout : Int), ep.eventSize = 0 → 1 ≤ maxevents →
        SelectWaitEventPtr select (some ep) (some buf) maxevents timeout
          = ⟨some (0, some buf), some ep, []⟩) := by
  refine ⟨?_, ?_, ?_⟩
  · intro poll ep buf maxevents timeout h0 hm
    have h1 : ¬ maxevents < 1 := not_lt.2 hm
    have h2 : maxevents > ((0 : Nat) : Int) := by simp; omega
    simp [PollWaitEventPtr, PollWaitEvent, h0, h1, h2]
  · intro epoll_wait ep buf maxevents timeout h0 hm
    have h1 : ¬ maxevents < 1 := not_lt.2 hm
    simp [EpollWaitEventPtr, EpollWaitEvent, h0, h1]
  · intro select ep buf maxevents timeout h0 hm
    have h1 : ¬ maxevents < 1 := not_lt.2 hm
    simp [SelectWaitEventPtr, SelectWaitEvent, h0, h1]

/-- Witness of C11: the three empty backends of capacity 2, a buffer of one
cell, `maxevents = 1` and a timeout of 8000 ms. -/
theorem C11_wait_on_empty_table_witness :
    PollWaitEventPtr pollSecondReady (some pollFresh) (some [⟨0, 0, 0⟩]) 1 8000
      = ⟨0, some pollFresh, some [⟨0, 0, 0⟩], []⟩ ∧
    EpollWaitEventPtr (fun _ _ _ => ([], 0)) (some epollFresh) (some [⟨0, 0, 0⟩]) 1 8000
      = ⟨0, some epollFresh, some [⟨0, 0, 0⟩], []⟩ ∧
    SelectWaitEventPtr selectRejects (some selectFresh) (some [⟨0, 0, 0⟩]) 1 8000
      = ⟨some (0, some [⟨0, 0, 0⟩]), some selectFresh, []⟩ :=
  ⟨C11_wait_on_empty_table.1 pollSecondReady pollFresh [⟨0, 0, 0⟩] 1 8000 rfl (by decide),
   C11_wait_on_empty_table.2.1 (fun _ _ _ => ([], 0)) epollFresh [⟨0, 0, 0⟩] 1 8000 rfl
     (by decide),
   C11_wait_on_empty_table.2.2 selectRejects selectFresh [⟨0, 0, 0⟩] 1 8000 rfl (by decide)⟩

/-- C12 at a failing input: the select backend watches descriptor 0 and
`SelectWaitEvent` is called with `timeout = -1`; it hands `select` a pointer to
the `timeval` (0 s, -1000 µs) instead of a null pointer, and when `select`
rejects that value it returns -1 instead of blocking. -/
theorem C12_select_negative_timeout_is_not_infinite :
    SelectRun ⟨0, ∅, ∅, ∅, 10, 0, callocEvents 10⟩ [.AddEvent ⟨0, EVENT_READ, 0⟩]
      = some selectOneReader ∧
    selectOneReader.table = [⟨0, EVENT_READ, 0⟩] ∧
    (SelectWaitEvent selectRejects selectOneReader [⟨0, 0, 0⟩] 1 (-1)).osCalls
      = [⟨1, {0}, ∅, ∅, some ⟨0, -1000⟩⟩] ∧
    (SelectWaitEvent selectRejects selectOneReader [⟨0, 0, 0⟩] 1 (-1)).ret = some (-1) := by
  decide

/-- C13: in the epoll backend, for a descriptor with `fd ≥ 0`: when the table has
room, the fd is new and the OS register call fails, UpdateEvent and AddEvent
return -1; when the fd is in the table and the OS modify call fails, they return
-1; when the fd is in the table and the OS deregister call fails, RemoveEvent
returns -1; each time the state is the one before the call and the failed call
is the only OS call issued. -/
theorem C13_epoll_os_failure :
    (∀ (os : EpollCtlOs) (ep : EasyEpoll) (d : EasyEvent), WellFormed ep.toPoll → 0 ≤ d.fd →
        (∀ x ∈ ep.table, x.fd ≠ d.fd) → ep.eventSize < ep.eventCapacity →
        os ⟨ep.epollFd, .EPOLL_CTL_ADD, d.fd, some (epollEv d)⟩ < 0 →
        EpollUpdateEvent os ep d
          = (-1, ep, [⟨ep.epollFd, .EPOLL_CTL_ADD, d.fd, some (epollEv d)⟩]) ∧
        EpollAddEvent os ep d
          = (-1, ep, [⟨ep.epollFd, .EPOLL_CTL_ADD, d.fd, some (epollEv d)⟩])) ∧
    (∀ (os : EpollCtlOs) (ep : EasyEpoll) (d : EasyEvent), WellFormed ep.toPoll → 0 ≤ d.fd →
        (∃ x ∈ ep.table, x.fd = d.fd) →
        os ⟨ep.epollFd, .EPOLL_CTL_MOD, d.fd, some (epollEv d)⟩ < 0 →
        EpollUpdateEvent os ep d
          = (-1, ep, [⟨ep.epollFd, .EPOLL_CTL_MOD, d.fd, some (epollEv d)⟩]) ∧
        EpollAddEvent os ep d
          = (-1, ep, [⟨ep.epollFd, .EPOLL_CTL_MOD, d.fd, some (epollEv d)⟩])) ∧
    (∀ (os : EpollCtlOs) (ep : EasyEpoll) (d : EasyEvent), WellFormed ep.toPoll → 0 ≤ d.fd →
        (∃ x ∈ ep.table, x.fd = d.fd) →
        os ⟨ep.epollFd, .EPOLL_CTL_DEL, d.fd, none⟩ < 0 →
        EpollRemoveEvent os ep d
          = (-1, ep, [⟨ep.epollFd, .EPOLL_CTL_DEL, d.fd, none⟩])) := by
  refine ⟨?_, ?_, ?_⟩
  · intro os ep d hwf h0 habs hroom hos
    have hlen : ep.toPoll.eventSize ≤ ep.toPoll.eventList.length := by
      rw [hwf.1]; exact hwf.2
    have hs : scanFd ep.eventList d.fd ep.eventSize 0 = ep.eventSize :=
      (scanFd_eq_size_iff ep.toPoll d.fd hlen).2 habs
    have : EpollUpdateEvent os ep d
        = (-1, ep, [⟨ep.epollFd, .EPOLL_CTL_ADD, d.fd, some (epollEv d)⟩]) := by
      simp [EpollUpdateEvent, not_lt.2 h0, hs, not_le.2 hroom, hos]
    exact ⟨this, this⟩
  · intro os ep d hwf h0 hpres hos
    have hlen : ep.toPoll.eventSize ≤ ep.toPoll.eventList.length := by
      rw [hwf.1]; exact hwf.2
    have hne : scanFd ep.eventList d.fd ep.eventSize 0 ≠ ep.eventSize := by
      intro hs
      obtain ⟨x, hx, hxe⟩ := hpres
      exact (scanFd_eq_size_iff ep.toPoll d.fd hlen).1 hs x hx hxe
    have : EpollUpdateEvent os ep d
        = (-1, ep, [⟨ep.epollFd, .EPOLL_CTL_MOD, d.fd, some (epollEv d)⟩]) := by
      simp [EpollUpdateEvent, not_lt.2 h0, hne, hos]
    exact ⟨this, this⟩
  · intro os ep d hwf h0 hpres hos
    have hlen : ep.toPoll.eventSize ≤ ep.toPoll.eventList.length := by
      rw [hwf.1]; exact hwf.2
    have hj : scanFd ep.eventList d.fd ep.eventSize 0 < ep.eventSize := by
      have := findIdx_lt_of_present ep.toPoll d.fd hlen hpres
      rwa [← scanFd_table ep.toPoll d.fd hlen] at this
    simp [EpollRemoveEvent, not_lt.2 h0, hj, hos]

/-- Witness of C13: the OS rejects every `epoll_ctl`; descriptor 3 is new for the
empty backend and registered in the busy one. -/
theorem C13_epoll_os_failure_witness :
    (EpollUpdateEvent (fun _ => -1) epollFresh ⟨3, 1, 0⟩
        = (-1, epollFresh, [⟨7, .EPOLL_CTL_ADD, 3, some (epollEv ⟨3, 1, 0⟩)⟩]) ∧
      EpollAddEvent (fun _ => -1) epollFresh ⟨3, 1, 0⟩
        = (-1, epollFresh, [⟨7, .EPOLL_CTL_ADD, 3, some (epollEv ⟨3, 1, 0⟩)⟩])) ∧
    (EpollUpdateEvent (fun _ => -1) epollBusy ⟨3, 2, 0⟩
        = (-1, epollBusy, [⟨7, .EPOLL_CTL_MOD, 3, some (epollEv ⟨3, 2, 0⟩)⟩]) ∧
      EpollAddEvent (fun _ => -1) epollBusy ⟨3, 2, 0⟩
        = (-1, epollBusy, [⟨7, .EPOLL_CTL_MOD, 3, some (epollEv ⟨3, 2, 0⟩)⟩])) ∧
    EpollRemoveEvent (fun _ => -1) epollBusy ⟨3, 2, 0⟩
      = (-1, epollBusy, [⟨7, .EPOLL_CTL_DEL, 3, none⟩]) :=
  ⟨C13_epoll_os_failure.1 (fun _ => -1) epollFresh ⟨3, 1, 0⟩ ⟨rfl, by decide⟩ (by decide)
     (by decide) (by decide) (by decide),
   C13_epoll_os_failure.2.1 (fun _ => -1) epollBusy ⟨3, 2, 0⟩ ⟨rfl, by decide⟩ (by decide)
     (by decide) (by decide),
   C13_epoll_os_failure.2.2 (fun _ => -1) epollBusy ⟨3, 2, 0⟩ ⟨rfl, by decide⟩ (by decide)
     (by decide) (by decide)⟩

/-- C14: in every backend and in the dispatcher, AddEvent, UpdateEvent and
RemoveEvent return -1 when the handle is null, the descriptor pointer is null or
the descriptor's fd is negative, and WaitEvent returns -1 when the handle is
null, the buffer is null or `maxevents < 1`; the object behind the handle (and
the buffer) is left as it was and no OS call is issued. -/
theorem C14_invalid_arguments :
    (∀ (handle : Option EasyPoll) (event : Option EasyEvent),
        (handle = none ∨ event = none ∨ ∃ e, event = some e ∧ e.fd < 0) →
        PollAddEventPtr handle event = (-1, handle) ∧
        PollUpdateEventPtr handle event = (-1, handle) ∧
        PollRemoveEventPtr handle event = (-1, handle)) ∧
    (∀ (handle : Option EasySelect) (event : Option EasyEvent),
        (handle = none ∨ event = none ∨ ∃ e, event = some e ∧ e.fd < 0) →
        SelectAddEventPtr handle event = some (-1, handle) ∧
        SelectUpdateEventPtr handle event = some (-1, handle) ∧
        SelectRemoveEventPtr handle event = some (-1, handle)) ∧
    (∀ (os : EpollCtlOs) (handle : Option EasyEpoll) (event : Option EasyEvent),
        (handle = none ∨ event = none ∨ ∃ e, event = some e ∧ e.fd < 0) →
        EpollAddEventPtr os handle event = ⟨-1, handle, []⟩ ∧
        EpollUpdateEventPtr os handle event = ⟨-1, handle, []⟩ ∧
        EpollRemoveEventPtr os handle event = ⟨-1, handle, []⟩) ∧
    (∀ (os : Os) (handle : Option Poller_t) (event : Option EasyEvent),
        (handle = none ∨ event = none ∨ ∃ e, event = some e ∧ e.fd < 0) →
        PollerAddEvent os handle event = some ⟨-1, handle, []⟩ ∧
        PollerUpdateEvent os handle event = some ⟨-1, handle, []⟩ ∧
        PollerRemoveEvent os handle event = some ⟨-1, handle, []⟩) ∧
    (∀ (poll : PollOs) (handle : Option EasyPoll) (events : Option (List EasyEvent))
        (maxevents timeout : Int), (handle = none ∨ events = none ∨ maxevents < 1) →
        PollWaitEventPtr poll handle events maxevents timeout = ⟨-1, handle, events, []⟩) ∧
    (∀ (select : SelectOs) (handle : Option EasySelect) (events : Option (List EasyEvent))
        (maxevents timeout : Int), (handle = none ∨ events = none ∨ maxevents < 1) →
        SelectWaitEventPtr select handle events maxevents timeout
          = ⟨some (-1, events), handle, []⟩) ∧
    (∀ (epoll_wait : EpollWaitOs) (handle : Option EasyEpoll)
        (events : Option (List EasyEvent)) (maxevents timeout : Int),
        (handle = none ∨ events = none ∨ maxevents < 1) →
        EpollWaitEventPtr epoll_wait handle events maxevents timeout
          = ⟨-1, handle, events, []⟩) ∧
    (∀ (os : Os) (handle : Option Poller_t) (events : Option (List EasyEvent))
        (maxevents timeout : Int), (handle = none ∨ events = none ∨ maxevents < 1) →
        PollerWaitEvent os handle events maxevents timeout
          = some ⟨-1, handle, events, []⟩) := by
  have hpoll : ∀ (handle : Option EasyPoll) (event : Option EasyEvent),
      (handle = none ∨ event = none ∨ ∃ e, event = some e ∧ e.fd < 0) →
      PollUpdateEventPtr handle event = (-1, handle) ∧
      PollRemoveEventPtr handle event = (-1, handle) := by
    intro handle event h
    cases handle with
    | none => exact ⟨rfl, rfl⟩
    | some ep =>
      cases event with
      | none => exact ⟨rfl, rfl⟩
      | some e =>
        rcases h with h | h | ⟨e2, he, hneg⟩
        · cases h
        · cases h
        · cases he
          simp [PollUpdateEventPtr, PollRemoveEventPtr, PollUpdateEvent_neg ep e hneg,
            PollRemoveEvent_neg ep e hneg]
  have hsel : ∀ (handle : Option EasySelect) (event : Option EasyEvent),
      (handle = none ∨ event = none ∨ ∃ e, event = some e ∧ e.fd < 0) →
      SelectUpdateEventPtr handle event = some (-1, handle) ∧
      SelectRemoveEventPtr handle event = some (-1, handle) := by
    intro handle event h
    cases handle with
    | none => exact ⟨rfl, rfl⟩
    | some ep =>
      cases event with
      | none => exact ⟨rfl, rfl⟩
      | some e =>
        rcases h with h | h | ⟨e2, he, hneg⟩
        · cases h
        · cases h
        · cases he
          simp [SelectUpdateEventPtr, SelectRemoveEventPtr, SelectUpdateEvent,
            SelectRemoveEvent, hneg]
  have hep : ∀ (os : EpollCtlOs) (handle : Option EasyEpoll) (event : Option EasyEvent),
      (handle = none ∨ event = none ∨ ∃ e, event = some e ∧ e.fd < 0) →
      EpollUpdateEventPtr os handle event = ⟨-1, handle, []⟩ ∧
      EpollRemoveEventPtr os handle event = ⟨-1, handle, []⟩ := by
    intro os handle event h
    cases handle with
    | none => exact ⟨rfl, rfl⟩
    | some ep =>
      cases event with
      | none => exact ⟨rfl, rfl⟩
      | some e =>
        rcases h with h | h | ⟨e2, he, hneg⟩
        · cases h
        · cases h
        · cases he
          simp [EpollUpdateEventPtr, EpollRemoveEventPtr, EpollUpdateEvent,
            EpollRemoveEvent, hneg]
  have hpw : ∀ (poll : PollOs) (handle : Option EasyPoll) (events : Option (List EasyEvent))
      (maxevents timeout : Int), (handle = none ∨ events = none ∨ maxevents < 1) →
      PollWaitEventPtr poll handle events maxevents timeout = ⟨-1, handle, events, []⟩ := by
    intro poll handle events maxevents timeout h
    cases handle with
    | none => rfl
    | some ep =>
      cases events with
      | none => rfl
      | some buf =>
        rcases h with h | h | h
        · cases h
        · cases h
        · simp [PollWaitEventPtr, PollWaitEvent, h]
  have hsw : ∀ (select : SelectOs) (handle : Option EasySelect)
      (events : Option (List EasyEvent)) (maxevents timeout : Int),
      (handle = none ∨ events = none ∨ maxevents < 1) →
      SelectWaitEventPtr select handle events maxevents timeout
        = ⟨some (-1, events), handle, []⟩ := by
    intro select handle events maxevents timeout h
    cases handle with
    | none => rfl
    | some ep =>
      cases events with
      | none => rfl
      | some buf =>
        rcases h with h | h | h
        · cases h
        · cases h
        · simp [SelectWaitEventPtr, SelectWaitEvent, h]
  have hew : ∀ (epoll_wait : EpollWaitOs) (handle : Option EasyEpoll)
      (events : Option (List EasyEvent)) (maxevents timeout : Int),
      (handle = none ∨ events = none ∨ maxevents < 1) →
      EpollWaitEventPtr epoll_wait handle events maxevents timeout
        = ⟨-1, handle, events, []⟩ := by
    intro epoll_wait handle events maxevents timeout h
    cases handle with
    | none => rfl
    | some ep =>
      cases events with
      | none => rfl
      | some buf =>
        rcases h with h | h | h
        · cases h
        · cases h
        · simp [EpollWaitEventPtr, EpollWaitEvent, h]
  refine ⟨?_, ?_, ?_, ?_, hpw, hsw, hew, ?_⟩
  · intro handle event h
    exact ⟨(hpoll handle event h).1, hpoll handle event h⟩
  · intro handle event h
    exact ⟨(hsel handle event h).1, hsel handle event h⟩
  · intro os handle event h
    exact ⟨(hep os handle event h).1, hep os handle event h⟩
  · intro os handle event h
    cases handle with
    | none => exact ⟨rfl, rfl, rfl⟩
    | some p =>
      have h2 : ∀ (S : Type) (x : Option S),
          (x = none ∨ event = none ∨ ∃ e, event = some e ∧ e.fd < 0) := by
        intro S x
        rcases h with h | h | h
        · cases h
        · exact Or.inr (Or.inl h)
        · exact Or.inr (Or.inr h)
      obtain ⟨type, poller⟩ := p
      cases type with
      | PT_EPOLLER =>
        have := hep os.epoll_ctl poller event (h2 _ poller)
        simp [PollerAddEvent, PollerUpdateEvent, PollerRemoveEvent, EpollAddEventPtr,
          this.1, this.2]
      | PT_POLLER =>
        have := hpoll poller event (h2 _ poller)
        simp [PollerAddEvent, PollerUpdateEvent, PollerRemoveEvent, PollAddEventPtr,
          this.1, this.2]
      | PT_SELECTOR =>
        have := hsel poller event (h2 _ poller)
        simp [PollerAddEvent, PollerUpdateEvent, PollerRemoveEvent, SelectAddEventPtr,
          this.1, this.2]
  · intro os handle events maxevents timeout h
    cases handle with
    | none => rfl
    | some p =>
      have h2 : ∀ (S : Type) (x : Option S),
          (x = none ∨ events = none ∨ maxevents < 1) := by
        intro S x
        rcases h with h | h | h
        · cases h
        · exact Or.inr (Or.inl h)
        · exact Or.inr (Or.inr h)
      obtain ⟨type, poller⟩ := p
      cases type with
      | PT_EPOLLER =>
        simp [PollerWaitEvent, hew os.epoll_wait poller events maxevents timeout (h2 _ poller)]
      | PT_POLLER =>
        simp [PollerWaitEvent, hpw os.poll poller events maxevents timeout (h2 _ poller)]
      | PT_SELECTOR =>
        simp [PollerWaitEvent, hsw os.select poller events maxevents timeout (h2 _ poller)]

/-- Witness of C14: a descriptor with fd -1 for the mutating calls and
`maxevents = 0` for the waits, on non-null handles. -/
theorem C14_invalid_arguments_witness :
    (PollAddEventPtr (some pollBusy) (some ⟨-1, 1, 0⟩) = (-1, some pollBusy) ∧
      PollUpdateEventPtr (some pollBusy) (some ⟨-1, 1, 0⟩) = (-1, some pollBusy) ∧
      PollRemoveEventPtr (some pollBusy) (some ⟨-1, 1, 0⟩) = (-1, some pollBusy)) ∧
    (SelectAddEventPtr (some selectBusy) (some ⟨-1, 1, 0⟩) = some (-1, some selectBusy) ∧
      SelectUpdateEventPtr (some selectBusy) (some ⟨-1, 1, 0⟩)
        = some (-1, some selectBusy) ∧
      SelectRemoveEventPtr (some selectBusy) (some ⟨-1, 1, 0⟩)
        = some (-1, some selectBusy)) ∧
    (EpollAddEventPtr (fun _ => 0) (some epollBusy) (some ⟨-1, 1, 0⟩)
        = ⟨-1, some epollBusy, []⟩ ∧
      EpollUpdateEventPtr (fun _ => 0) (some epollBusy) (some ⟨-1, 1, 0⟩)
        = ⟨-1, some epollBusy, []⟩ ∧
      EpollRemoveEventPtr (fun _ => 0) (some epollBusy) (some ⟨-1, 1, 0⟩)
        = ⟨-1, some epollBusy, []⟩) ∧
    (PollerAddEvent osQuiet (some ⟨.PT_EPOLLER, some epollBusy⟩) (some ⟨-1, 1, 0⟩)
        = some ⟨-1, some ⟨.PT_EPOLLER, some epollBusy⟩, []⟩ ∧
      PollerUpdateEvent osQuiet (some ⟨.PT_EPOLLER, some epollBusy⟩) (some ⟨-1, 1, 0⟩)
        = some ⟨-1, some ⟨.PT_EPOLLER, some epollBusy⟩, []⟩ ∧
      PollerRemoveEvent osQuiet (some ⟨.PT_EPOLLER, some epollBusy⟩) (some ⟨-1, 1, 0⟩)
        = some ⟨-1, some ⟨.PT_EPOLLER, some epollBusy⟩, []⟩) ∧
    PollWaitEventPtr pollFails (some pollBusy) (some []) 0 0
      = ⟨-1, some pollBusy, some [], []⟩ ∧
    SelectWaitEventPtr selectRejects (some selectBusy) (some []) 0 0
      = ⟨some (-1, some []), some selectBusy, []⟩ ∧
    EpollWaitEventPtr epollWaitFails (some epollBusy) (some []) 0 0
      = ⟨-1, some epollBusy, some [], []⟩ ∧
    PollerWaitEvent osQuiet (some ⟨.PT_SELECTOR, some selectBusy⟩) (some []) 0 0
      = some ⟨-1, some ⟨.PT_SELECTOR, some selectBusy⟩, some [], []⟩ :=
  ⟨C14_invalid_arguments.1 _ _ (Or.inr (Or.inr ⟨_, rfl, by decide⟩)),
   C14_invalid_arguments.2.1 _ _ (Or.inr (Or.inr ⟨_, rfl, by decide⟩)),
   C14_invalid_arguments.2.2.1 _ _ _ (Or.inr (Or.inr ⟨_, rfl, by decide⟩)),
   C14_invalid_arguments.2.2.2.1 _ _ _ (Or.inr (Or.inr ⟨_, rfl, by decide⟩)),
   C14_invalid_arguments.2.2.2.2.1 _ _ _ _ _ (Or.inr (Or.inr (by decide))),
   C14_invalid_arguments.2.2.2.2.2.1 _ _ _ _ _ (Or.inr (Or.inr (by decide))),
   C14_invalid_arguments.2.2.2.2.2.2.1 _ _ _ _ _ (Or.inr (Or.inr (by decide))),
   C14_invalid_arguments.2.2.2.2.2.2.2 _ _ _ _ _ (Or.inr (Or.inr (by decide)))⟩


/-! ## When SelectWaitEvent stays inside the sets -/

theorem selectRevents_defined (fd : Int) (R W E : fd_set) (h0 : 0 ≤ fd)
    (h1 : fd < FD_SETSIZE) : ∃ r, selectRevents fd R W E = some r := by
  obtain ⟨i, hi⟩ := fdIndex_eq_some fd h0 h1
  simp only [selectRevents, FD_ISSET, hi, Option.map_some', Option.some_bind]
  exact ⟨_, rfl⟩

theorem selectCollect_defined (l : List EasyEvent) (R W E : fd_set) (M : Int) (n : Nat) :
    ∀ (i : Nat) (buf : List EasyEvent) (k : Nat), i + n ≤ l.length →
      (∀ e ∈ (l.drop i).take n, 0 ≤ e.fd ∧ e.fd < FD_SETSIZE) →
      ∃ out, selectCollect l R W E M n i buf k = some out := by
  induction n with
  | zero =>
    intro i buf k _ _
    exact ⟨_, rfl⟩
  | succ n ih =>
    intro i buf k hi hin
    have hlt : i < l.length := by omega
    rw [List.drop_eq_getElem_cons hlt, List.take_succ_cons] at hin
    obtain ⟨r, hr⟩ := selectRevents_defined l[i].fd R W E
      (hin _ (List.mem_cons_self _ _)).1 (hin _ (List.mem_cons_self _ _)).2
    have htail : ∀ e ∈ (l.drop (i + 1)).take n, 0 ≤ e.fd ∧ e.fd < FD_SETSIZE :=
      fun e he => hin e (List.mem_cons_of_mem _ he)
    simp only [selectCollect, List.getD_eq_getElem l default hlt, hr]
    by_cases hr0 : r ≠ 0
    · rw [if_pos hr0]
      by_cases hfull : ((k + 1 : Nat) : Int) ≥ M
      · rw [if_pos hfull]
        exact ⟨_, rfl⟩
      · rw [if_neg hfull]
        exact ih (i + 1) _ (k + 1) (by omega) htail
    · rw [if_neg hr0]
      exact ih (i + 1) buf k (by omega) htail

/-- C15: in every backend, for every handle, buffer, `maxevents`, timeout and
every outcome of the OS wait primitive, WaitEvent leaves the object behind the
handle as it was (table, `eventSize`, `eventCapacity`, and in select the live
`readSet`, `writeSet`, `exceptionSet` and `maxFd`: the OS is given copies of the
sets); and when the OS wait call that was issued reports failure, WaitEvent
returns -1.  In select, moreover, the outcome of the call is determined on
every table whose descriptors and `maxFd` are below `FD_SETSIZE`. -/
theorem C15_wait_frame :
    (∀ (poll : PollOs) (handle : Option EasyPoll) (events : Option (List EasyEvent))
        (maxevents timeout : Int),
        (PollWaitEventPtr poll handle events maxevents timeout).state = handle ∧
        ∀ c ∈ (PollWaitEventPtr poll handle events maxevents timeout).osCalls,
          (poll c.fds c.nfds c.timeout).2 < 0 →
          (PollWaitEventPtr poll handle events maxevents timeout).ret = -1) ∧
    (∀ (epoll_wait : EpollWaitOs) (handle : Option EasyEpoll)
        (events : Option (List EasyEvent)) (maxevents timeout : Int),
        (EpollWaitEventPtr epoll_wait handle events maxevents timeout).state = handle ∧
        ∀ c ∈ (EpollWaitEventPtr epoll_wait handle events maxevents timeout).osCalls,
          (epoll_wait c.epfd c.maxevents c.timeout).2 < 0 →
          (EpollWaitEventPtr epoll_wait handle events maxevents timeout).ret = -1) ∧
    (∀ (select : SelectOs) (handle : Option EasySelect) (events : Option (List EasyEvent))
        (maxevents timeout : Int),
        (SelectWaitEventPtr select handle events maxevents timeout).state = handle ∧
        ∀ c ∈ (SelectWaitEventPtr select handle events maxevents timeout).osCalls,
          (select c).1 < 0 →
          (SelectWaitEventPtr select handle events maxevents timeout).ret = some (-1)) ∧
    (∀ (select : SelectOs) (ep : EasySelect) (buf : List EasyEvent) (maxevents timeout : Int),
        ep.eventSize ≤ ep.eventList.length → ep.maxFd < FD_SETSIZE →
        (∀ e ∈ ep.table, 0 ≤ e.fd ∧ e.fd < FD_SETSIZE) →
        ∃ o, (SelectWaitEventPtr select (some ep) (some buf) maxevents timeout).outcome
          = some o) := by
  refine ⟨?_, ?_, ?_, ?_⟩
  · intro poll handle events maxevents timeout
    cases handle with
    | none => exact ⟨rfl, fun c hc => by cases hc⟩
    | some ep =>
      cases events with
      | none => exact ⟨rfl, fun c hc => by cases hc⟩
      | some buf =>
        refine ⟨rfl, ?_⟩
        intro c hc hneg
        simp only [PollWaitEventPtr, PollWaitEvent] at hc ⊢
        split_ifs at hc ⊢ <;>
          first
          | rfl
          | (simp at hc; done)
          | (simp only [List.mem_singleton] at hc
             subst hc
             exact absurd hneg (by assumption))
  · intro epoll_wait handle events maxevents timeout
    cases handle with
    | none => exact ⟨rfl, fun c hc => by cases hc⟩
    | some ep =>
      cases events with
      | none => exact ⟨rfl, fun c hc => by cases hc⟩
      | some buf =>
        refine ⟨rfl, ?_⟩
        intro c hc hneg
        simp only [EpollWaitEventPtr, EpollWaitEvent] at hc ⊢
        split_ifs at hc ⊢ <;>
          first
          | rfl
          | (simp at hc; done)
          | (simp only [List.mem_singleton] at hc
             subst hc
             exact absurd hneg (by assumption))
  · intro select handle events maxevents timeout
    cases handle with
    | none => exact ⟨rfl, fun c hc => by cases hc⟩
    | some ep =>
      cases events with
      | none => exact ⟨rfl, fun c hc => by cases hc⟩
      | some buf =>
        refine ⟨rfl, ?_⟩
        intro c hc hneg
        simp only [SelectWaitEventPtr, SelectWaitEvent, SelectWaitOutcome.ret] at hc ⊢
        split_ifs at hc ⊢ <;>
          first
          | rfl
          | (simp at hc; done)
          | (simp only [List.mem_singleton] at hc
             subst hc
             exact absurd hneg (by assumption))
  · intro select ep buf maxevents timeout hwf hmax hin
    obtain ⟨o, ho⟩ := selectCollect_defined ep.eventList
      (select ⟨ep.maxFd + 1, ep.readSet, ep.writeSet, ep.exceptionSet,
        some (selectTimeval timeout)⟩).2.1
      (select ⟨ep.maxFd + 1, ep.readSet, ep.writeSet, ep.exceptionSet,
        some (selectTimeval timeout)⟩).2.2.1
      (select ⟨ep.maxFd + 1, ep.readSet, ep.writeSet, ep.exceptionSet,
        some (selectTimeval timeout)⟩).2.2.2
      maxevents ep.eventSize 0 buf 0 (by omega) (by simpa [EasySelect.table] using hin)
    have h4 : ¬ ep.maxFd + 1 > (FD_SETSIZE : Int) := by omega
    simp only [SelectWaitEventPtr, SelectWaitEvent]
    split_ifs
    · exact ⟨_, rfl⟩
    · exact ⟨_, rfl⟩
    · exact ⟨_, rfl⟩
    · rw [ho]
      exact ⟨_, rfl⟩

/-- Witness of C15: the OS wait call fails on each of the three busy backends,
and the busy select backend has a determined outcome. -/
theorem C15_wait_frame_witness :
    (PollWaitEventPtr pollFails (some pollBusy) (some [⟨0, 0, 0⟩]) 1 0).ret = -1 ∧
    (EpollWaitEventPtr epollWaitFails (some epollBusy) (some [⟨0, 0, 0⟩]) 1 0).ret = -1 ∧
    (SelectWaitEventPtr selectRejects (some selectBusy) (some [⟨0, 0, 0⟩]) 1 0).ret
      = some (-1) ∧
    (∃ o, (SelectWaitEventPtr selectAllReady (some selectBusy) (some [⟨0, 0, 0⟩]) 1 0).outcome
      = some o) :=
  ⟨(C15_wait_frame.1 pollFails (some pollBusy) (some [⟨0, 0, 0⟩]) 1 0).2
      ⟨[⟨3, POLLIN, 0⟩], 1, 0⟩ (by decide) (by decide),
   (C15_wait_frame.2.1 epollWaitFails (some epollBusy) (some [⟨0, 0, 0⟩]) 1 0).2
      ⟨7, 1, 0⟩ (by decide) (by decide),
   (C15_wait_frame.2.2.1 selectRejects (some selectBusy) (some [⟨0, 0, 0⟩]) 1 0).2
      ⟨5, {3}, {4}, ∅, some ⟨0, 0⟩⟩ (by decide) (by decide),
   C15_wait_frame.2.2.2 selectAllReady selectBusy [⟨0, 0, 0⟩] 1 0 (by decide) (by decide)
     (by decide)⟩

/-- C17: a dispatcher made by `PollerCreate` with tag S holds tag S and the
backend object made by the `Create` of backend S; for a dispatcher with tag S
each of PollerAddEvent, PollerUpdateEvent, PollerRemoveEvent and PollerWaitEvent
returns the return value of the operation of that name of backend S on the
backend handle and the same arguments, leaves that operation's backend state
(and buffer) behind the dispatcher, and issues that operation's OS calls (for
the select backend: has a result exactly when that operation has one, and then
this one); and PollerAddEvent equals PollerUpdateEvent on every handle and
descriptor. -/
theorem C17_dispatcher_forwards :
    (∀ (m a1 a2 : Bool) (efd h : Int) (p : Poller_t),
        (PollerCreate m a1 a2 efd .PT_EPOLLER h = some p →
          ∃ ep, EpollCreate a1 efd a2 h = some ep ∧ p = ⟨.PT_EPOLLER, some ep⟩) ∧
        (PollerCreate m a1 a2 efd .PT_POLLER h = some p →
          ∃ ep, PollCreate a1 a2 h = some ep ∧ p = ⟨.PT_POLLER, some ep⟩) ∧
        (PollerCreate m a1 a2 efd .PT_SELECTOR h = some p →
          ∃ ep, SelectCreate a1 a2 h = some ep ∧ p = ⟨.PT_SELECTOR, some ep⟩)) ∧
    (∀ (os : Os) (poller : Option EasyEpoll) (event : Option EasyEvent)
        (events : Option (List EasyEvent)) (maxevents timeout : Int),
        PollerAddEvent os (some ⟨.PT_EPOLLER, poller⟩) event
          = some ⟨(EpollAddEventPtr os.epoll_ctl poller event).ret,
             some ⟨.PT_EPOLLER, (EpollAddEventPtr os.epoll_ctl poller event).state⟩,
             (EpollAddEventPtr os.epoll_ctl poller event).osCalls.map .epoll_ctl⟩ ∧
        PollerUpdateEvent os (some ⟨.PT_EPOLLER, poller⟩) event
          = some ⟨(EpollUpdateEventPtr os.epoll_ctl poller event).ret,
             some ⟨.PT_EPOLLER, (EpollUpdateEventPtr os.epoll_ctl poller event).state⟩,
             (EpollUpdateEventPtr os.epoll_ctl poller event).osCalls.map .epoll_ctl⟩ ∧
        PollerRemoveEvent os (some ⟨.PT_EPOLLER, poller⟩) event
          = some ⟨(EpollRemoveEventPtr os.epoll_ctl poller event).ret,
             some ⟨.PT_EPOLLER, (EpollRemoveEventPtr os.epoll_ctl poller event).state⟩,
             (EpollRemoveEventPtr os.epoll_ctl poller event).osCalls.map .epoll_ctl⟩ ∧
        PollerWaitEvent os (some ⟨.PT_EPOLLER, poller⟩) events maxevents timeout
          = some ⟨(EpollWaitEventPtr os.epoll_wait poller events maxevents timeout).ret,
             some ⟨.PT_EPOLLER,
               (EpollWaitEventPtr os.epoll_wait poller events maxevents timeout).state⟩,
             (EpollWaitEventPtr os.epoll_wait poller events maxevents timeout).events,
             (EpollWaitEventPtr os.epoll_wait poller events maxevents timeout).osCalls.map
               .epoll_wait⟩) ∧
    (∀ (os : Os) (poller : Option EasyPoll) (event : Option EasyEvent)
        (events : Option (List EasyEvent)) (maxevents timeout : Int),
        PollerAddEvent os (some ⟨.PT_POLLER, poller⟩) event
          = some ⟨(PollAddEventPtr poller event).1,
             some ⟨.PT_POLLER, (PollAddEventPtr poller event).2⟩, []⟩ ∧
        PollerUpdateEvent os (some ⟨.PT_POLLER, poller⟩) event
          = some ⟨(PollUpdateEventPtr poller event).1,
             some ⟨.PT_POLLER, (PollUpdateEventPtr poller event).2⟩, []⟩ ∧
        PollerRemoveEvent os (some ⟨.PT_POLLER, poller⟩) event
          = some ⟨(PollRemoveEventPtr poller event).1,
             some ⟨.PT_POLLER, (PollRemoveEventPtr poller event).2⟩, []⟩ ∧
        PollerWaitEvent os (some ⟨.PT_POLLER, poller⟩) events maxevents timeout
          = some ⟨(PollWaitEventPtr os.poll poller events maxevents timeout).ret,
             some ⟨.PT_POLLER, (PollWaitEventPtr os.poll poller events maxevents timeout).state⟩,
             (PollWaitEventPtr os.poll poller events maxevents timeout).events,
             (PollWaitEventPtr os.poll poller events maxevents timeout).osCalls.map .poll⟩) ∧
    (∀ (os : Os) (poller : Option EasySelect) (event : Option EasyEvent)
        (events : Option (List EasyEvent)) (maxevents timeout : Int),
        PollerAddEvent os (some ⟨.PT_SELECTOR, poller⟩) event
          = (SelectAddEventPtr poller event).map
              (fun r => ⟨r.1, some ⟨.PT_SELECTOR, r.2⟩, []⟩) ∧
        PollerUpdateEvent os (some ⟨.PT_SELECTOR, poller⟩) event
          = (SelectUpdateEventPtr poller event).map
              (fun r => ⟨r.1, some ⟨.PT_SELECTOR, r.2⟩, []⟩) ∧
        PollerRemoveEvent os (some ⟨.PT_SELECTOR, poller⟩) event
          = (SelectRemoveEventPtr poller event).map
              (fun r => ⟨r.1, some ⟨.PT_SELECTOR, r.2⟩, []⟩) ∧
        PollerWaitEvent os (some ⟨.PT_SELECTOR, poller⟩) events maxevents timeout
          = (SelectWaitEventPtr os.select poller events maxevents timeout).outcome.map
              (fun o => ⟨o.1,
                some ⟨.PT_SELECTOR,
                  (SelectWaitEventPtr os.select poller events maxevents timeout).state⟩,
                o.2,
                (SelectWaitEventPtr os.select poller events maxevents timeout).osCalls.map
                  .select⟩)) ∧
    (∀ (os : Os) (handle : Option Poller_t) (event : Option EasyEvent),
        PollerAddEvent os handle event = PollerUpdateEvent os handle event) := by
  refine ⟨?_, fun _ _ _ _ _ _ => ⟨rfl, rfl, rfl, rfl⟩, fun _ _ _ _ _ _ => ⟨rfl, rfl, rfl, rfl⟩,
    fun _ _ _ _ _ _ => ⟨rfl, rfl, rfl, rfl⟩, ?_⟩
  · intro m a1 a2 efd h p
    refine ⟨?_, ?_, ?_⟩
    · intro hc
      unfold PollerCreate at hc
      cases hb : EpollCreate a1 efd a2 h with
      | none => simp [hb] at hc
      | some ep =>
        simp only [hb] at hc
        split_ifs at hc
        exact ⟨ep, rfl, (Option.some.inj hc).symm⟩
    · intro hc
      unfold PollerCreate at hc
      cases hb : PollCreate a1 a2 h with
      | none => simp [hb] at hc
      | some ep =>
        simp only [hb] at hc
        split_ifs at hc
        exact ⟨ep, rfl, (Option.some.inj hc).symm⟩
    · intro hc
      unfold PollerCreate at hc
      cases hb : SelectCreate a1 a2 h with
      | none => simp [hb] at hc
      | some ep =>
        simp only [hb] at hc
        split_ifs at hc
        exact ⟨ep, rfl, (Option.some.inj hc).symm⟩
  · intro os handle event
    cases handle with
    | none => rfl
    | some p =>
      obtain ⟨type, poller⟩ := p
      cases type <;> rfl

/-- Witness of C17: `PollerCreate` with each of the three tags and hint 2. -/
theorem C17_dispatcher_forwards_witness :
    (∃ ep, EpollCreate true 7 true 2 = some ep ∧
      (⟨.PT_EPOLLER, some epollFresh⟩ : Poller_t) = ⟨.PT_EPOLLER, some ep⟩) ∧
    (∃ ep, PollCreate true true 2 = some ep ∧
      (⟨.PT_POLLER, some pollFresh⟩ : Poller_t) = ⟨.PT_POLLER, some ep⟩) ∧
    (∃ ep, SelectCreate true true 2 = some ep ∧
      (⟨.PT_SELECTOR, some selectFresh⟩ : Poller_t) = ⟨.PT_SELECTOR, some ep⟩) :=
  ⟨(C17_dispatcher_forwards.1 true true true 7 2 ⟨.PT_EPOLLER, some epollFresh⟩).1 rfl,
   (C17_dispatcher_forwards.1 true true true 7 2 ⟨.PT_POLLER, some pollFresh⟩).2.1 rfl,
   (C17_dispatcher_forwards.1 true true true 7 2 ⟨.PT_SELECTOR, some selectFresh⟩).2.2 rfl⟩
/-! ## The three backends give the same status codes and tables -/

theorem SelectApply_toPoll (ep : EasySelect) (op : TableOp) (r : Int × EasySelect)
    (h : SelectApply ep op = some r) : (r.1, r.2.toPoll) = PollApply ep.toPoll op := by
  cases op with
  | AddEvent e => exact SelectUpdateEvent_toPoll ep e r h
  | UpdateEvent e => exact SelectUpdateEvent_toPoll ep e r h
  | RemoveEvent e => exact SelectRemoveEvent_toPoll ep e r h

theorem SelectTrace_toPoll (ops : List TableOp) (ep : EasySelect)
    (t : List (Int × EasySelect)) (h : SelectTrace ep ops = some t) :
    t.map (fun x => (x.1, x.2.toPoll)) = PollTrace ep.toPoll ops := by
  induction ops generalizing ep t with
  | nil =>
    cases h
    rfl
  | cons op ops ih =>
    obtain ⟨r, hr, hrest⟩ := Option.bind_eq_some.1 h
    obtain ⟨t2, ht2, rfl⟩ := Option.map_eq_some'.1 hrest
    have hap := SelectApply_toPoll ep op r hr
    have h2 : r.2.toPoll = (PollApply ep.toPoll op).2 := congrArg Prod.snd hap
    simp only [PollTrace, List.map_cons]
    rw [ih r.2 t2 ht2, hap, h2]

theorem SelectTrace_defined (ops : List TableOp) (ep : EasySelect)
    (h1 : ∀ op ∈ ops, op.event.fd < FD_SETSIZE) : ∃ t, SelectTrace ep ops = some t := by
  induction ops generalizing ep with
  | nil => exact ⟨[], rfl⟩
  | cons op ops ih =>
    have hop := h1 op (List.mem_cons_self _ _)
    have hap : ∃ r, SelectApply ep op = some r := by
      cases op with
      | AddEvent e => exact SelectUpdateEvent_defined ep e hop
      | UpdateEvent e => exact SelectUpdateEvent_defined ep e hop
      | RemoveEvent e => exact SelectRemoveEvent_defined ep e hop
    obtain ⟨r, hr⟩ := hap
    obtain ⟨t, ht⟩ := ih r.2 (fun o ho => h1 o (List.mem_cons_of_mem _ ho))
    exact ⟨r :: t, by simp [SelectTrace, hr, ht]⟩

theorem EpollUpdateEvent_ok_toPoll (os : EpollCtlOs) (ep : EasyEpoll) (d : EasyEvent)
    (hos : ∀ c ∈ (EpollUpdateEvent os ep d).2.2, 0 ≤ os c) :
    ((EpollUpdateEvent os ep d).1, (EpollUpdateEvent os ep d).2.1.toPoll)
      = PollUpdateEvent ep.toPoll d := by
  unfold EpollUpdateEvent at hos ⊢
  unfold PollUpdateEvent
  simp only [EasyEpoll.toPoll] at hos ⊢
  split_ifs at hos ⊢ <;>
    first
    | rfl
    | (have hc := hos _ (List.mem_singleton.2 rfl); omega)

theorem EpollRemoveEvent_calls_ok_toPoll (os : EpollCtlOs) (ep : EasyEpoll) (d : EasyEvent)
    (hos : ∀ c ∈ (EpollRemoveEvent os ep d).2.2, 0 ≤ os c) :
    ((EpollRemoveEvent os ep d).1, (EpollRemoveEvent os ep d).2.1.toPoll)
      = PollRemoveEvent ep.toPoll d := by
  unfold EpollRemoveEvent at hos ⊢
  unfold PollRemoveEvent
  simp only [EasyEpoll.toPoll] at hos ⊢
  split_ifs at hos ⊢ <;>
    first
    | rfl
    | (have hc := hos _ (List.mem_singleton.2 rfl); omega)

theorem EpollApply_ok_toPoll (ep : EasyEpoll) (x : EpollCtlOs × TableOp)
    (hos : ∀ c ∈ (EpollApply ep x).2.2, 0 ≤ x.1 c) :
    ((EpollApply ep x).1, (EpollApply ep x).2.1.toPoll) = PollApply ep.toPoll x.2 := by
  obtain ⟨os, op⟩ := x
  cases op with
  | AddEvent e => exact EpollUpdateEvent_ok_toPoll os ep e hos
  | UpdateEvent e => exact EpollUpdateEvent_ok_toPoll os ep e hos
  | RemoveEvent e => exact EpollRemoveEvent_calls_ok_toPoll os ep e hos

theorem EpollTrace_toPoll (ops : List (EpollCtlOs × TableOp)) (ep : EasyEpoll)
    (hok : EpollCallsSucceed ep ops) :
    (EpollTrace ep ops).map (fun x => (x.1, x.2.toPoll))
      = PollTrace ep.toPoll (ops.map (·.2)) := by
  induction ops generalizing ep with
  | nil => rfl
  | cons x xs ih =>
    obtain ⟨h1, h2⟩ := hok
    have h := EpollApply_ok_toPoll ep x h1
    simp only [EpollTrace, PollTrace, List.map_cons]
    rw [ih _ h2, h, ← h]

/-- The backends agree: for every capacity hint and every sequence of
AddEvent/UpdateEvent/RemoveEvent calls that stays inside the fd sets of the
select backend (as every sequence with descriptors below `FD_SETSIZE` does), the
select backend returns the status codes of the poll backend call by call and
holds the same interest table (same entries, same order, same `eventSize`) after
each call; so does the epoll backend on every run in which each `epoll_ctl` call
it issues succeeds. -/
theorem backends_agree (h : Int) :
    (∀ (m c c1 c2 : Bool) (p : EasyPoll) (s : EasySelect) (ops : List TableOp)
        (t : List (Int × EasySelect)),
        PollCreate m c h = some p → SelectCreate c1 c2 h = some s →
        SelectTrace s ops = some t →
        t.map (fun x => tableView (x.1, x.2.toPoll)) = (PollTrace p ops).map tableView) ∧
    (∀ (s : EasySelect) (ops : List TableOp), (∀ op ∈ ops, op.event.fd < FD_SETSIZE) →
        ∃ t, SelectTrace s ops = some t) ∧
    (∀ (m c m2 c2 : Bool) (efd : Int) (p : EasyPoll) (e : EasyEpoll)
        (ops : List (EpollCtlOs × TableOp)),
        PollCreate m c h = some p → EpollCreate m2 efd c2 h = some e →
        EpollCallsSucceed e ops →
        (EpollTrace e ops).map (fun x => tableView (x.1, x.2.toPoll))
          = (PollTrace p (ops.map (·.2))).map tableView) := by
  refine ⟨?_, fun s ops h1 => SelectTrace_defined ops s h1, ?_⟩
  · intro m c c1 c2 p s ops t hp hs ht
    unfold PollCreate at hp
    unfold SelectCreate at hs
    split_ifs at hp hs
    cases hp
    cases hs
    have := congrArg (List.map tableView) (SelectTrace_toPoll ops
      ⟨0, ∅, ∅, ∅, clampSize h, 0, callocEvents (clampSize h)⟩ t ht)
    rw [List.map_map] at this
    exact this
  · intro m c m2 c2 efd p e ops hp he hok
    unfold PollCreate at hp
    unfold EpollCreate at he
    split_ifs at hp he
    cases hp
    cases he
    have := congrArg (List.map tableView) (EpollTrace_toPoll ops _ hok)
    rw [List.map_map] at this
    exact this

/-- C16 at a failing input: with capacity hint 2, descriptors 3072, 1 and 2 are
added for READ.  The poll backend returns 0, 0 and -1 (the table is full at the
third call).  In the select backend the first call executes
`FD_SET(3072, &ep->readSet)`, a write outside `readSet` into the fields that
follow the sets (`eventCapacity` among them): the run has no defined result, so
neither the status codes nor the tables are those of the poll backend. -/
theorem C16_select_run_leaves_fd_set :
    (PollCreate true true 2).map (fun ep =>
        (PollTrace ep [.AddEvent ⟨3072, EVENT_READ, 0⟩, .AddEvent ⟨1, EVENT_READ, 0⟩,
          .AddEvent ⟨2, EVENT_READ, 0⟩]).map tableView)
      = some [(0, [⟨3072, EVENT_READ, 0⟩], 1),
              (0, [⟨3072, EVENT_READ, 0⟩, ⟨1, EVENT_READ, 0⟩], 2),
              (-1, [⟨3072, EVENT_READ, 0⟩, ⟨1, EVENT_READ, 0⟩], 2)] ∧
    (SelectCreate true true 2).map (fun ep =>
        SelectTrace ep [.AddEvent ⟨3072, EVENT_READ, 0⟩, .AddEvent ⟨1, EVENT_READ, 0⟩,
          .AddEvent ⟨2, EVENT_READ, 0⟩])
      = some none ∧
    (SelectCreate true true 2).map (fun ep => SelectApply ep (.AddEvent ⟨3072, EVENT_READ, 0⟩))
      = some none := by
  decide

/-! ## The array that PollWaitEvent submits -/

theorem pollFill_length (l : List EasyEvent) (n i : Nat) (evs : List pollfd) :
    (pollFill l n i evs).length = evs.length := by
  induction n generalizing i evs with
  | zero => rfl
  | succ n ih => simp [pollFill, ih]

theorem pollFill_getD (l : List EasyEvent) (n i : Nat) (evs : List pollfd) (k : Nat)
    (h : i + n ≤ evs.length) :
    (pollFill l n i evs).getD k default =
      if i ≤ k ∧ k < i + n then
        { evs.getD k default with
            fd := (l.getD k default).fd,
            events := pollEvents (evs.getD k default).events (l.getD k default).event }
      else evs.getD k default := by
  induction n generalizing i evs with
  | zero =>
    have : ¬ (i ≤ k ∧ k < i + 0) := by omega
    rw [if_neg this]
    rfl
  | succ n ih =>
    simp only [pollFill]
    rw [ih (i + 1) _ (by simp; omega)]
    by_cases hk : k = i
    · subst hk
      have h1 : ¬ (k + 1 ≤ k ∧ k < k + 1 + n) := by omega
      have h2 : k ≤ k ∧ k < k + (n + 1) := by omega
      have h3 : k < evs.length := by omega
      rw [if_neg h1, if_pos h2]
      simp [List.getD_eq_getElem?_getD, List.getElem?_set, h3]
    · have hne : i ≠ k := fun h => hk h.symm
      have hset : (evs.set i
          { evs.getD i default with
              fd := (l.getD i default).fd,
              events := pollEvents (evs.getD i default).events (l.getD i default).event }).getD
            k default = evs.getD k default := by
        simp [List.getD_eq_getElem?_getD, List.getElem?_set, hne]
      rw [hset]
      by_cases hr : i + 1 ≤ k ∧ k < i + 1 + n
      · have hr2 : i ≤ k ∧ k < i + (n + 1) := by omega
        rw [if_pos hr, if_pos hr2]
      · have hr2 : ¬ (i ≤ k ∧ k < i + (n + 1)) := by omega
        rw [if_neg hr, if_neg hr2]

theorem pollFill_submitted (ep : EasyPoll) (m : Nat) (hwf : ep.eventSize ≤ ep.eventList.length) :
    ((pollFill ep.eventList (min m ep.eventSize) 0
        (List.replicate m ⟨0, 0, 0⟩)).take (min m ep.eventSize))
      = (ep.table.take m).map (fun e => ⟨e.fd, pollEvents 0 e.event, 0⟩) := by
  apply List.ext_getElem
  · simp [pollFill_length, table_length ep hwf]
  · intro k h1 h2
    have hk : k < min m ep.eventSize := by
      simp [pollFill_length] at h1
      omega
    have hkl : k < ep.eventList.length := by omega
    have hg := pollFill_getD ep.eventList (min m ep.eventSize) 0 (List.replicate m ⟨0, 0, 0⟩) k
      (by simp)
    rw [if_pos (by omega)] at hg
    rw [List.getElem_take, ← List.getD_eq_getElem _ default, hg]
    have hrep : (List.replicate m (⟨0, 0, 0⟩ : pollfd)).getD k default = ⟨0, 0, 0⟩ := by
      rw [List.getD_eq_getElem _ _ (by simp; omega)]
      simp
    rw [hrep, List.getD_eq_getElem _ _ hkl]
    simp [EasyPoll.table]

theorem pollEvents_flags (mask : Int) :
    (hasFlag (pollEvents 0 mask) POLLIN = true ↔ hasFlag mask EVENT_READ = true) ∧
    (hasFlag (pollEvents 0 mask) POLLOUT = true ↔ hasFlag mask EVENT_WRITE = true) ∧
    (hasFlag (pollEvents 0 mask) POLLERR = true ↔ hasFlag mask EVENT_ERROR = true) ∧
    Int.land (pollEvents 0 mask) (Int.lor (Int.lor POLLIN POLLOUT) POLLERR)
      = pollEvents 0 mask := by
  simp only [pollEvents]
  generalize hasFlag mask EVENT_READ = a
  generalize hasFlag mask EVENT_WRITE = b
  generalize hasFlag mask EVENT_ERROR = c
  revert a b c
  decide

/-- C19: in the poll backend, for `maxevents ≥ 1`, every `poll` call issued by
PollWaitEvent submits `nfds = min(maxevents, eventSize)` entries, and the
submitted entries are, index by index, those of the first `maxevents` table
entries: the fd of the entry, `revents = 0`, and an `events` word in which IN is
set iff the mask contains READ, OUT iff WRITE, ERR iff ERROR, and nothing else;
table entries from index `maxevents` on are not submitted.  One call is issued
when the table is non-empty. -/
theorem C19_poll_submitted_array :
    (∀ (poll : PollOs) (ep : EasyPoll) (buf : List EasyEvent) (maxevents timeout : Int),
        1 ≤ maxevents → ep.eventSize ≤ ep.eventList.length →
        (∀ c ∈ (PollWaitEvent poll ep buf maxevents timeout).osCalls,
          c.nfds = min maxevents.toNat ep.eventSize ∧
          (c.fds.take c.nfds).length = min maxevents.toNat ep.eventSize ∧
          c.fds.take c.nfds
            = (ep.table.take maxevents.toNat).map
                (fun e => ⟨e.fd, pollEvents 0 e.event, 0⟩)) ∧
        (ep.eventSize ≠ 0 → (PollWaitEvent poll ep buf maxevents timeout).osCalls.length = 1)) ∧
    (∀ mask : Int,
        (hasFlag (pollEvents 0 mask) POLLIN = true ↔ hasFlag mask EVENT_READ = true) ∧
        (hasFlag (pollEvents 0 mask) POLLOUT = true ↔ hasFlag mask EVENT_WRITE = true) ∧
        (hasFlag (pollEvents 0 mask) POLLERR = true ↔ hasFlag mask EVENT_ERROR = true) ∧
        Int.land (pollEvents 0 mask) (Int.lor (Int.lor POLLIN POLLOUT) POLLERR)
          = pollEvents 0 mask) := by
  refine ⟨?_, pollEvents_flags⟩
  intro poll ep buf maxevents timeout hm hwf
  have h1 : ¬ maxevents < 1 := not_lt.2 hm
  have hsz : (if maxevents > (ep.eventSize : Int) then ep.eventSize else maxevents.toNat)
      = min maxevents.toNat ep.eventSize := by
    split_ifs <;> omega
  have hsub := pollFill_submitted ep maxevents.toNat hwf
  have hlen : ((ep.table.take maxevents.toNat).map
      (fun e => (⟨e.fd, pollEvents 0 e.event, 0⟩ : pollfd))).length
        = min maxevents.toNat ep.eventSize := by
    simp [table_length ep hwf]
  refine ⟨?_, ?_⟩
  · intro c hc
    simp only [PollWaitEvent, h1, if_false, hsz] at hc
    split_ifs at hc <;>
      first
      | (simp at hc; done)
      | (simp only [List.mem_singleton] at hc
         subst hc
         exact ⟨rfl, by rw [hsub, hlen], hsub⟩)
  · intro hne
    have hne2 : min maxevents.toNat ep.eventSize ≠ 0 := by omega
    simp only [PollWaitEvent, h1, if_false, hsz, hne2]
    split_ifs <;> rfl

/-- Witness of C19: the busy poll backend (descriptors 3 and 4) waited on with
`maxevents = 1`: only descriptor 3 is submitted. -/
theorem C19_poll_submitted_array_witness :
    (∀ c ∈ (PollWaitEvent pollFails pollBusy [⟨0, 0, 0⟩] 1 0).osCalls,
      c.nfds = min (1 : Int).toNat pollBusy.eventSize ∧
      (c.fds.take c.nfds).length = min (1 : Int).toNat pollBusy.eventSize ∧
      c.fds.take c.nfds
        = (pollBusy.table.take (1 : Int).toNat).map
            (fun e => ⟨e.fd, pollEvents 0 e.event, 0⟩)) ∧
    (pollBusy.eventSize ≠ 0 →
      (PollWaitEvent pollFails pollBusy [⟨0, 0, 0⟩] 1 0).osCalls.length = 1) :=
  C19_poll_submitted_array.1 pollFails pollBusy [⟨0, 0, 0⟩] 1 0 (by decide) (by decide)
/-! ## The batch of SelectWaitEvent -/

theorem specSelectMask_ne_zero (fd : Int) (R W E : fd_set) :
    specSelectMask fd R W E ≠ 0 ↔ (fdMem fd R || fdMem fd W || fdMem fd E) = true := by
  unfold specSelectMask
  cases fdMem fd R <;> cases fdMem fd W <;> cases fdMem fd E <;> decide

theorem selectRevents_in (fd : Int) (i : Fin FD_SETSIZE) (R W E : fd_set)
    (hi : fdIndex fd = some i) :
    selectRevents fd R W E = some (specSelectMask fd R W E) := by
  unfold selectRevents specSelectMask fdMem FD_ISSET
  simp only [hi, Option.map_some', Option.some_bind]
  by_cases hr : i ∈ R <;> by_cases hw : i ∈ W <;> by_cases he : i ∈ E <;>
    simp [hr, hw, he] <;> decide

theorem specSelectReady_cons (a : EasyEvent) (t : List EasyEvent) (R W E : fd_set) :
    specSelectReady (a :: t) R W E =
      if specSelectMask a.fd R W E ≠ 0 then
        (a.fd, specSelectMask a.fd R W E) :: specSelectReady t R W E
      else specSelectReady t R W E := by
  have h := specSelectMask_ne_zero a.fd R W E
  unfold specSelectReady
  rw [List.filter_cons]
  by_cases hr : specSelectMask a.fd R W E ≠ 0
  · rw [if_pos hr, if_pos (h.1 hr), List.map_cons]
  · rw [if_neg hr, if_neg (fun hh => hr (h.2 hh))]

theorem selectCollect_spec (l : List EasyEvent) (R W E : fd_set) (M : Nat) (n : Nat) :
    ∀ (i : Nat) (buf : List EasyEvent) (k : Nat), k < M → M ≤ buf.length →
      i + n ≤ l.length →
      (∀ e ∈ (l.drop i).take n, 0 ≤ e.fd ∧ e.fd < FD_SETSIZE) →
      ∃ out, selectCollect l R W E (M : Int) n i buf k = some out ∧
        out.2 = min (k + (specSelectReady ((l.drop i).take n) R W E).length) M ∧
        out.1.length = buf.length ∧
        (out.1.take out.2).map (fun e => (e.fd, e.retEvent))
          = (buf.take k).map (fun e => (e.fd, e.retEvent))
              ++ (specSelectReady ((l.drop i).take n) R W E).take (M - k) := by
  induction n with
  | zero =>
    intro i buf k hk hM hi _
    refine ⟨(buf, k), rfl, ?_, rfl, ?_⟩
    · simp [specSelectReady]
      omega
    · simp [specSelectReady]
  | succ n ih =>
    intro i buf k hk hM hi hin
    have hlt : i < l.length := by omega
    rw [List.drop_eq_getElem_cons hlt, List.take_succ_cons] at hin ⊢
    rw [specSelectReady_cons]
    obtain ⟨j, hj⟩ := fdIndex_eq_some l[i].fd (hin _ (List.mem_cons_self _ _)).1
      (hin _ (List.mem_cons_self _ _)).2
    have htail : ∀ e ∈ (l.drop (i + 1)).take n, 0 ≤ e.fd ∧ e.fd < FD_SETSIZE :=
      fun e he => hin e (List.mem_cons_of_mem _ he)
    simp only [selectCollect, List.getD_eq_getElem l default hlt,
      selectRevents_in l[i].fd j R W E hj]
    by_cases hr : specSelectMask l[i].fd R W E ≠ 0
    · rw [if_pos hr, if_pos hr]
      by_cases hfull : ((k + 1 : Nat) : Int) ≥ (M : Int)
      · have hM1 : M = k + 1 := by omega
        rw [if_pos hfull]
        refine ⟨_, rfl, ?_, by simp, ?_⟩
        · simp only [List.length_cons]
          omega
        · simp only
          rw [take_set_proj buf k _ _ (by omega)]
          have : M - k = 1 := by omega
          rw [this]
          simp
      · have hM1 : k + 1 < M := by omega
        rw [if_neg hfull]
        obtain ⟨out, ho, h1, h2, h3⟩ := ih (i + 1)
          (buf.set k { buf.getD k default with
            fd := l[i].fd, retEvent := specSelectMask l[i].fd R W E })
          (k + 1) hM1 (by simpa using hM) (by omega) htail
        refine ⟨out, ho, ?_, by simpa using h2, ?_⟩
        · rw [h1]
          simp only [List.length_cons]
          omega
        · rw [h3, take_set_proj buf k _ _ (by omega)]
          have : M - k = (M - (k + 1)) + 1 := by omega
          rw [this, List.take_succ_cons]
          simp
    · rw [if_neg hr, if_neg hr]
      exact ih (i + 1) buf k hk hM (by omega) htail

/-- The batch of SelectWaitEvent: for a non-empty table whose descriptors and
`maxFd` are below `FD_SETSIZE` (with `maxFd ≥ 0`), `maxevents ≥ 1`, a buffer of at
least `maxevents` cells and a `select` call that succeeds, the outcome of
SelectWaitEvent is determined; its batch, read as pairs of fd and `retEvent`, is
the first `maxevents` elements of the table walked in index order keeping the
entries whose fd is in a returned set, each with the mask READ iff in the read
set, WRITE iff in the write set, ERROR iff in the exception set; the return
value is the length of that batch. -/
theorem select_batch (select : SelectOs) (ep : EasySelect) (buf : List EasyEvent)
    (maxevents timeout : Int) (hm : 1 ≤ maxevents) (hbuf : maxevents.toNat ≤ buf.length)
    (hwf : ep.eventSize ≤ ep.eventList.length) (hne : ep.eventSize ≠ 0) (hmax : 0 ≤ ep.maxFd)
    (hlim : ep.maxFd < FD_SETSIZE) (hin : ∀ e ∈ ep.table, 0 ≤ e.fd ∧ e.fd < FD_SETSIZE)
    (hok : 0 ≤ (select ⟨ep.maxFd + 1, ep.readSet, ep.writeSet, ep.exceptionSet,
        some (selectTimeval timeout)⟩).1) :
    ∃ batch, (SelectWaitEvent select ep buf maxevents timeout).batch = some batch ∧
      batch.map (fun e => (e.fd, e.retEvent))
        = specSelectBatch ep.table
            (select ⟨ep.maxFd + 1, ep.readSet, ep.writeSet, ep.exceptionSet,
              some (selectTimeval timeout)⟩).2.1
            (select ⟨ep.maxFd + 1, ep.readSet, ep.writeSet, ep.exceptionSet,
              some (selectTimeval timeout)⟩).2.2.1
            (select ⟨ep.maxFd + 1, ep.readSet, ep.writeSet, ep.exceptionSet,
              some (selectTimeval timeout)⟩).2.2.2 maxevents ∧
      (SelectWaitEvent select ep buf maxevents timeout).ret
        = some (((specSelectBatch ep.table
            (select ⟨ep.maxFd + 1, ep.readSet, ep.writeSet, ep.exceptionSet,
              some (selectTimeval timeout)⟩).2.1
            (select ⟨ep.maxFd + 1, ep.readSet, ep.writeSet, ep.exceptionSet,
              some (selectTimeval timeout)⟩).2.2.1
            (select ⟨ep.maxFd + 1, ep.readSet, ep.writeSet, ep.exceptionSet,
              some (selectTimeval timeout)⟩).2.2.2 maxevents).length : Nat) : Int) := by
  generalize hres : select ⟨ep.maxFd + 1, ep.readSet, ep.writeSet, ep.exceptionSet,
      some (selectTimeval timeout)⟩ = res at hok ⊢
  have h1 : ¬ maxevents < 1 := not_lt.2 hm
  have h2 : ¬ (ep.eventSize = 0 ∨ ep.maxFd < 0) := by
    intro h
    rcases h with h | h
    · exact hne h
    · omega
  have h3 : ¬ res.1 < 0 := not_lt.2 hok
  have h4 : ¬ ep.maxFd + 1 > (FD_SETSIZE : Int) := by omega
  have hM : ((maxevents.toNat : Nat) : Int) = maxevents := Int.toNat_of_nonneg (by omega)
  obtain ⟨out, ho, s1, s2, s3⟩ := selectCollect_spec ep.eventList res.2.1 res.2.2.1 res.2.2.2
    maxevents.toNat ep.eventSize 0 buf 0 (by omega) hbuf (by omega)
    (by simpa [EasySelect.table] using hin)
  rw [hM] at ho
  simp only [List.drop_zero, Nat.zero_add, List.take_zero, List.map_nil, List.nil_append,
    Nat.sub_zero] at s1 s3
  have hdef : SelectWaitEvent select ep buf maxevents timeout
      = ⟨some ((out.2 : Nat), out.1),
         [⟨ep.maxFd + 1, ep.readSet, ep.writeSet, ep.exceptionSet,
            some (selectTimeval timeout)⟩]⟩ := by
    simp only [SelectWaitEvent, h1, h2, if_false, hres, h3, h4, ho, Option.map_some']
  rw [hdef]
  refine ⟨out.1.take out.2, by simp [SelectWaitResult.batch], ?_, ?_⟩
  · simp only [specSelectBatch, EasySelect.table]
    exact s3
  · simp only [SelectWaitResult.ret, Option.map_some', specSelectBatch, EasySelect.table]
    rw [s1, List.length_take, Nat.min_comm]

/-- C18 at a failing input: the select backend created with capacity 10 watches
descriptor 3105 (added with mask 0, so no `FD_SET` was executed) and
`maxFd = 3105`.  SelectWaitEvent calls `select(3106, ...)` on its three local
copies of `FD_SETSIZE = 1024` bits; `select` succeeds and reports nothing ready.
The call has stored 3106 bits in each copy and the loop then executes
`FD_ISSET(3105, &readSet)`, a read outside the copy: the return value and the
batch of SelectWaitEvent are not determined, where the table walked against the
returned sets gives the empty batch and the return value 0. -/
theorem C18_select_wait_leaves_fd_set :
    ¬ (3105 : Int) < FD_SETSIZE ∧
    SelectRun selectNew [.AddEvent ⟨3105, 0, 0⟩]
      = some ⟨3105, ∅, ∅, ∅, 10, 1, (callocEvents 10).set 0 ⟨3105, 0, 0⟩⟩ ∧
    (⟨3105, ∅, ∅, ∅, 10, 1, (callocEvents 10).set 0 ⟨3105, 0, 0⟩⟩ : EasySelect).table
      = [⟨3105, 0, 0⟩] ∧
    (SelectWaitEvent (fun _ => (0, ∅, ∅, ∅))
        ⟨3105, ∅, ∅, ∅, 10, 1, (callocEvents 10).set 0 ⟨3105, 0, 0⟩⟩ [⟨0, 0, 0⟩] 1 0).osCalls
      = [⟨3106, ∅, ∅, ∅, some ⟨0, 0⟩⟩] ∧
    (SelectWaitEvent (fun _ => (0, ∅, ∅, ∅))
        ⟨3105, ∅, ∅, ∅, 10, 1, (callocEvents 10).set 0 ⟨3105, 0, 0⟩⟩ [⟨0, 0, 0⟩] 1 0).outcome
      = none ∧
    FD_ISSET 3105 (∅ : fd_set) = none ∧
    selectRevents 3105 ∅ ∅ ∅ = none ∧
    specSelectBatch [⟨3105, 0, 0⟩] ∅ ∅ ∅ 1 = [] := by
  decide

/-! ## The epoll backend and the kernel's interest list -/

theorem KernelSync_put (K : EpollKernel) (t t2 : List EasyEvent) (d : EasyEvent)
    (hs : KernelSync K t) (hd : d ∈ t2) (huniq : ∀ e ∈ t2, e.fd = d.fd → e = d)
    (hother : ∀ e : EasyEvent, e.fd ≠ d.fd → (e ∈ t2 ↔ e ∈ t)) :
    KernelSync (fun fd => if fd = d.fd then some (epollEv d).events else K fd) t2 := by
  refine ⟨?_, ?_⟩
  · intro fd
    by_cases hfd : fd = d.fd
    · simp only [hfd, if_true, Option.isSome_some, true_iff]
      exact ⟨d, hd, rfl⟩
    · simp only [hfd, if_false]
      rw [hs.1 fd]
      constructor
      · rintro ⟨e, he, hef⟩
        exact ⟨e, (hother e (by rw [hef]; exact hfd)).2 he, hef⟩
      · rintro ⟨e, he, hef⟩
        exact ⟨e, (hother e (by rw [hef]; exact hfd)).1 he, hef⟩
  · intro e he
    by_cases hfd : e.fd = d.fd
    · have := huniq e he hfd
      subst this
      simp
    · simp only [hfd, if_false]
      exact hs.2 e ((hother e hfd).1 he)

theorem KernelSync_del (K : EpollKernel) (t t2 : List EasyEvent) (fd0 : Int)
    (hs : KernelSync K t) (hgone : ∀ e ∈ t2, e.fd ≠ fd0)
    (hother : ∀ e : EasyEvent, e.fd ≠ fd0 → (e ∈ t2 ↔ e ∈ t)) :
    KernelSync (fun fd => if fd = fd0 then none else K fd) t2 := by
  refine ⟨?_, ?_⟩
  · intro fd
    by_cases hfd : fd = fd0
    · simp only [hfd, if_true, Option.isSome_none, Bool.false_eq_true, false_iff]
      rintro ⟨e, he, hef⟩
      exact hgone e he hef
    · simp only [hfd, if_false]
      rw [hs.1 fd]
      constructor
      · rintro ⟨e, he, hef⟩
        exact ⟨e, (hother e (by rw [hef]; exact hfd)).2 he, hef⟩
      · rintro ⟨e, he, hef⟩
        exact ⟨e, (hother e (by rw [hef]; exact hfd)).1 he, hef⟩
  · intro e he
    have hfd : e.fd ≠ fd0 := hgone e he
    simp only [hfd, if_false]
    exact hs.2 e ((hother e hfd).1 he)

theorem mem_set_other (t : List EasyEvent) (j : Nat) (d e : EasyEvent) (hj : j < t.length)
    (hfd : t[j].fd = d.fd) (hne : e.fd ≠ d.fd) : e ∈ t.set j d ↔ e ∈ t := by
  constructor
  · intro h
    rcases List.mem_or_eq_of_mem_set h with h | h
    · exact h
    · exact absurd (congrArg EasyEvent.fd h) hne
  · intro h
    obtain ⟨i, hi, hie⟩ := List.mem_iff_getElem.1 h
    have hij : j ≠ i := by
      intro hji
      subst hji
      rw [hie] at hfd
      exact hne hfd
    refine List.mem_iff_getElem.2 ⟨i, by simpa using hi, ?_⟩
    rw [List.getElem_set, if_neg hij]
    exact hie

theorem PollUpdateEvent_mem_other (ep : EasyPoll) (d e : EasyEvent) (hw : WellFormed ep)
    (hne : e.fd ≠ d.fd) :
    e ∈ (PollUpdateEvent ep d).2.table ↔ e ∈ ep.table := by
  have hwf : ep.eventSize ≤ ep.eventList.length := by
    rw [hw.1]; exact hw.2
  by_cases hneg : d.fd < 0
  · rw [PollUpdateEvent_neg ep d hneg]
  have h0 : 0 ≤ d.fd := not_lt.1 hneg
  by_cases hpres : ∃ x ∈ ep.table, x.fd = d.fd
  · rw [PollUpdateEvent_overwrite ep d hwf h0 hpres, table_overwrite]
    have hj := findIdx_lt_of_present ep d.fd hwf hpres
    have hjt : ep.table.findIdx (fun x => x.fd == d.fd) < ep.table.length := by
      rwa [table_length ep hwf]
    exact mem_set_other _ _ d e hjt (findIdx_fd ep d.fd hjt) hne
  · have habs : ∀ x ∈ ep.table, x.fd ≠ d.fd := fun x hx hxe => hpres ⟨x, hx, hxe⟩
    by_cases hfull : ep.eventCapacity ≤ ep.eventSize
    · rw [PollUpdateEvent_full ep d hwf h0 habs hfull]
    · rw [PollUpdateEvent_append ep d hwf h0 habs (not_le.1 hfull),
        table_append ep d (by have := hw.1; omega)]
      simp only [List.mem_append, List.mem_singleton]
      constructor
      · rintro (h | h)
        · exact h
        · exact absurd (congrArg EasyEvent.fd h) hne
      · exact Or.inl

theorem TableInv_EpollUpdateEvent (os : EpollCtlOs) (ep : EasyEpoll) (d : EasyEvent)
    (h : TableInv ep.toPoll) : TableInv (EpollUpdateEvent os ep d).2.1.toPoll := by
  rcases EpollUpdateEvent_toPoll os ep d with h1 | h1
  · rw [h1.2]; exact h
  · have h2 : (EpollUpdateEvent os ep d).2.1.toPoll = (PollUpdateEvent ep.toPoll d).2 :=
      congrArg Prod.snd h1
    rw [h2]; exact TableInv_update _ d h

theorem TableInv_EpollRemoveEvent (os : EpollCtlOs) (ep : EasyEpoll) (d : EasyEvent)
    (h : TableInv ep.toPoll) : TableInv (EpollRemoveEvent os ep d).2.1.toPoll := by
  rcases EpollRemoveEvent_toPoll os ep d with h1 | h1
  · rw [h1.2]; exact h
  · have h2 : (EpollRemoveEvent os ep d).2.1.toPoll = (PollRemoveEvent ep.toPoll d).2 :=
      congrArg Prod.snd h1
    rw [h2]; exact TableInv_remove _ d h

theorem kernelCtl_fails (K : EpollKernel) (c : EpollCtlCall) :
    kernelCtl K true c = (-1, K) := by
  simp [kernelCtl]

theorem EpollUpdateEvent_neg (os : EpollCtlOs) (ep : EasyEpoll) (d : EasyEvent)
    (h : d.fd < 0) : EpollUpdateEvent os ep d = (-1, ep, []) := by
  simp [EpollUpdateEvent, h]

theorem EpollUpdateEvent_full (os : EpollCtlOs) (ep : EasyEpoll) (d : EasyEvent)
    (hwf : ep.eventSize ≤ ep.eventList.length) (h0 : 0 ≤ d.fd)
    (habs : ∀ x ∈ ep.table, x.fd ≠ d.fd) (hfull : ep.eventCapacity ≤ ep.eventSize) :
    EpollUpdateEvent os ep d = (-1, ep, []) := by
  have hs : scanFd ep.eventList d.fd ep.eventSize 0 = ep.eventSize :=
    (scanFd_eq_size_iff ep.toPoll d.fd hwf).2 habs
  simp [EpollUpdateEvent, not_lt.2 h0, hs, hfull]

theorem EpollUpdateEvent_add (os : EpollCtlOs) (ep : EasyEpoll) (d : EasyEvent)
    (hwf : ep.eventSize ≤ ep.eventList.length) (h0 : 0 ≤ d.fd)
    (habs : ∀ x ∈ ep.table, x.fd ≠ d.fd) (hroom : ep.eventSize < ep.eventCapacity) :
    (EpollUpdateEvent os ep d).2.2
        = [⟨ep.epollFd, .EPOLL_CTL_ADD, d.fd, some (epollEv d)⟩] ∧
    (os ⟨ep.epollFd, .EPOLL_CTL_ADD, d.fd, some (epollEv d)⟩ < 0 →
      EpollUpdateEvent os ep d
        = (-1, ep, [⟨ep.epollFd, .EPOLL_CTL_ADD, d.fd, some (epollEv d)⟩])) ∧
    (0 ≤ os ⟨ep.epollFd, .EPOLL_CTL_ADD, d.fd, some (epollEv d)⟩ →
      (EpollUpdateEvent os ep d).1 = 0) := by
  have hs : scanFd ep.eventList d.fd ep.eventSize 0 = ep.eventSize :=
    (scanFd_eq_size_iff ep.toPoll d.fd hwf).2 habs
  simp only [EpollUpdateEvent, not_lt.2 h0, hs, if_false, if_true, ge_iff_le, not_le.2 hroom]
  refine ⟨?_, ?_, ?_⟩
  · split_ifs <;> rfl
  · intro h
    rw [if_pos h]
  · intro h
    rw [if_neg (not_lt.2 h)]

theorem EpollUpdateEvent_mod (os : EpollCtlOs) (ep : EasyEpoll) (d : EasyEvent)
    (hwf : ep.eventSize ≤ ep.eventList.length) (h0 : 0 ≤ d.fd)
    (hpres : ∃ x ∈ ep.table, x.fd = d.fd) :
    (EpollUpdateEvent os ep d).2.2
        = [⟨ep.epollFd, .EPOLL_CTL_MOD, d.fd, some (epollEv d)⟩] ∧
    (os ⟨ep.epollFd, .EPOLL_CTL_MOD, d.fd, some (epollEv d)⟩ < 0 →
      EpollUpdateEvent os ep d
        = (-1, ep, [⟨ep.epollFd, .EPOLL_CTL_MOD, d.fd, some (epollEv d)⟩])) ∧
    (0 ≤ os ⟨ep.epollFd, .EPOLL_CTL_MOD, d.fd, some (epollEv d)⟩ →
      (EpollUpdateEvent os ep d).1 = 0) := by
  have hne : scanFd ep.eventList d.fd ep.eventSize 0 ≠ ep.eventSize := by
    intro hs
    obtain ⟨x, hx, hxe⟩ := hpres
    exact (scanFd_eq_size_iff ep.toPoll d.fd hwf).1 hs x hx hxe
  simp only [EpollUpdateEvent, not_lt.2 h0, hne, if_false]
  refine ⟨?_, ?_, ?_⟩
  · split_ifs <;> rfl
  · intro h
    rw [if_pos h]
  · intro h
    rw [if_neg (not_lt.2 h)]

theorem EpollRemoveEvent_del (os : EpollCtlOs) (ep : EasyEpoll) (d : EasyEvent)
    (hwf : ep.eventSize ≤ ep.eventList.length) (h0 : 0 ≤ d.fd)
    (hpres : ∃ x ∈ ep.table, x.fd = d.fd) :
    (EpollRemoveEvent os ep d).2.2 = [⟨ep.epollFd, .EPOLL_CTL_DEL, d.fd, none⟩] ∧
    (os ⟨ep.epollFd, .EPOLL_CTL_DEL, d.fd, none⟩ < 0 →
      EpollRemoveEvent os ep d = (-1, ep, [⟨ep.epollFd, .EPOLL_CTL_DEL, d.fd, none⟩])) := by
  have hj : scanFd ep.eventList d.fd ep.eventSize 0 < ep.eventSize := by
    have := findIdx_lt_of_present ep.toPoll d.fd hwf hpres
    rwa [← scanFd_table ep.toPoll d.fd hwf] at this
  simp only [EpollRemoveEvent, not_lt.2 h0, hj, if_false, if_true]
  refine ⟨?_, ?_⟩
  · split_ifs <;> rfl
  · intro h
    rw [if_pos h]

theorem EpollRemoveEvent_none (os : EpollCtlOs) (ep : EasyEpoll) (d : EasyEvent)
    (hwf : ep.eventSize ≤ ep.eventList.length)
    (h : d.fd < 0 ∨ ∀ x ∈ ep.table, x.fd ≠ d.fd) :
    (EpollRemoveEvent os ep d).2.1 = ep ∧ (EpollRemoveEvent os ep d).2.2 = [] := by
  by_cases hneg : d.fd < 0
  · simp [EpollRemoveEvent, hneg]
  · rcases h with h | habs
    · exact absurd h hneg
    · have hs : scanFd ep.eventList d.fd ep.eventSize 0 = ep.eventSize :=
        (scanFd_eq_size_iff ep.toPoll d.fd hwf).2 habs
      simp [EpollRemoveEvent, hneg, hs]

theorem KernelSync_put_update (K : EpollKernel) (os : EpollCtlOs) (ep : EasyEpoll)
    (d : EasyEvent) (hinv : TableInv ep.toPoll) (hs : KernelSync K ep.table)
    (hok : (EpollUpdateEvent os ep d).1 = 0) :
    KernelSync (fun fd => if fd = d.fd then some (epollEv d).events else K fd)
      (EpollUpdateEvent os ep d).2.1.table := by
  obtain ⟨hokp, hst, _⟩ := EpollUpdateEvent_ok os ep d hok
  have htab : (EpollUpdateEvent os ep d).2.1.table = (PollUpdateEvent ep.toPoll d).2.table :=
    congrArg EasyPoll.table hst
  rw [htab]
  have hinv2 := TableInv_update ep.toPoll d hinv
  have hmem := PollUpdateEvent_ok_mem ep.toPoll d hinv.1 hokp
  refine KernelSync_put K ep.table _ d hs hmem ?_ ?_
  · intro e he hfd
    exact eq_of_fd_eq _ e d hinv2.2.1 he hmem hfd
  · intro e hne
    exact PollUpdateEvent_mem_other ep.toPoll d e hinv.1 hne

theorem KernelSync_update (K : EpollKernel) (fails : EpollCtlCall → Bool) (ep : EasyEpoll)
    (d : EasyEvent) (hinv : TableInv ep.toPoll) (hs : KernelSync K ep.table) :
    KernelSync
      ((EpollUpdateEvent (fun c => (kernelCtl K (fails c) c).1) ep d).2.2.foldl
        (fun K c => (kernelCtl K (fails c) c).2) K)
      (EpollUpdateEvent (fun c => (kernelCtl K (fails c) c).1) ep d).2.1.table := by
  have hwf : ep.toPoll.eventSize ≤ ep.toPoll.eventList.length := by
    rw [hinv.1.1]; exact hinv.1.2
  by_cases hneg : d.fd < 0
  · rw [EpollUpdateEvent_neg _ ep d hneg]
    exact hs
  have h0 : 0 ≤ d.fd := not_lt.1 hneg
  by_cases hpres : ∃ x ∈ ep.table, x.fd = d.fd
  · obtain ⟨hcalls, hfail, hsucc⟩ :=
      EpollUpdateEvent_mod (fun c => (kernelCtl K (fails c) c).1) ep d hwf h0 hpres
    obtain ⟨v, hv⟩ := Option.isSome_iff_exists.1 ((hs.1 d.fd).2 hpres)
    cases hf : fails ⟨ep.epollFd, .EPOLL_CTL_MOD, d.fd, some (epollEv d)⟩ with
    | true =>
      have hlt : (fun c => (kernelCtl K (fails c) c).1)
          ⟨ep.epollFd, .EPOLL_CTL_MOD, d.fd, some (epollEv d)⟩ < 0 := by
        simp only [hf, kernelCtl_fails]
        decide
      rw [hfail hlt]
      simp only [List.foldl_cons, List.foldl_nil, hf, kernelCtl_fails]
      exact hs
    | false =>
      have hk : kernelCtl K false ⟨ep.epollFd, .EPOLL_CTL_MOD, d.fd, some (epollEv d)⟩
          = (0, fun fd => if fd = d.fd then some (epollEv d).events else K fd) := by
        simp [kernelCtl, hv]
      have hge : 0 ≤ (fun c => (kernelCtl K (fails c) c).1)
          ⟨ep.epollFd, .EPOLL_CTL_MOD, d.fd, some (epollEv d)⟩ := by
        simp only [hf, hk]
        decide
      rw [hcalls]
      simp only [List.foldl_cons, List.foldl_nil, hf, hk]
      exact KernelSync_put_update K _ ep d hinv hs (hsucc hge)
  · have habs : ∀ x ∈ ep.table, x.fd ≠ d.fd := fun x hx hxe => hpres ⟨x, hx, hxe⟩
    by_cases hfull : ep.eventCapacity ≤ ep.eventSize
    · rw [EpollUpdateEvent_full _ ep d hwf h0 habs hfull]
      exact hs
    · obtain ⟨hcalls, hfail, hsucc⟩ :=
        EpollUpdateEvent_add (fun c => (kernelCtl K (fails c) c).1) ep d hwf h0 habs
          (not_le.1 hfull)
      have hv : K d.fd = none := by
        cases hK : K d.fd with
        | none => rfl
        | some v =>
          exact absurd ((hs.1 d.fd).1 (by rw [hK]; rfl)) hpres
      cases hf : fails ⟨ep.epollFd, .EPOLL_CTL_ADD, d.fd, some (epollEv d)⟩ with
      | true =>
        have hlt : (fun c => (kernelCtl K (fails c) c).1)
            ⟨ep.epollFd, .EPOLL_CTL_ADD, d.fd, some (epollEv d)⟩ < 0 := by
          simp only [hf, kernelCtl_fails]
          decide
        rw [hfail hlt]
        simp only [List.foldl_cons, List.foldl_nil, hf, kernelCtl_fails]
        exact hs
      | false =>
        have hk : kernelCtl K false ⟨ep.epollFd, .EPOLL_CTL_ADD, d.fd, some (epollEv d)⟩
            = (0, fun fd => if fd = d.fd then some (epollEv d).events else K fd) := by
          simp [kernelCtl, hv]
        have hge : 0 ≤ (fun c => (kernelCtl K (fails c) c).1)
            ⟨ep.epollFd, .EPOLL_CTL_ADD, d.fd, some (epollEv d)⟩ := by
          simp only [hf, hk]
          decide
        rw [hcalls]
        simp only [List.foldl_cons, List.foldl_nil, hf, hk]
        exact KernelSync_put_update K _ ep d hinv hs (hsucc hge)

theorem KernelSync_remove (K : EpollKernel) (fails : EpollCtlCall → Bool) (ep : EasyEpoll)
    (d : EasyEvent) (hinv : TableInv ep.toPoll) (hs : KernelSync K ep.table) :
    KernelSync
      ((EpollRemoveEvent (fun c => (kernelCtl K (fails c) c).1) ep d).2.2.foldl
        (fun K c => (kernelCtl K (fails c) c).2) K)
      (EpollRemoveEvent (fun c => (kernelCtl K (fails c) c).1) ep d).2.1.table := by
  have hwf : ep.toPoll.eventSize ≤ ep.toPoll.eventList.length := by
    rw [hinv.1.1]; exact hinv.1.2
  by_cases hpres : ∃ x ∈ ep.table, x.fd = d.fd
  · have h0 : 0 ≤ d.fd := by
      obtain ⟨x, hx, hxe⟩ := hpres
      rw [← hxe]; exact hinv.2.2 x hx
    obtain ⟨hcalls, hfail⟩ :=
      EpollRemoveEvent_del (fun c => (kernelCtl K (fails c) c).1) ep d hwf h0 hpres
    obtain ⟨v, hv⟩ := Option.isSome_iff_exists.1 ((hs.1 d.fd).2 hpres)
    cases hf : fails ⟨ep.epollFd, .EPOLL_CTL_DEL, d.fd, none⟩ with
    | true =>
      have hlt : (fun c => (kernelCtl K (fails c) c).1)
          ⟨ep.epollFd, .EPOLL_CTL_DEL, d.fd, none⟩ < 0 := by
        simp only [hf, kernelCtl_fails]
        decide
      rw [hfail hlt]
      simp only [List.foldl_cons, List.foldl_nil, hf, kernelCtl_fails]
      exact hs
    | false =>
      have hk : kernelCtl K false ⟨ep.epollFd, .EPOLL_CTL_DEL, d.fd, none⟩
          = (0, fun fd => if fd = d.fd then none else K fd) := by
        simp [kernelCtl, hv]
      have hge : 0 ≤ (fun c => (kernelCtl K (fails c) c).1)
          ⟨ep.epollFd, .EPOLL_CTL_DEL, d.fd, none⟩ := by
        simp only [hf, hk]
        decide
      obtain ⟨_, hst⟩ :=
        EpollRemoveEvent_ok_toPoll (fun c => (kernelCtl K (fails c) c).1) ep d hge
      obtain ⟨_, htab, _, hgone, _⟩ := PollRemoveEvent_present_spec ep.toPoll d hinv hpres
      have htab2 : (EpollRemoveEvent (fun c => (kernelCtl K (fails c) c).1) ep d).2.1.table
          = (PollRemoveEvent ep.toPoll d).2.table := congrArg EasyPoll.table hst
      rw [hcalls, htab2]
      simp only [List.foldl_cons, List.foldl_nil, hf, hk]
      refine KernelSync_del K ep.table _ d.fd hs hgone ?_
      intro e hne
      rw [htab]
      simp only [List.mem_filter, bne_iff_ne, ne_eq]
      exact ⟨fun h => h.1, fun h => ⟨h, hne⟩⟩
  · have habs : ∀ x ∈ ep.table, x.fd ≠ d.fd := fun x hx hxe => hpres ⟨x, hx, hxe⟩
    obtain ⟨h1, h2⟩ := EpollRemoveEvent_none (fun c => (kernelCtl K (fails c) c).1) ep d hwf
      (Or.inr habs)
    rw [h1, h2]
    exact hs

theorem KernelSync_step (s : EasyEpoll × EpollKernel) (x : (EpollCtlCall → Bool) × TableOp)
    (hinv : TableInv s.1.toPoll) (hs : KernelSync s.2 s.1.table) :
    TableInv (EpollKernelStep s x).1.toPoll ∧
    KernelSync (EpollKernelStep s x).2 (EpollKernelStep s x).1.table := by
  obtain ⟨ep, K⟩ := s
  obtain ⟨fails, op⟩ := x
  cases op with
  | AddEvent e =>
    exact ⟨TableInv_EpollUpdateEvent _ ep e hinv, KernelSync_update K fails ep e hinv hs⟩
  | UpdateEvent e =>
    exact ⟨TableInv_EpollUpdateEvent _ ep e hinv, KernelSync_update K fails ep e hinv hs⟩
  | RemoveEvent e =>
    exact ⟨TableInv_EpollRemoveEvent _ ep e hinv, KernelSync_remove K fails ep e hinv hs⟩

theorem KernelSync_run (ops : List ((EpollCtlCall → Bool) × TableOp))
    (s : EasyEpoll × EpollKernel) (hinv : TableInv s.1.toPoll)
    (hs : KernelSync s.2 s.1.table) :
    TableInv (EpollKernelRun s ops).1.toPoll ∧
    KernelSync (EpollKernelRun s ops).2 (EpollKernelRun s ops).1.table := by
  induction ops generalizing s with
  | nil => exact ⟨hinv, hs⟩
  | cons x xs ih =>
    have h := KernelSync_step s x hinv hs
    exact ih (EpollKernelStep s x) h.1 h.2

theorem epollEv_flags (e : EasyEvent) :
    (hasFlag (epollEv e).events EPOLLIN = true ↔ hasFlag e.event EVENT_READ = true) ∧
    (hasFlag (epollEv e).events EPOLLOUT = true ↔ hasFlag e.event EVENT_WRITE = true) ∧
    (hasFlag (epollEv e).events EPOLLERR = true ↔ hasFlag e.event EVENT_ERROR = true) ∧
    Int.land (epollEv e).events (Int.lor (Int.lor EPOLLIN EPOLLOUT) EPOLLERR)
      = (epollEv e).events := by
  simp only [epollEv]
  generalize hasFlag e.event EVENT_READ = a
  generalize hasFlag e.event EVENT_WRITE = b
  generalize hasFlag e.event EVENT_ERROR = c
  revert a b c
  decide

/-- C20: with the kernel's interest list of an epoll instance modelled as a map
from registered fd to requested flags (register succeeds only for an
unregistered fd, modify and deregister only for a registered one, any call may
fail and then changes nothing), in every state of the epoll backend reached from
EpollCreate by AddEvent/UpdateEvent/RemoveEvent the registered fds are exactly
the fds of the interest table, and the flags registered for the fd of a table
entry are the outbound translation of its stored mask: IN iff READ, OUT iff
WRITE, ERR iff ERROR, nothing else. -/
theorem C20_kernel_mirrors_table :
    (∀ (m : Bool) (efd : Int) (c : Bool) (h : Int) (ep : EasyEpoll)
        (ops : List ((EpollCtlCall → Bool) × TableOp)),
        EpollCreate m efd c h = some ep →
        (∀ fd, ((EpollKernelRun (ep, kernelEmpty) ops).2 fd).isSome = true ↔
          ∃ e ∈ (EpollKernelRun (ep, kernelEmpty) ops).1.table, e.fd = fd) ∧
        (∀ e ∈ (EpollKernelRun (ep, kernelEmpty) ops).1.table,
          (EpollKernelRun (ep, kernelEmpty) ops).2 e.fd = some (epollEv e).events)) ∧
    (∀ e : EasyEvent,
        (hasFlag (epollEv e).events EPOLLIN = true ↔ hasFlag e.event EVENT_READ = true) ∧
        (hasFlag (epollEv e).events EPOLLOUT = true ↔ hasFlag e.event EVENT_WRITE = true) ∧
        (hasFlag (epollEv e).events EPOLLERR = true ↔ hasFlag e.event EVENT_ERROR = true) ∧
        Int.land (epollEv e).events (Int.lor (Int.lor EPOLLIN EPOLLOUT) EPOLLERR)
          = (epollEv e).events) := by
  refine ⟨?_, epollEv_flags⟩
  intro m efd c h ep ops hc
  unfold EpollCreate at hc
  split_ifs at hc
  cases hc
  have hinit : KernelSync kernelEmpty
      (EasyEpoll.table ⟨efd, clampSize h, 0, callocEvents (clampSize h)⟩) := by
    refine ⟨?_, ?_⟩ <;> simp [kernelEmpty, EasyEpoll.table]
  exact (KernelSync_run ops
    (⟨efd, clampSize h, 0, callocEvents (clampSize h)⟩, kernelEmpty)
    (TableInv_create h) hinit).2

/-- Witness of C20: after `kernelDemoOps` on an epoll backend created with hint
2, descriptor 3 is registered exactly when it is in the table, with the flags of
its stored mask 6 (WRITE and ERROR). -/
theorem C20_kernel_mirrors_table_witness :
    (((EpollKernelRun (epollFresh, kernelEmpty) kernelDemoOps).2 3).isSome = true ↔
      ∃ e ∈ (EpollKernelRun (epollFresh, kernelEmpty) kernelDemoOps).1.table, e.fd = 3) ∧
    (EpollKernelRun (epollFresh, kernelEmpty) kernelDemoOps).2 3
      = some (epollEv ⟨3, 6, 0⟩).events :=
  ⟨(C20_kernel_mirrors_table.1 true 7 true 2 epollFresh kernelDemoOps rfl).1 3,
   (C20_kernel_mirrors_table.1 true 7 true 2 epollFresh kernelDemoOps rfl).2 ⟨3, 6, 0⟩
     (by decide)⟩

/-- C22: in the select backend, for a timeout of 32-bit signed milliseconds with
`timeout ≥ 0`, the `timeval` that SelectWaitEvent hands to `select` has
`tv_sec ≥ 0`, `0 ≤ tv_usec < 1000000` and
`tv_sec * 1000000 + tv_usec = timeout * 1000`; the quotient, the remainder and
the product computed on the way fit an `int`, so nothing overflows; and every
`select` call of SelectWaitEvent carries that `timeval`. -/
theorem C22_select_timeval_exact (timeout : Int) (h0 : 0 ≤ timeout) (h32 : inInt32 timeout) :
    0 ≤ (selectTimeval timeout).tv_sec ∧
    0 ≤ (selectTimeval timeout).tv_usec ∧ (selectTimeval timeout).tv_usec < 1000000 ∧
    (selectTimeval timeout).tv_sec * 1000000 + (selectTimeval timeout).tv_usec
      = timeout * 1000 ∧
    inInt32 (Int.tdiv timeout 1000) ∧ inInt32 (Int.tmod timeout 1000) ∧
    inInt32 (Int.tmod timeout 1000 * 1000) ∧
    ∀ (select : SelectOs) (ep : EasySelect) (buf : List EasyEvent) (maxevents : Int),
      ∀ c ∈ (SelectWaitEvent select ep buf maxevents timeout).osCalls,
        c.timeout = some (selectTimeval timeout) := by
  have hd : Int.tdiv timeout 1000 = timeout / 1000 := Int.tdiv_eq_ediv h0 (by decide)
  have hm : Int.tmod timeout 1000 = timeout % 1000 := Int.tmod_eq_emod h0 (by decide)
  obtain ⟨hlo, hhi⟩ := h32
  simp only [selectTimeval, inInt32, hd, hm]
  refine ⟨by omega, by omega, by omega, by omega, by omega, by omega, by omega, ?_⟩
  intro select ep buf maxevents c hc
  simp only [SelectWaitEvent] at hc
  split_ifs at hc <;>
    first
    | (simp at hc; done)
    | (simp only [List.mem_singleton] at hc
       subst hc
       simp [selectTimeval, hd, hm])

/-- Witness of C22: a timeout of 1500 ms is 1 s and 500000 µs, and that is the
`timeval` of the `select` call issued for the busy select backend. -/
theorem C22_select_timeval_exact_witness :
    0 ≤ (selectTimeval 1500).tv_sec ∧
    0 ≤ (selectTimeval 1500).tv_usec ∧ (selectTimeval 1500).tv_usec < 1000000 ∧
    (selectTimeval 1500).tv_sec * 1000000 + (selectTimeval 1500).tv_usec = 1500 * 1000 ∧
    inInt32 (Int.tdiv 1500 1000) ∧ inInt32 (Int.tmod 1500 1000) ∧
    inInt32 (Int.tmod 1500 1000 * 1000) ∧
    (⟨5, {3}, {4}, ∅, some ⟨1, 500000⟩⟩ : SelectCall).timeout = some (selectTimeval 1500) :=
  ⟨(C22_select_timeval_exact 1500 (by decide) ⟨by decide, by decide⟩).1,
   (C22_select_timeval_exact 1500 (by decide) ⟨by decide, by decide⟩).2.1,
   (C22_select_timeval_exact 1500 (by decide) ⟨by decide, by decide⟩).2.2.1,
   (C22_select_timeval_exact 1500 (by decide) ⟨by decide, by decide⟩).2.2.2.1,
   (C22_select_timeval_exact 1500 (by decide) ⟨by decide, by decide⟩).2.2.2.2.1,
   (C22_select_timeval_exact 1500 (by decide) ⟨by decide, by decide⟩).2.2.2.2.2.1,
   (C22_select_timeval_exact 1500 (by decide) ⟨by decide, by decide⟩).2.2.2.2.2.2.1,
   (C22_select_timeval_exact 1500 (by decide) ⟨by decide, by decide⟩).2.2.2.2.2.2.2
     selectAllReady selectBusy [⟨0, 0, 0⟩] 1 ⟨5, {3}, {4}, ∅, some ⟨1, 500000⟩⟩ (by decide)⟩
/-! ## The tracked maximum along a run of the select backend -/

theorem SelectUpdateEvent_result (ep : EasySelect) (d : EasyEvent) (r : Int × EasySelect)
    (hr : SelectUpdateEvent ep d = some r) :
    r = (-1, ep) ∨
    (r.1 = 0 ∧ r.2.maxFd = if d.fd > ep.maxFd then d.fd else ep.maxFd) := by
  unfold SelectUpdateEvent at hr
  simp only at hr
  by_cases h1 : d.fd < 0
  · rw [if_pos h1] at hr
    cases hr
    exact Or.inl rfl
  rw [if_neg h1] at hr
  by_cases h2 : scanFd ep.eventList d.fd ep.eventSize 0 = ep.eventSize
  · rw [if_pos h2] at hr
    by_cases h3 : ep.eventSize ≥ ep.eventCapacity
    · rw [if_pos h3] at hr
      cases hr
      exact Or.inl rfl
    · rw [if_neg h3] at hr
      obtain ⟨s, hs, rfl⟩ := Option.map_eq_some'.1 hr
      exact Or.inr ⟨rfl, (selectMark_toPoll _ d s hs).2⟩
  · rw [if_neg h2] at hr
    obtain ⟨s, hs, rfl⟩ := Option.map_eq_some'.1 hr
    exact Or.inr ⟨rfl, (selectMark_toPoll _ d s hs).2⟩

theorem MaxFdInv_update (ep : EasySelect) (d : EasyEvent) (r : Int × EasySelect)
    (hr : SelectUpdateEvent ep d = some r) (hinv : TableInv ep.toPoll)
    (hmax : MaxFdInv ep) : MaxFdInv r.2 := by
  rcases SelectUpdateEvent_result ep d r hr with h | ⟨hok, hm⟩
  · rw [h]; exact hmax
  have ht := SelectUpdateEvent_toPoll ep d r hr
  have ht1 : r.1 = (PollUpdateEvent ep.toPoll d).1 := congrArg Prod.fst ht
  have ht2 : r.2.toPoll = (PollUpdateEvent ep.toPoll d).2 := congrArg Prod.snd ht
  have hokp : (PollUpdateEvent ep.toPoll d).1 = 0 := ht1.symm.trans hok
  have htab : r.2.table = (PollUpdateEvent ep.toPoll d).2.table :=
    congrArg EasyPoll.table ht2
  have hmem : d ∈ r.2.table := by
    rw [htab]; exact PollUpdateEvent_ok_mem ep.toPoll d hinv.1 hokp
  have hother : ∀ e : EasyEvent, e.fd ≠ d.fd → (e ∈ r.2.table ↔ e ∈ ep.table) := by
    intro e hne
    rw [htab]
    exact PollUpdateEvent_mem_other ep.toPoll d e hinv.1 hne
  have hd0 : 0 ≤ d.fd := by
    have := (TableInv_update ep.toPoll d hinv).2.2 d (by rw [← htab]; exact hmem)
    exact this
  refine ⟨fun _ => ⟨?_, ?_⟩, fun hnil => ?_⟩
  · intro x hx
    rw [hm]
    by_cases hxd : x.fd = d.fd
    · rw [hxd]
      split_ifs <;> omega
    · have hxt : x ∈ ep.table := (hother x hxd).1 hx
      have hne : ep.table ≠ [] := List.ne_nil_of_mem hxt
      have := (hmax.1 hne).1 x hxt
      split_ifs <;> omega
  · rw [hm]
    by_cases hgt : d.fd > ep.maxFd
    · rw [if_pos hgt]
      exact ⟨d, hmem, rfl⟩
    · rw [if_neg hgt]
      by_cases hne : ep.table = []
      · rcases hmax.2 hne with h0 | h1
        · exact ⟨d, hmem, by omega⟩
        · omega
      · obtain ⟨y, hy, hye⟩ := (hmax.1 hne).2
        by_cases hyd : y.fd = d.fd
        · exact ⟨d, hmem, by omega⟩
        · exact ⟨y, (hother y hyd).2 hy, hye⟩
  · rw [hnil] at hmem
    cases hmem

theorem SelectRemoveEvent_unchanged (ep : EasySelect) (d : EasyEvent)
    (hwf : ep.eventSize ≤ ep.eventList.length)
    (h : d.fd < 0 ∨ ∀ x ∈ ep.table, x.fd ≠ d.fd) :
    ∃ c, SelectRemoveEvent ep d = some (c, ep) := by
  by_cases hneg : d.fd < 0
  · exact ⟨-1, by simp [SelectRemoveEvent, hneg]⟩
  · rcases h with h | habs
    · exact absurd h hneg
    · have hs : scanFd ep.eventList d.fd ep.eventSize 0 = ep.eventSize :=
        (scanFd_eq_size_iff ep.toPoll d.fd hwf).2 habs
      exact ⟨0, by simp [SelectRemoveEvent, hneg, hs]⟩

theorem MaxFdInv_remove (ep : EasySelect) (d : EasyEvent) (r : Int × EasySelect)
    (hr : SelectRemoveEvent ep d = some r) (hinv : TableInv ep.toPoll)
    (hmax : MaxFdInv ep) : MaxFdInv r.2 := by
  have hwf : ep.toPoll.eventSize ≤ ep.toPoll.eventList.length := by
    rw [hinv.1.1]; exact hinv.1.2
  by_cases hpres : ∃ x ∈ ep.table, x.fd = d.fd
  · have hm := SelectRemoveEvent_present_maxFd ep d r hinv hpres hr
    have hinv2 : TableInv r.2.toPoll := by
      have h2 : r.2.toPoll = (PollRemoveEvent ep.toPoll d).2 :=
        congrArg Prod.snd (SelectRemoveEvent_toPoll ep d r hr)
      rw [h2]
      exact TableInv_remove _ d hinv
    obtain ⟨h1, h2, h3⟩ := foldl_max_spec r.2.table (-1)
    rw [← hm] at h1 h2 h3
    refine ⟨fun hne => ⟨h2, ?_⟩, fun hnil => ?_⟩
    · rcases h3 with h3 | h3
      · obtain ⟨x, hx⟩ := List.exists_mem_of_ne_nil _ hne
        have hx0 : 0 ≤ x.fd := hinv2.2.2 x hx
        have := h2 x hx
        omega
      · exact h3
    · right
      rw [hm, hnil]
      rfl
  · have habs : ∀ x ∈ ep.table, x.fd ≠ d.fd := fun x hx hxe => hpres ⟨x, hx, hxe⟩
    obtain ⟨c, hc⟩ := SelectRemoveEvent_unchanged ep d hwf (Or.inr habs)
    rw [hc] at hr
    cases hr
    exact hmax

theorem MaxFdInv_run (ops : List TableOp) (ep s : EasySelect) (hrun : SelectRun ep ops = some s)
    (hinv : TableInv ep.toPoll) (hmax : MaxFdInv ep) : MaxFdInv s := by
  induction ops generalizing ep with
  | nil =>
    cases hrun
    exact hmax
  | cons op ops ih =>
    obtain ⟨s1, hs1, hrest⟩ := Option.bind_eq_some.1 hrun
    have hinv2 : TableInv s1.toPoll := by
      rw [SelectStep_toPoll ep op s1 hs1]; exact TableInv_step _ op hinv
    have hmax2 : MaxFdInv s1 := by
      cases op with
      | AddEvent e =>
        obtain ⟨r, hr, rfl⟩ := Option.map_eq_some'.1 hs1
        exact MaxFdInv_update ep e r hr hinv hmax
      | UpdateEvent e =>
        obtain ⟨r, hr, rfl⟩ := Option.map_eq_some'.1 hs1
        exact MaxFdInv_update ep e r hr hinv hmax
      | RemoveEvent e =>
        obtain ⟨r, hr, rfl⟩ := Option.map_eq_some'.1 hs1
        exact MaxFdInv_remove ep e r hr hinv hmax
    exact ih s1 hrest hinv2 hmax2

/-- The tracked maximum: in every state of the select backend reached from
SelectCreate by a sequence of AddEvent/UpdateEvent/RemoveEvent calls that stays
inside the fd sets (as every sequence with descriptors below `FD_SETSIZE`
does), when the table is non-empty `maxFd` is the largest fd of the table (no
entry has a larger fd and some entry has exactly that fd), and when the table is
empty `maxFd` is 0 or -1. -/
theorem select_maxFd_tracks_table (c1 c2 : Bool) (h : Int) (ep s : EasySelect)
    (ops : List TableOp) (hc : SelectCreate c1 c2 h = some ep)
    (hrun : SelectRun ep ops = some s) :
    (s.table ≠ [] → (∀ x ∈ s.table, x.fd ≤ s.maxFd) ∧ ∃ x ∈ s.table, x.fd = s.maxFd) ∧
    (s.table = [] → s.maxFd = 0 ∨ s.maxFd = -1) := by
  unfold SelectCreate at hc
  split_ifs at hc
  cases hc
  refine MaxFdInv_run ops _ s hrun (TableInv_create h) ?_
  refine ⟨fun hne => absurd ?_ hne, fun _ => Or.inl rfl⟩
  simp [EasySelect.table]

theorem discipline_rejects :
    lockPaired false [.lock] = false ∧
    lockPaired false [.unlock] = false ∧
    lockPaired false [.lock, .lock, .unlock, .unlock] = false ∧
    lockPaired false [.lock, .unlock, .unlock] = false ∧
    waitUnlocked false [.lock, .os (.poll ⟨[], 0, 0⟩), .unlock] = false ∧
    waitUnlocked false [.lock, .os (.epoll_ctl ⟨3, .EPOLL_CTL_DEL, 0, none⟩), .unlock]
      = true := by
  decide

theorem PollMutate_discipline (handle : Option EasyPoll) (event : Option EasyEvent) :
    (lockPaired false (PollUpdateEventActions handle event) = true ∧
      waitUnlocked false (PollUpdateEventActions handle event) = true ∧
      osCallsOf (PollUpdateEventActions handle event) = []) ∧
    (lockPaired false (PollRemoveEventActions handle event) = true ∧
      waitUnlocked false (PollRemoveEventActions handle event) = true ∧
      osCallsOf (PollRemoveEventActions handle event) = []) := by
  cases handle with
  | none => exact ⟨⟨rfl, rfl, rfl⟩, ⟨rfl, rfl, rfl⟩⟩
  | some ep =>
    cases event with
    | none => exact ⟨⟨rfl, rfl, rfl⟩, ⟨rfl, rfl, rfl⟩⟩
    | some e =>
      simp only [PollUpdateEventActions, PollRemoveEventActions]
      refine ⟨?_, ?_⟩ <;> split_ifs <;> exact ⟨rfl, rfl, rfl⟩

theorem SelectMutate_discipline (handle : Option EasySelect) (event : Option EasyEvent) :
    (lockPaired false (SelectUpdateEventActions handle event) = true ∧
      waitUnlocked false (SelectUpdateEventActions handle event) = true ∧
      osCallsOf (SelectUpdateEventActions handle event) = []) ∧
    (lockPaired false (SelectRemoveEventActions handle event) = true ∧
      waitUnlocked false (SelectRemoveEventActions handle event) = true ∧
      osCallsOf (SelectRemoveEventActions handle event) = []) := by
  cases handle with
  | none => exact ⟨⟨rfl, rfl, rfl⟩, ⟨rfl, rfl, rfl⟩⟩
  | some ep =>
    cases event with
    | none => exact ⟨⟨rfl, rfl, rfl⟩, ⟨rfl, rfl, rfl⟩⟩
    | some e =>
      simp only [SelectUpdateEventActions, SelectRemoveEventActions]
      refine ⟨?_, ?_⟩ <;> split_ifs <;> exact ⟨rfl, rfl, rfl⟩

theorem EpollMutate_discipline (os : EpollCtlOs) (handle : Option EasyEpoll)
    (event : Option EasyEvent) :
    (lockPaired false (EpollUpdateEventActions os handle event) = true ∧
      waitUnlocked false (EpollUpdateEventActions os handle event) = true ∧
      osCallsOf (EpollUpdateEventActions os handle event)
        = (EpollUpdateEventPtr os handle event).osCalls.map .epoll_ctl) ∧
    (lockPaired false (EpollRemoveEventActions os handle event) = true ∧
      waitUnlocked false (EpollRemoveEventActions os handle event) = true ∧
      osCallsOf (EpollRemoveEventActions os handle event)
        = (EpollRemoveEventPtr os handle event).osCalls.map .epoll_ctl) := by
  cases handle with
  | none => exact ⟨⟨rfl, rfl, rfl⟩, ⟨rfl, rfl, rfl⟩⟩
  | some ep =>
    cases event with
    | none => exact ⟨⟨rfl, rfl, rfl⟩, ⟨rfl, rfl, rfl⟩⟩
    | some e =>
      simp only [EpollUpdateEventActions, EpollRemoveEventActions, EpollUpdateEventPtr,
        EpollRemoveEventPtr, EpollUpdateEvent, EpollRemoveEvent]
      refine ⟨?_, ?_⟩ <;> split_ifs <;> exact ⟨rfl, rfl, rfl⟩

theorem PollWait_discipline (poll : PollOs) (handle : Option EasyPoll)
    (events : Option (List EasyEvent)) (maxevents timeout : Int) :
    lockPaired false (PollWaitEventActions handle events maxevents timeout) = true ∧
    waitUnlocked false (PollWaitEventActions handle events maxevents timeout) = true ∧
    osCallsOf (PollWaitEventActions handle events maxevents timeout)
      = (PollWaitEventPtr poll handle events maxevents timeout).osCalls.map .poll := by
  cases handle with
  | none => exact ⟨rfl, rfl, rfl⟩
  | some ep =>
    cases events with
    | none => exact ⟨rfl, rfl, rfl⟩
    | some buf =>
      simp only [PollWaitEventActions, PollWaitEventPtr, PollWaitEvent]
      split_ifs <;> exact ⟨rfl, rfl, rfl⟩

theorem SelectWait_discipline (select : SelectOs) (handle : Option EasySelect)
    (events : Option (List EasyEvent)) (maxevents timeout : Int) :
    lockPaired false (SelectWaitEventActions handle events maxevents timeout) = true ∧
    waitUnlocked false (SelectWaitEventActions handle events maxevents timeout) = true ∧
    osCallsOf (SelectWaitEventActions handle events maxevents timeout)
      = (SelectWaitEventPtr select handle events maxevents timeout).osCalls.map .select := by
  cases handle with
  | none => exact ⟨rfl, rfl, rfl⟩
  | some ep =>
    cases events with
    | none => exact ⟨rfl, rfl, rfl⟩
    | some buf =>
      simp only [SelectWaitEventActions, SelectWaitEventPtr, SelectWaitEvent]
      split_ifs <;> exact ⟨rfl, rfl, rfl⟩

theorem EpollWait_discipline (epoll_wait : EpollWaitOs) (handle : Option EasyEpoll)
    (events : Option (List EasyEvent)) (maxevents timeout : Int) :
    lockPaired false (EpollWaitEventActions handle events maxevents timeout) = true ∧
    waitUnlocked false (EpollWaitEventActions handle events maxevents timeout) = true ∧
    osCallsOf (EpollWaitEventActions handle events maxevents timeout)
      = (EpollWaitEventPtr epoll_wait handle events maxevents timeout).osCalls.map
          .epoll_wait := by
  cases handle with
  | none => exact ⟨rfl, rfl, rfl⟩
  | some ep =>
    cases events with
    | none => exact ⟨rfl, rfl, rfl⟩
    | some buf =>
      simp only [EpollWaitEventActions, EpollWaitEventPtr, EpollWaitEvent]
      split_ifs <;> exact ⟨rfl, rfl, rfl⟩

/-- C23: with each backend operation modelled as its trace of lock, unlock and
OS-call actions, on every path of AddEvent, UpdateEvent, RemoveEvent and
WaitEvent of the three backends (the failure paths included) every lock is taken
with the mutex free and is followed by exactly one unlock before the operation
returns, and no blocking OS call (`epoll_wait`, `poll`, `select`) is made while
the mutex is held; the OS calls of each trace are the OS calls that the
operation issues. -/
theorem C23_lock_discipline :
    (∀ (handle : Option EasyPoll) (event : Option EasyEvent),
        (lockPaired false (PollAddEventActions handle event) = true ∧
          waitUnlocked false (PollAddEventActions handle event) = true) ∧
        (lockPaired false (PollUpdateEventActions handle event) = true ∧
          waitUnlocked false (PollUpdateEventActions handle event) = true) ∧
        (lockPaired false (PollRemoveEventActions handle event) = true ∧
          waitUnlocked false (PollRemoveEventActions handle event) = true)) ∧
    (∀ (handle : Option EasySelect) (event : Option EasyEvent),
        (lockPaired false (SelectAddEventActions handle event) = true ∧
          waitUnlocked false (SelectAddEventActions handle event) = true) ∧
        (lockPaired false (SelectUpdateEventActions handle event) = true ∧
          waitUnlocked false (SelectUpdateEventActions handle event) = true) ∧
        (lockPaired false (SelectRemoveEventActions handle event) = true ∧
          waitUnlocked false (SelectRemoveEventActions handle event) = true)) ∧
    (∀ (os : EpollCtlOs) (handle : Option EasyEpoll) (event : Option EasyEvent),
        (lockPaired false (EpollAddEventActions os handle event) = true ∧
          waitUnlocked false (EpollAddEventActions os handle event) = true ∧
          osCallsOf (EpollAddEventActions os handle event)
            = (EpollAddEventPtr os handle event).osCalls.map .epoll_ctl) ∧
        (lockPaired false (EpollUpdateEventActions os handle event) = true ∧
          waitUnlocked false (EpollUpdateEventActions os handle event) = true ∧
          osCallsOf (EpollUpdateEventActions os handle event)
            = (EpollUpdateEventPtr os handle event).osCalls.map .epoll_ctl) ∧
        (lockPaired false (EpollRemoveEventActions os handle event) = true ∧
          waitUnlocked false (EpollRemoveEventActions os handle event) = true ∧
          osCallsOf (EpollRemoveEventActions os handle event)
            = (EpollRemoveEventPtr os handle event).osCalls.map .epoll_ctl)) ∧
    (∀ (poll : PollOs) (handle : Option EasyPoll) (events : Option (List EasyEvent))
        (maxevents timeout : Int),
        lockPaired false (PollWaitEventActions handle events maxevents timeout) = true ∧
        waitUnlocked false (PollWaitEventActions handle events maxevents timeout) = true ∧
        osCallsOf (PollWaitEventActions handle events maxevents timeout)
          = (PollWaitEventPtr poll handle events maxevents timeout).osCalls.map .poll) ∧
    (∀ (select : SelectOs) (handle : Option EasySelect) (events : Option (List EasyEvent))
        (maxevents timeout : Int),
        lockPaired false (SelectWaitEventActions handle events maxevents timeout) = true ∧
        waitUnlocked false (SelectWaitEventActions handle events maxevents timeout) = true ∧
        osCallsOf (SelectWaitEventActions handle events maxevents timeout)
          = (SelectWaitEventPtr select handle events maxevents timeout).osCalls.map
              .select) ∧
    (∀ (epoll_wait : EpollWaitOs) (handle : Option EasyEpoll)
        (events : Option (List EasyEvent)) (maxevents timeout : Int),
        lockPaired false (EpollWaitEventActions handle events maxevents timeout) = true ∧
        waitUnlocked false (EpollWaitEventActions handle events maxevents timeout) = true ∧
        osCallsOf (EpollWaitEventActions handle events maxevents timeout)
          = (EpollWaitEventPtr epoll_wait handle events maxevents timeout).osCalls.map
              .epoll_wait) := by
  refine ⟨?_, ?_, ?_, PollWait_discipline, SelectWait_discipline, EpollWait_discipline⟩
  · intro handle event
    obtain ⟨⟨a, b, _⟩, ⟨c, d, _⟩⟩ := PollMutate_discipline handle event
    exact ⟨⟨a, b⟩, ⟨a, b⟩, ⟨c, d⟩⟩
  · intro handle event
    obtain ⟨⟨a, b, _⟩, ⟨c, d, _⟩⟩ := SelectMutate_discipline handle event
    exact ⟨⟨a, b⟩, ⟨a, b⟩, ⟨c, d⟩⟩
  · intro os handle event
    obtain ⟨hu, hr⟩ := EpollMutate_discipline os handle event
    exact ⟨hu, hu, hr⟩

end Poller
